import Mathlib

/-! # AsteroidsX: a shallow embedding of the simulation core

The definitions below follow `src/utils/Vector2.js`, `src/entities/*.js`,
`src/effects/ParticleSystem.js`, `src/game/GameStats.js`,
`src/game/ShipCustomizer.js` and `src/game/Game.js`.

Modelling conventions.

* JavaScript numbers are exact rationals (`ℚ`); counters that the source only
  ever increases by whole amounts are natural numbers, `lives` is an integer.
* `Math.sqrt` only ever feeds a comparison against a threshold in the modelled
  code, so `sqrt d < r` is computed as `0 < r ∧ d < r * r` (and proved equal to
  the comparison of the real square root in `distanceLt_iff_sqrt`).
* `Math.cos`, `Math.sin`, `Math.PI`, the window size and the sequences of
  values returned by `Math.random()`, `Date.now()` and `performance.now()` are
  the environment `Env`; `calls`, `dateReads` and `perfReads` count the calls
  made so far.
* Objects held in `Game.asteroids` carry an `id` standing for their reference
  identity (`indexOf` compares references); `nextId` is the allocation counter
  and `distinctIds` the resulting heap invariant.
* `setTimeout` and `requestAnimationFrame` append to `Game.timers`; a pending
  callback is run by `fire`.
* A loop whose exit depends on the random sequence takes a bound on its number
  of rounds and returns `none` when the bound is reached.
* The DOM, the audio manager, the decorative `Background`, the achievements
  table and `localStorage` never write to a modelled field and are left out; the
  summary handed to `showGameOverScreen` is kept in `Game.shownSummary`.
-/

namespace AsteroidsX

/-! ## Environment -/

/-- What the browser supplies: `Math.*`, `window.inner*` and the two clocks. -/
structure Env where
  cos : ℚ → ℚ
  sin : ℚ → ℚ
  PI : ℚ
  random : Nat → ℚ
  innerWidth : ℚ
  innerHeight : ℚ
  dateNow : Nat → ℚ
  performanceNow : Nat → ℚ

/-! ## Vector2 -/

/-- The class `Vector2`. -/
structure Vector2 where
  x : ℚ
  y : ℚ
deriving DecidableEq

namespace Vector2

/-- The static `Vector2.fromAngle(angle)`. -/
def fromAngle (env : Env) (angle : ℚ) : Vector2 :=
  { x := env.cos angle, y := env.sin angle }

/-- The static `Vector2.distanceSquared(a, b)`. -/
def distanceSquared (a b : Vector2) : ℚ :=
  let dx := a.x - b.x
  let dy := a.y - b.y
  dx * dx + dy * dy

/-- The test `Vector2.distance(a, b) < r`, where
`distance = Math.sqrt(dx * dx + dy * dy)`: a square root is below `r` exactly
when `r` is positive and the radicand is below `r * r`. -/
def distanceLt (a b : Vector2) (r : ℚ) : Bool :=
  decide (0 < r ∧ distanceSquared a b < r * r)

/-- The method `lengthSquared()`. -/
def lengthSquared (v : Vector2) : ℚ :=
  v.x * v.x + v.y * v.y

/-- The test `v.length() > r`, with `length = Math.sqrt(x * x + y * y)`: a
square root exceeds `r` exactly when `r` is negative or the radicand exceeds
`r * r`. -/
def lengthGt (v : Vector2) (r : ℚ) : Bool :=
  decide (r < 0 ∨ r * r < lengthSquared v)

/-- The method `scale(scalar)`. -/
def scale (v : Vector2) (scalar : ℚ) : Vector2 :=
  { x := v.x * scalar, y := v.y * scalar }

/-- The method `scaled(scalar)`, `clone().scale(scalar)`. -/
def scaled (v : Vector2) (scalar : ℚ) : Vector2 :=
  scale { x := v.x, y := v.y } scalar

/-- The method `add(other)`. -/
def add (v other : Vector2) : Vector2 :=
  { x := v.x + other.x, y := v.y + other.y }

/-- The method `length()`, `Math.sqrt(x * x + y * y)`; the platform's
`Math.sqrt` is the parameter `sqrt`. -/
def length (sqrt : ℚ → ℚ) (v : Vector2) : ℚ :=
  sqrt (v.x * v.x + v.y * v.y)

/-- The method `normalize()`. -/
def normalize (sqrt : ℚ → ℚ) (v : Vector2) : Vector2 :=
  let length := v.length sqrt
  if length > 0 then { x := v.x / length, y := v.y / length } else v

end Vector2

/-- The class `Vector2` with its coordinates in any ordered field of numbers
`K`. `Vector2` is the case of the rationals; over the reals `Math.sqrt` can be
the exact square root at every argument. -/
structure Vector2Over (K : Type) where
  x : K
  y : K

namespace Vector2Over

/-- The method `length()`, with `Math.sqrt` as the parameter `sqrt`. -/
def length {K : Type} [LinearOrderedField K] (sqrt : K → K) (v : Vector2Over K) : K :=
  sqrt (v.x * v.x + v.y * v.y)

/-- The method `normalize()`. -/
def normalize {K : Type} [LinearOrderedField K] (sqrt : K → K) (v : Vector2Over K) :
    Vector2Over K :=
  let length := v.length sqrt
  if length > 0 then { x := v.x / length, y := v.y / length } else v

end Vector2Over

/-- A rational vector as a vector over the field `K`. -/
def Vector2.over (K : Type) [LinearOrderedField K] (v : Vector2) : Vector2Over K :=
  { x := ((v.x : ℚ) : K), y := ((v.y : ℚ) : K) }

/-! ## Entities -/

/-- A point of the player's trail. -/
structure PlayerTrailPoint where
  x : ℚ
  y : ℚ
  life : ℚ
  size : ℚ
deriving DecidableEq

/-- The input state `Game.input`. -/
structure Input where
  left : Bool
  right : Bool
  thrust : Bool
  fire : Bool
  fireTimer : ℚ
deriving DecidableEq

/-- The class `Player` (the ship style and colours, used by rendering only,
are left out). -/
structure Player where
  position : Vector2
  velocity : Vector2
  rotation : ℚ
  angularVelocity : ℚ
  radius : ℚ
  isAlive : Bool
  invulnerable : Bool
  invulnerabilityTime : ℚ
  thrust : ℚ
  maxThrust : ℚ
  thrustDecay : ℚ
  rotationSpeed : ℚ
  trailPoints : List PlayerTrailPoint
  maxTrailLength : Nat
  hue : ℚ
  pulsePhase : ℚ
deriving DecidableEq

namespace Player

/-- The constructor `new Player(x, y, shipCustomizer)`. -/
def new (env : Env) (x y : ℚ) : Player :=
  { position := { x := x, y := y }
    velocity := { x := 0, y := 0 }
    rotation := -env.PI / 2
    angularVelocity := 0
    radius := 12
    isAlive := true
    invulnerable := false
    invulnerabilityTime := 0
    thrust := 0
    maxThrust := 300
    thrustDecay := 0.98
    rotationSpeed := 4
    trailPoints := []
    maxTrailLength := 20
    hue := 0
    pulsePhase := 0 }

/-- The method `updateTrail(deltaTime)`. -/
def updateTrail (deltaTime : ℚ) (p : Player) : Player :=
  let aged := (p.trailPoints.map fun point => { point with life := point.life - deltaTime * 2 }).filter
    fun point => decide (point.life > 0)
  let pushed :=
    if p.velocity.lengthGt 10 then
      aged ++ [{ x := p.position.x, y := p.position.y, life := 1.0, size := 2 }]
    else aged
  let limited := if pushed.length > p.maxTrailLength then pushed.tail else pushed
  { p with trailPoints := limited }

/-- The method `update(deltaTime, input)`; the second component is the number
of `Math.random()` calls made so far. -/
def update (env : Env) (calls : Nat) (deltaTime : ℚ) (input : Input) (p : Player) : Player × Nat :=
  if !p.isAlive then (p, calls) else
  let p := { p with pulsePhase := p.pulsePhase + deltaTime * 5, hue := p.hue + deltaTime * 60 }
  let p :=
    if input.left then { p with angularVelocity := -p.rotationSpeed }
    else if input.right then { p with angularVelocity := p.rotationSpeed }
    else { p with angularVelocity := p.angularVelocity * 0.9 }
  let p := { p with rotation := p.rotation + p.angularVelocity * deltaTime }
  let pc : Player × Nat :=
    if input.thrust then
      let p := { p with thrust := min (p.thrust + 200 * deltaTime) p.maxThrust }
      let thrustVector := (Vector2.fromAngle env p.rotation).scale (p.thrust * deltaTime)
      let p := { p with velocity := p.velocity.add thrustVector }
      let trailDirection := Vector2.fromAngle env (p.rotation + env.PI)
      let trailPoint : PlayerTrailPoint :=
        { x := p.position.x + trailDirection.x * 15
          y := p.position.y + trailDirection.y * 15
          life := 1.0
          size := 3 + env.random calls * 2 }
      ({ p with trailPoints := p.trailPoints ++ [trailPoint] }, calls + 1)
    else
      ({ p with thrust := p.thrust * p.thrustDecay }, calls)
  let p := pc.1
  let p := { p with velocity := p.velocity.scale 0.995 }
  let p := { p with position := p.position.add (p.velocity.scaled deltaTime) }
  let p := updateTrail deltaTime p
  let p :=
    if p.invulnerable then
      let p : Player := { p with invulnerabilityTime := p.invulnerabilityTime - deltaTime }
      if p.invulnerabilityTime ≤ 0 then { p with invulnerable := false } else p
    else p
  (p, pc.2)

/-- The method `destroy()`. -/
def destroy (p : Player) : Player :=
  { p with isAlive := false }

/-- The method `makeInvulnerable(duration)`. -/
def makeInvulnerable (p : Player) (duration : ℚ) : Player :=
  { p with invulnerable := true, invulnerabilityTime := duration }

end Player

/-- The size class of an asteroid. -/
inductive AsteroidSize where
  | large
  | medium
  | small
deriving DecidableEq

/-- The table `sizeMap` of the `Asteroid` constructor. -/
def sizeMap : AsteroidSize → ℚ
  | .large => 40
  | .medium => 25
  | .small => 15

/-- A line of an asteroid's crack pattern. -/
structure Crack where
  start : Vector2
  finish : Vector2
  width : ℚ
deriving DecidableEq

/-- The class `Asteroid`; `id` stands for the object's reference identity. -/
structure Asteroid where
  id : Nat
  position : Vector2
  velocity : Vector2
  rotation : ℚ
  angularVelocity : ℚ
  size : AsteroidSize
  radius : ℚ
  vertices : List Vector2
  hue : ℚ
  pulsePhase : ℚ
  glowIntensity : ℚ
  detailLevel : Nat
  crackPattern : List Crack
deriving DecidableEq

namespace Asteroid

/-- The method `generateShape()`, for an asteroid of the given radius; the
random calls are `calls`, `calls + 1`, ... -/
def generateShape (env : Env) (calls : Nat) (radius : ℚ) : List Vector2 × Nat :=
  let vertexCount : ℤ := 8 + ⌊env.random calls * 4⌋
  let vertices := (List.range vertexCount.toNat).map fun (i : Nat) =>
    let angle := (env.PI * 2 / vertexCount) * i
    let baseRadius := radius * 0.7
    let variation := radius * 0.3
    let r := baseRadius + (env.random (calls + 1 + i) - 0.5) * variation
    ({ x := env.cos angle * r, y := env.sin angle * r } : Vector2)
  (vertices, calls + 1 + vertexCount.toNat)

/-- The method `generateCracks()`. -/
def generateCracks (env : Env) (calls : Nat) (radius : ℚ) : List Crack × Nat :=
  let crackCount : ℤ := 3 + ⌊env.random calls * 4⌋
  let cracks := (List.range crackCount.toNat).map fun (i : Nat) =>
    let startAngle := env.random (calls + 1 + 3 * i) * env.PI * 2
    let startRadius := radius * 0.3
    let endRadius := radius * (0.7 + env.random (calls + 1 + 3 * i + 1) * 0.3)
    ({ start := { x := env.cos startAngle * startRadius, y := env.sin startAngle * startRadius }
       finish := { x := env.cos startAngle * endRadius, y := env.sin startAngle * endRadius }
       width := 0.5 + env.random (calls + 1 + 3 * i + 2) * 1.5 } : Crack)
  (cracks, calls + 1 + 3 * crackCount.toNat)

/-- The constructor `new Asteroid(x, y, size)`, allocated with identity `id`. -/
def new (env : Env) (calls : Nat) (id : Nat) (x y : ℚ) (size : AsteroidSize) : Asteroid × Nat :=
  let velocity : Vector2 :=
    { x := (env.random calls - 0.5) * 100, y := (env.random (calls + 1) - 0.5) * 100 }
  let rotation := env.random (calls + 2) * env.PI * 2
  let angularVelocity := (env.random (calls + 3) - 0.5) * 3
  let radius := sizeMap size
  let shape := generateShape env (calls + 4) radius
  let calls := shape.2
  let hue := env.random calls * 360
  let pulsePhase := env.random (calls + 1) * env.PI * 2
  let glowIntensity := 0.3 + env.random (calls + 2) * 0.4
  let detailLevel := if size = .large then 3 else if size = .medium then 2 else 1
  let cracks := generateCracks env (calls + 3) radius
  ({ id := id
     position := { x := x, y := y }
     velocity := velocity
     rotation := rotation
     angularVelocity := angularVelocity
     size := size
     radius := radius
     vertices := shape.1
     hue := hue
     pulsePhase := pulsePhase
     glowIntensity := glowIntensity
     detailLevel := detailLevel
     crackPattern := cracks.1 }, cracks.2)

/-- The method `update(deltaTime)`. -/
def update (deltaTime : ℚ) (a : Asteroid) : Asteroid :=
  { a with
    position := a.position.add (a.velocity.scaled deltaTime)
    rotation := a.rotation + a.angularVelocity * deltaTime
    pulsePhase := a.pulsePhase + deltaTime * 2
    hue := a.hue + deltaTime * 10 }

/-- The test `Math.sqrt(d) <= r`: the square root of `d` exists and is at most
`r` exactly when `d` and `r` are not negative and `d` is at most `r * r`. -/
def sqrtLe (d r : ℚ) : Bool :=
  decide (0 ≤ d ∧ 0 ≤ r ∧ d ≤ r * r)

/-- The method `containsPoint(x, y)`. -/
def containsPoint (env : Env) (a : Asteroid) (x y : ℚ) : Bool :=
  let localX := x - a.position.x
  let localY := y - a.position.y
  let cos := env.cos (-a.rotation)
  let sin := env.sin (-a.rotation)
  let rotatedX := localX * cos - localY * sin
  let rotatedY := localX * sin + localY * cos
  sqrtLe (rotatedX * rotatedX + rotatedY * rotatedY) a.radius

end Asteroid

/-- A point of a bullet's trail. -/
structure BulletTrailPoint where
  x : ℚ
  y : ℚ
  life : ℚ
  time : ℚ
deriving DecidableEq

/-- The class `Bullet`. -/
structure Bullet where
  position : Vector2
  velocity : Vector2
  radius : ℚ
  isAlive : Bool
  lifetime : ℚ
  age : ℚ
  hue : ℚ
  intensity : ℚ
  trailPoints : List BulletTrailPoint
  maxTrailLength : Nat
  pulsePhase : ℚ
  pulseSpeed : ℚ
deriving DecidableEq

namespace Bullet

/-- The constructor `new Bullet(x, y, velocity)`. -/
def new (env : Env) (calls : Nat) (x y : ℚ) (velocity : Vector2) : Bullet × Nat :=
  ({ position := { x := x, y := y }
     velocity := { x := velocity.x, y := velocity.y }
     radius := 3
     isAlive := true
     lifetime := 2.0
     age := 0
     hue := 180 + env.random calls * 60
     intensity := 1.0
     trailPoints := []
     maxTrailLength := 8
     pulsePhase := env.random (calls + 1) * env.PI * 2
     pulseSpeed := 15 }, calls + 2)

/-- The method `update(deltaTime)`. -/
def update (deltaTime : ℚ) (b : Bullet) : Bullet :=
  let b := { b with age := b.age + deltaTime, pulsePhase := b.pulsePhase + deltaTime * b.pulseSpeed }
  if b.age ≥ b.lifetime then { b with isAlive := false } else
  let b := { b with intensity := max 0 (1 - (b.age / b.lifetime) * 0.5) }
  let b := { b with position := b.position.add (b.velocity.scaled deltaTime) }
  let pushed := b.trailPoints ++
    [({ x := b.position.x, y := b.position.y, life := 1.0, time := b.age } : BulletTrailPoint)]
  let aged := (pushed.map fun point => { point with life := point.life - deltaTime * 3 }).filter
    fun point => decide (point.life > 0)
  let limited := if aged.length > b.maxTrailLength then aged.tail else aged
  { b with trailPoints := limited }

end Bullet

/-! ## ParticleSystem -/

/-- The `type` tag of a particle record. -/
inductive ParticleType where
  | spark
  | explosion
  | thrust
  | debris
  | star
  | other
deriving DecidableEq

/-- The `life` of a particle: a number, or `Infinity` (stars). -/
inductive Life where
  | finite (v : ℚ)
  | infinity
deriving DecidableEq

/-- The subtraction `life - d` for a finite `d`. -/
def Life.sub : Life → ℚ → Life
  | .finite v, d => .finite (v - d)
  | .infinity, _ => .infinity

/-- The test `life <= 0`. -/
def Life.leZero : Life → Bool
  | .finite v => decide (v ≤ 0)
  | .infinity => false

/-- A particle record; the fields some kinds leave undefined are options. -/
structure Particle where
  type : ParticleType
  position : Vector2
  velocity : Vector2
  life : Life
  size : ℚ
  hue : ℚ
  decay : ℚ
  drag : Option ℚ
  hueShift : Option ℚ
  sizeDecay : Option ℚ
  rotation : Option ℚ
  baseAlpha : Option ℚ
deriving DecidableEq

/-- The class `ParticleSystem`. -/
structure ParticleSystem where
  particles : List Particle
  maxParticles : Nat
deriving DecidableEq

/-- The JavaScript `v || dflt` for an optional number: `undefined` and `0` are
falsy. -/
def orDefault (v : Option ℚ) (dflt : ℚ) : ℚ :=
  match v with
  | some d => if d = 0 then dflt else d
  | none => dflt

namespace ParticleSystem

/-- The constructor `new ParticleSystem()`. -/
def new : ParticleSystem :=
  { particles := [], maxParticles := 1000 }

/-- The method `clear()`. -/
def clear (ps : ParticleSystem) : ParticleSystem :=
  { ps with particles := [] }

/-- The body of the `filter` callback of `update` for a particle that is kept. -/
def stepParticle (deltaTime : ℚ) (particle : Particle) : Particle :=
  let particle := { particle with position := particle.position.add (particle.velocity.scaled deltaTime) }
  let particle := { particle with velocity := particle.velocity.scale (orDefault particle.drag 0.98) }
  let particle :=
    match particle.hueShift with
    | some h => if h = 0 then particle else { particle with hue := particle.hue + h * deltaTime }
    | none => particle
  match particle.sizeDecay with
  | some d => if d = 0 then particle else { particle with size := particle.size * d }
  | none => particle

/-- The method `update(deltaTime)`. -/
def update (deltaTime : ℚ) (ps : ParticleSystem) : ParticleSystem :=
  { ps with
    particles := ps.particles.filterMap fun particle =>
      let particle := { particle with life := particle.life.sub (deltaTime * particle.decay) }
      if particle.life.leZero then none else some (stepParticle deltaTime particle) }

/-- The record pushed by round `i` of the first loop of `createExplosion`; its
random calls start at `calls`. -/
def explosionParticle (env : Env) (calls : Nat) (x y : ℚ) (particleCount : ℤ) (i : Nat) : Particle :=
  let angle := (env.PI * 2 / particleCount) * i + env.random calls * 0.5
  let speed := 50 + env.random (calls + 1) * 150
  let size := 2 + env.random (calls + 2) * 4
  { type := .explosion
    position := { x := x, y := y }
    velocity := { x := env.cos angle * speed, y := env.sin angle * speed }
    life := .finite (0.8 + env.random (calls + 3) * 0.4)
    size := size
    hue := 20 + env.random (calls + 4) * 60
    decay := 1.5 + env.random (calls + 5) * 0.5
    drag := some 0.95
    hueShift := none
    sizeDecay := none
    rotation := none
    baseAlpha := some 0.8 }

/-- The record pushed by a round of the debris loop of `createExplosion`. -/
def debrisParticle (env : Env) (calls : Nat) (x y : ℚ) : Particle :=
  let angle := env.random calls * env.PI * 2
  let speed := 30 + env.random (calls + 1) * 80
  { type := .debris
    position := { x := x, y := y }
    velocity := { x := env.cos angle * speed, y := env.sin angle * speed }
    life := .finite (1.5 + env.random (calls + 2) * 1.0)
    size := 3 + env.random (calls + 3) * 5
    hue := 30 + env.random (calls + 4) * 40
    decay := 0.8 + env.random (calls + 5) * 0.4
    drag := some 0.98
    hueShift := none
    sizeDecay := none
    rotation := some (env.random (calls + 6) * env.PI * 2)
    baseAlpha := some 0.9 }

/-- The method `createExplosion(x, y, intensity)`. -/
def createExplosion (env : Env) (calls : Nat) (x y : ℚ) (intensity : ℤ) (ps : ParticleSystem) :
    ParticleSystem × Nat :=
  let particleCount : ℤ := min intensity ((ps.maxParticles : ℤ) - ps.particles.length)
  let explosion := (List.range particleCount.toNat).map fun i =>
    explosionParticle env (calls + 6 * i) x y particleCount i
  let ps := { ps with particles := ps.particles ++ explosion }
  let calls := calls + 6 * particleCount.toNat
  let debrisCount : ℤ := min 8 ((ps.maxParticles : ℤ) - ps.particles.length)
  let debris := (List.range debrisCount.toNat).map fun i => debrisParticle env (calls + 7 * i) x y
  ({ ps with particles := ps.particles ++ debris }, calls + 7 * debrisCount.toNat)

/-- The record pushed by a round of the loop of `createMuzzleFlash`. -/
def sparkParticle (env : Env) (calls : Nat) (x y direction : ℚ) : Particle :=
  let spread : ℚ := 0.3
  let angle := direction + (env.random calls - 0.5) * spread
  let speed := 100 + env.random (calls + 1) * 50
  { type := .spark
    position := { x := x, y := y }
    velocity := { x := env.cos angle * speed, y := env.sin angle * speed }
    life := .finite (0.1 + env.random (calls + 2) * 0.1)
    size := 1 + env.random (calls + 3) * 2
    hue := 180 + env.random (calls + 4) * 60
    decay := 8
    drag := some 0.9
    hueShift := none
    sizeDecay := none
    rotation := none
    baseAlpha := some 0.9 }

/-- The method `createMuzzleFlash(x, y, direction)`. -/
def createMuzzleFlash (env : Env) (calls : Nat) (x y direction : ℚ) (ps : ParticleSystem) :
    ParticleSystem × Nat :=
  let particleCount := 8
  let sparks := (List.range particleCount).map fun i => sparkParticle env (calls + 5 * i) x y direction
  ({ ps with particles := ps.particles ++ sparks }, calls + 5 * particleCount)

/-- The record pushed by a round of the loop of `createThrustParticles`. -/
def thrustParticle (env : Env) (calls : Nat) (x y direction : ℚ) : Particle :=
  let spread : ℚ := 0.8
  let angle := direction + env.PI + (env.random calls - 0.5) * spread
  let speed := 80 + env.random (calls + 1) * 40
  { type := .thrust
    position := { x := x, y := y }
    velocity := { x := env.cos angle * speed, y := env.sin angle * speed }
    life := .finite (0.3 + env.random (calls + 2) * 0.2)
    size := 2 + env.random (calls + 3) * 3
    hue := 60 + env.random (calls + 4) * 30
    decay := 3
    drag := some 0.95
    hueShift := some 60
    sizeDecay := none
    rotation := none
    baseAlpha := some 0.7 }

/-- The method `createThrustParticles(x, y, direction, intensity)`. -/
def createThrustParticles (env : Env) (calls : Nat) (x y direction intensity : ℚ)
    (ps : ParticleSystem) : ParticleSystem × Nat :=
  let particleCount : ℤ := ⌊5 * intensity⌋
  let made := (List.range particleCount.toNat).map fun i => thrustParticle env (calls + 5 * i) x y direction
  ({ ps with particles := ps.particles ++ made }, calls + 5 * particleCount.toNat)

/-- The record pushed by a round of the loop of `createStarField`. -/
def starParticle (env : Env) (calls : Nat) (width height : ℚ) : Particle :=
  { type := .star
    position := { x := env.random calls * width, y := env.random (calls + 1) * height }
    velocity := { x := 0, y := 0 }
    life := .infinity
    size := 0.5 + env.random (calls + 2) * 2
    hue := 200 + env.random (calls + 3) * 160
    decay := 0
    drag := none
    hueShift := none
    sizeDecay := none
    rotation := none
    baseAlpha := some (0.3 + env.random (calls + 4) * 0.4) }

/-- The method `createStarField(count, bounds)`, for a whole number `count`. -/
def createStarField (env : Env) (calls : Nat) (count : Nat) (width height : ℚ)
    (ps : ParticleSystem) : ParticleSystem × Nat :=
  let made := (List.range count).map fun i => starParticle env (calls + 5 * i) width height
  ({ ps with particles := ps.particles ++ made }, calls + 5 * count)

/-- The method `addParticle(particle)`. -/
def addParticle (particle : Particle) (ps : ParticleSystem) : ParticleSystem :=
  if ps.particles.length < ps.maxParticles then
    { ps with particles := ps.particles ++ [particle] }
  else ps

/-- The method `getParticleCount()`. -/
def getParticleCount (ps : ParticleSystem) : Nat :=
  ps.particles.length

end ParticleSystem

/-- A call of one of the operations of a `ParticleSystem`, with its arguments. -/
inductive ParticleOp where
  | createExplosion (x y : ℚ) (intensity : ℤ)
  | createMuzzleFlash (x y direction : ℚ)
  | createThrustParticles (x y direction intensity : ℚ)
  | createStarField (count : Nat) (width height : ℚ)
  | addParticle (particle : Particle)
  | update (deltaTime : ℚ)
  | clear

/-- Running one operation on a particle system; the second component counts
the `Math.random()` calls. -/
def ParticleOp.run (env : Env) (op : ParticleOp) (s : ParticleSystem × Nat) : ParticleSystem × Nat :=
  match op with
  | .createExplosion x y intensity => s.1.createExplosion env s.2 x y intensity
  | .createMuzzleFlash x y direction => s.1.createMuzzleFlash env s.2 x y direction
  | .createThrustParticles x y direction intensity =>
    s.1.createThrustParticles env s.2 x y direction intensity
  | .createStarField count width height => s.1.createStarField env s.2 count width height
  | .addParticle particle => (s.1.addParticle particle, s.2)
  | .update deltaTime => (s.1.update deltaTime, s.2)
  | .clear => (s.1.clear, s.2)

/-- Running a sequence of operations on the system the constructor builds. -/
def runParticleOps (env : Env) (ops : List ParticleOp) : ParticleSystem × Nat :=
  ops.foldl (fun s op => op.run env s) (ParticleSystem.new, 0)

/-- Whether an operation is one of those that consult `maxParticles` or only
remove particles: `createExplosion`, `addParticle`, `update`, `clear`. -/
def ParticleOp.capped : ParticleOp → Bool
  | .createExplosion _ _ _ => true
  | .addParticle _ => true
  | .update _ => true
  | .clear => true
  | _ => false

/-! ## GameStats -/

/-- The record `GameStats.session`, as `startGame` lays it out. -/
structure Session where
  score : Nat
  level : Nat
  lives : ℤ
  asteroidsDestroyed : Nat
  shotsFired : Nat
  shotsHit : Nat
  accuracy : ℚ
  timeAlive : ℚ
  gameStartTime : ℚ
  perfectLevel : Bool
deriving DecidableEq

/-- The numeric fields of the record `GameStats.lifetime`. -/
structure Lifetime where
  gamesPlayed : Nat
  totalScore : Nat
  highScore : Nat
  maxLevel : Nat
  totalAsteroids : Nat
  totalTimeAlive : ℚ
  playTime : ℚ
deriving DecidableEq

/-- The class `GameStats`. -/
structure GameStats where
  session : Session
  lifetime : Lifetime
deriving DecidableEq

/-- The object returned by `getGameSummary()`; `minutes` and `seconds` are the
two numbers printed into the `timeAlive` string. -/
structure GameSummary where
  score : Nat
  level : Nat
  asteroids : Nat
  accuracy : ℤ
  minutes : ℤ
  seconds : ℤ
  newHighScore : Bool
  newMaxLevel : Bool
deriving DecidableEq

/-- The JavaScript remainder `a % b` (the quotient is truncated toward zero). -/
def jsRem (a b : ℚ) : ℚ :=
  a - b * (if 0 ≤ a / b then (⌊a / b⌋ : ℚ) else (⌈a / b⌉ : ℚ))

namespace GameStats

/-- The method `startGame()`, reading the clock value `now`. -/
def startGame (now : ℚ) (st : GameStats) : GameStats :=
  { session :=
      { score := 0
        level := 1
        lives := 3
        asteroidsDestroyed := 0
        shotsFired := 0
        shotsHit := 0
        accuracy := 0
        timeAlive := 0
        gameStartTime := now
        perfectLevel := true }
    lifetime := { st.lifetime with gamesPlayed := st.lifetime.gamesPlayed + 1 } }

/-- The method `endGame()`, reading the clock value `now`. -/
def endGame (now : ℚ) (st : GameStats) : GameStats :=
  let lifetime : Lifetime :=
    { st.lifetime with
      totalScore := st.lifetime.totalScore + st.session.score
      totalAsteroids := st.lifetime.totalAsteroids + st.session.asteroidsDestroyed
      totalTimeAlive := st.lifetime.totalTimeAlive + st.session.timeAlive
      playTime := st.lifetime.playTime + (now - st.session.gameStartTime) / 1000 }
  let lifetime : Lifetime :=
    if st.session.score > lifetime.highScore then { lifetime with highScore := st.session.score }
    else lifetime
  let lifetime : Lifetime :=
    if st.session.level > lifetime.maxLevel then { lifetime with maxLevel := st.session.level }
    else lifetime
  { st with lifetime := lifetime }

/-- The method `updateAccuracy()`. -/
def updateAccuracy (st : GameStats) : GameStats :=
  if st.session.shotsFired > 0 then
    { st with session := { st.session with accuracy := (st.session.shotsHit : ℚ) / st.session.shotsFired } }
  else st

/-- The method `addScore(points)`. -/
def addScore (points : Nat) (st : GameStats) : GameStats :=
  { st with session := { st.session with score := st.session.score + points } }

/-- The method `levelUp()`. -/
def levelUp (st : GameStats) : GameStats :=
  { st with session := { st.session with level := st.session.level + 1, perfectLevel := true } }

/-- The method `asteroidDestroyed()`. -/
def asteroidDestroyed (st : GameStats) : GameStats :=
  updateAccuracy
    { st with session :=
        { st.session with
          asteroidsDestroyed := st.session.asteroidsDestroyed + 1
          shotsHit := st.session.shotsHit + 1 } }

/-- The method `shotFired()`. -/
def shotFired (st : GameStats) : GameStats :=
  updateAccuracy { st with session := { st.session with shotsFired := st.session.shotsFired + 1 } }

/-- The method `updateTime()`, reading the clock value `now`. -/
def updateTime (now : ℚ) (st : GameStats) : GameStats :=
  { st with session := { st.session with timeAlive := (now - st.session.gameStartTime) / 1000 } }

/-- The method `getGameSummary()`. -/
def getGameSummary (st : GameStats) : GameSummary :=
  let sessionTime := st.session.timeAlive
  { score := st.session.score
    level := st.session.level
    asteroids := st.session.asteroidsDestroyed
    accuracy := ⌊st.session.accuracy * 100 + 1 / 2⌋
    minutes := ⌊sessionTime / 60⌋
    seconds := ⌊jsRem sessionTime 60⌋
    newHighScore := decide (st.session.score = st.lifetime.highScore)
    newMaxLevel := decide (st.session.level = st.lifetime.maxLevel) }

end GameStats

/-! ## ShipCustomizer -/

/-- The keys of the table `shipStyles`. -/
def shipStyleKeys : List String :=
  ["classic", "arrow", "diamond", "triangle", "stealth", "viper"]

/-- The `type` of an unlock requirement. -/
inductive RequirementType where
  | score
  | level
  | asteroids
deriving DecidableEq

/-- The table returned by `getUnlockRequirements()`, in key order. -/
def getUnlockRequirements : List (String × RequirementType × Nat) :=
  [("arrow", .score, 1000), ("diamond", .level, 3), ("triangle", .asteroids, 50),
   ("stealth", .score, 5000), ("viper", .level, 5)]

/-- The snapshot handed to `checkUnlocks`. -/
structure UnlockStats where
  highScore : Nat
  maxLevel : Nat
  totalAsteroids : Nat
deriving DecidableEq

/-- The class `ShipCustomizer`: the selected style and the set of unlocked
styles, in insertion order. -/
structure ShipCustomizer where
  currentStyle : String
  unlockedStyles : List String
deriving DecidableEq

namespace ShipCustomizer

/-- The state the constructor sets before `loadProgress()`. -/
def new : ShipCustomizer :=
  { currentStyle := "classic", unlockedStyles := ["classic"] }

/-- The method `isUnlocked(styleName)`. -/
def isUnlocked (sc : ShipCustomizer) (styleName : String) : Bool :=
  decide (styleName ∈ sc.unlockedStyles)

/-- The method `unlockStyle(styleName)`: the new state and the returned flag. -/
def unlockStyle (styleName : String) (sc : ShipCustomizer) : ShipCustomizer × Bool :=
  if styleName ∈ shipStyleKeys then
    (if styleName ∈ sc.unlockedStyles then sc
     else { sc with unlockedStyles := sc.unlockedStyles ++ [styleName] }, true)
  else (sc, false)

/-- The method `checkUnlocks(gameStats)`: the new state and the returned list. -/
def checkUnlocks (gameStats : UnlockStats) (sc : ShipCustomizer) : ShipCustomizer × List String :=
  getUnlockRequirements.foldl
    (fun (acc : ShipCustomizer × List String) (entry : String × RequirementType × Nat) =>
      let style := entry.1
      if !acc.1.isUnlocked style then
        let shouldUnlock : Bool :=
          match entry.2.1 with
          | .score => decide (gameStats.highScore ≥ entry.2.2)
          | .level => decide (gameStats.maxLevel ≥ entry.2.2)
          | .asteroids => decide (gameStats.totalAsteroids ≥ entry.2.2)
        if shouldUnlock then ((unlockStyle style acc.1).1, acc.2 ++ [style]) else acc
      else acc)
    (sc, [])

/-- The `switch` of `checkUnlocks` on a requirement's type: whether the
snapshot meets the requirement. -/
def requirementMet (gameStats : UnlockStats) (type : RequirementType) (value : Nat) : Bool :=
  match type with
  | .score => decide (gameStats.highScore ≥ value)
  | .level => decide (gameStats.maxLevel ≥ value)
  | .asteroids => decide (gameStats.totalAsteroids ≥ value)

/-- The unlock keys that a snapshot newly satisfies: the keys of the
requirement table, in table order, that are locked and whose requirement the
snapshot meets. -/
def newlySatisfied (gameStats : UnlockStats) (sc : ShipCustomizer) : List String :=
  (getUnlockRequirements.filter fun entry =>
    !sc.isUnlocked entry.1 && requirementMet gameStats entry.2.1 entry.2.2).map Prod.fst

end ShipCustomizer

/-! ## GameSettings -/

/-- The value of a setting: a number, a string or a boolean. -/
inductive SettingValue where
  | number (value : ℚ)
  | text (value : String)
  | flag (value : Bool)
deriving DecidableEq

/-- An object used as a map: its own properties in insertion order. -/
abbrev SettingsObject := List (String × SettingValue)

namespace SettingsObject

/-- The test `object.hasOwnProperty(key)`. -/
def hasOwnProperty (object : SettingsObject) (key : String) : Bool :=
  decide (key ∈ object.map Prod.fst)

/-- The read `object[key]`, `none` for `undefined`. -/
def property (key : String) : SettingsObject → Option SettingValue
  | [] => none
  | (k, v) :: rest => if k = key then some v else property key rest

/-- The assignment `object[key] = value`: an own property keeps its place, a
new one goes last. -/
def assign (key : String) (value : SettingValue) : SettingsObject → SettingsObject
  | [] => [(key, value)]
  | (k, v) :: rest => if k = key then (k, value) :: rest else (k, v) :: assign key value rest

/-- The spread of `object` and then `other` into a new object. -/
def spread (object other : SettingsObject) : SettingsObject :=
  other.foldl (fun merged entry => assign entry.1 entry.2 merged) object

end SettingsObject

/-- The object literal `this.defaults` of the constructor. -/
def settingDefaults : SettingsObject :=
  [("masterVolume", .number 0.7),
   ("musicVolume", .number 0.5),
   ("sfxVolume", .number 0.8),
   ("particleCount", .text "high"),
   ("screenShake", .flag true),
   ("flashEffects", .flag true),
   ("trailEffects", .flag true),
   ("glowEffects", .flag true),
   ("difficulty", .text "normal"),
   ("autofire", .flag false),
   ("showFPS", .flag false),
   ("rotationSensitivity", .number 1.0),
   ("thrustDeadzone", .number 0.1),
   ("colorTheme", .text "psychedelic"),
   ("backgroundIntensity", .number 1.0),
   ("reducedMotion", .flag false),
   ("highContrast", .flag false),
   ("colorBlindMode", .text "none")]

/-- The class `GameSettings`; `stored` is the item `asteroidsX_settings` of the
local storage, parsed. The events dispatched by `onSettingChanged` are left
out, they do not touch the object. -/
structure GameSettings where
  defaults : SettingsObject
  settings : SettingsObject
  stored : Option SettingsObject

namespace GameSettings

/-- The method `loadSettings()`. -/
def loadSettings (s : GameSettings) : GameSettings :=
  match s.stored with
  | some parsed => { s with settings := SettingsObject.spread s.defaults parsed }
  | none => s

/-- The constructor, run with the given content of the local storage. -/
def new (stored : Option SettingsObject) : GameSettings :=
  loadSettings { defaults := settingDefaults, settings := settingDefaults, stored := stored }

/-- The method `saveSettings()`, the write taken to succeed. -/
def saveSettings (s : GameSettings) : GameSettings :=
  { s with stored := some s.settings }

/-- The method `get(key)`. -/
def get (key : String) (s : GameSettings) : Option SettingValue :=
  SettingsObject.property key s.settings

/-- The method `set(key, value)`: the new state and the returned flag. -/
def set (key : String) (value : SettingValue) (s : GameSettings) : GameSettings × Bool :=
  if s.defaults.hasOwnProperty key then
    let s := { s with settings := SettingsObject.assign key value s.settings }
    let s := saveSettings s
    (s, true)
  else (s, false)

end GameSettings

/-! ## Game -/

/-- A callback handed to `setTimeout` or `requestAnimationFrame`:
`respawnIfRunning` is the one of `playerHit` (it tests `isRunning`),
`respawnPlayer` the retry of `respawnPlayer`, `setupLevel` the one of
`checkLevelComplete`, `start` the one of `restart`, `gameLoop` the frame
callback. -/
inductive Deferred where
  | respawnIfRunning
  | respawnPlayer
  | setupLevel
  | start
  | gameLoop
deriving DecidableEq

/-- A pending callback with its delay in milliseconds (0 for a frame callback). -/
structure Timer where
  delay : ℚ
  action : Deferred
deriving DecidableEq

/-- The class `Game`. -/
structure Game where
  env : Env
  calls : Nat
  dateReads : Nat
  perfReads : Nat
  nextId : Nat
  isRunning : Bool
  isPaused : Bool
  gameTime : ℚ
  deltaTime : ℚ
  lastTime : ℚ
  player : Option Player
  asteroids : List Asteroid
  bullets : List Bullet
  particles : ParticleSystem
  shipCustomizer : ShipCustomizer
  stats : GameStats
  score : Nat
  lives : ℤ
  level : Nat
  asteroidsDestroyed : Nat
  input : Input
  screenShake : ℚ
  flashEffect : ℚ
  warpEffect : ℚ
  cameraOffset : Vector2
  targetCameraOffset : Vector2
  timers : List Timer
  shownSummary : Option GameSummary

/-- What `checkCircleCollision` reads of its arguments. -/
structure Entity where
  position : Vector2
  radius : ℚ
deriving DecidableEq

/-- A player as an argument of `checkCircleCollision`. -/
def Player.entity (p : Player) : Entity :=
  { position := p.position, radius := p.radius }

/-- An asteroid as an argument of `checkCircleCollision`. -/
def Asteroid.entity (a : Asteroid) : Entity :=
  { position := a.position, radius := a.radius }

/-- A bullet as an argument of `checkCircleCollision`. -/
def Bullet.entity (b : Bullet) : Entity :=
  { position := b.position, radius := b.radius }

/-- The method `checkCircleCollision(obj1, obj2)`. -/
def checkCircleCollision (obj1 obj2 : Entity) : Bool :=
  Vector2.distanceLt obj1.position obj2.position (obj1.radius + obj2.radius)

/-- The table `scoreValues` of `destroyAsteroid`. -/
def scoreValues : AsteroidSize → Nat
  | .large => 20
  | .medium => 50
  | .small => 100

/-- The call `asteroids.indexOf(asteroid)`: the first index holding the object
of identity `id`, `none` for `-1`. -/
def indexOfId : List Asteroid → Nat → Option Nat
  | [], _ => none
  | b :: rest, id => if b.id = id then some 0 else (indexOfId rest id).map (· + 1)

/-- `Array.prototype.forEach` over `this.asteroids` with a callback that may
change the game, the array included: the indices below the length at the start
are visited in order, and an index the array no longer has is skipped. -/
def asteroidsForEach (f : Nat → Asteroid → Game → Game) (g : Game) : Game :=
  (List.range g.asteroids.length).foldl
    (fun s k =>
      match s.asteroids[k]? with
      | some asteroid => f k asteroid s
      | none => s)
    g

/-- `Array.prototype.forEach` over `this.bullets`, as `asteroidsForEach`. -/
def bulletsForEach (f : Nat → Bullet → Game → Game) (g : Game) : Game :=
  (List.range g.bullets.length).foldl
    (fun s k =>
      match s.bullets[k]? with
      | some bullet => f k bullet s
      | none => s)
    g

/-- The method `stop()`. -/
def stop (g : Game) : Game :=
  { g with isRunning := false, isPaused := false }

/-- The method `pause()`. -/
def pause (g : Game) : Game :=
  if !g.isRunning then g else { g with isPaused := true }

/-- The method `resume()`. -/
def resume (g : Game) : Game :=
  if !g.isRunning then g
  else { g with isPaused := false, lastTime := g.env.performanceNow g.perfReads, perfReads := g.perfReads + 1 }

/-- The method `restart()`. -/
def restart (g : Game) : Game :=
  let g := stop g
  { g with timers := g.timers ++ [{ delay := 100, action := .start }] }

/-- The `do ... while` loop of `createRandomAsteroid`, run for at most the given
number of rounds: the position drawn and the number of random calls made. -/
def rollPosition (env : Env) (player : Option Player) : Nat → Nat → Option (ℚ × ℚ × Nat)
  | 0, _ => none
  | rounds + 1, calls =>
    let x := env.random calls * env.innerWidth
    let y := env.random (calls + 1) * env.innerHeight
    let again : Bool :=
      match player with
      | some p => Vector2.distanceLt { x := x, y := y } p.position 100
      | none => false
    if again then rollPosition env player rounds (calls + 2) else some (x, y, calls + 2)

/-- The method `createRandomAsteroid()`. -/
def createRandomAsteroid (rounds : Nat) (g : Game) : Option Game :=
  match rollPosition g.env g.player rounds g.calls with
  | none => none
  | some (x, y, calls) =>
    let made := Asteroid.new g.env calls g.nextId x y .large
    some { g with asteroids := g.asteroids ++ [made.1], calls := made.2, nextId := g.nextId + 1 }

/-- The loop `for (let i = 0; i < asteroidCount; i++) this.createRandomAsteroid()`. -/
def createRandomAsteroids (rounds : Nat) : Nat → Game → Option Game
  | 0, g => some g
  | n + 1, g =>
    match createRandomAsteroid rounds g with
    | none => none
    | some g1 => createRandomAsteroids rounds n g1

/-- The method `setupLevel()`. -/
def setupLevel (rounds : Nat) (g : Game) : Option Game :=
  let centerX := g.env.innerWidth / 2
  let centerY := g.env.innerHeight / 2
  let g := { g with player := some (Player.new g.env centerX centerY) }
  let g := { g with asteroids := [], bullets := [], particles := g.particles.clear }
  let asteroidCount := min (2 + g.level / 2) 8
  createRandomAsteroids rounds asteroidCount g

/-- Round `i` of the loop of `createChildAsteroids`. -/
def createChild (parentAsteroid : Asteroid) (size : AsteroidSize) (count : Nat) (s : Game) (i : Nat) : Game :=
  let angle := (s.env.PI * 2 / count) * i + s.env.random s.calls * 0.5
  let distance : ℚ := 30
  let x := parentAsteroid.position.x + s.env.cos angle * distance
  let y := parentAsteroid.position.y + s.env.sin angle * distance
  let made := Asteroid.new s.env (s.calls + 1) s.nextId x y size
  let childAsteroid : Asteroid :=
    { made.1 with velocity := { x := s.env.cos angle * 50, y := s.env.sin angle * 50 } }
  { s with asteroids := s.asteroids ++ [childAsteroid], calls := made.2, nextId := s.nextId + 1 }

/-- The method `createChildAsteroids(parentAsteroid, size, count)`. -/
def createChildAsteroids (parentAsteroid : Asteroid) (size : AsteroidSize) (count : Nat) (g : Game) : Game :=
  (List.range count).foldl (createChild parentAsteroid size count) g

/-- The first statement of `destroyAsteroid`: `indexOf`, then `splice(index, 1)`
when the index is not `-1`. -/
def spliceAsteroid (asteroid : Asteroid) (g : Game) : Game :=
  match indexOfId g.asteroids asteroid.id with
  | some index => { g with asteroids := g.asteroids.eraseIdx index }
  | none => g

/-- The method `destroyAsteroid(asteroid, bullet)` (the bullet is not read). -/
def destroyAsteroid (asteroid : Asteroid) (g : Game) : Game :=
  let g := spliceAsteroid asteroid g
  let g := { g with score := g.score + scoreValues asteroid.size }
  let made := g.particles.createExplosion g.env g.calls asteroid.position.x asteroid.position.y
    (if asteroid.size = .large then 50 else if asteroid.size = .medium then 30 else 20)
  let g := { g with particles := made.1, calls := made.2 }
  let g := { g with screenShake := if asteroid.size = .large then 10 else 5 }
  let g :=
    if asteroid.size = .large then createChildAsteroids asteroid .medium 2 g
    else if asteroid.size = .medium then createChildAsteroids asteroid .small 2 g
    else g
  let g := { g with asteroidsDestroyed := g.asteroidsDestroyed + 1 }
  { g with stats := (g.stats.asteroidDestroyed).addScore (scoreValues asteroid.size) }

/-- The method `gameOver()`. -/
def gameOver (g : Game) : Game :=
  let g := { g with stats := g.stats.endGame (g.env.dateNow g.dateReads), dateReads := g.dateReads + 1 }
  let summary := g.stats.getGameSummary
  let g := { g with shownSummary := some summary }
  stop g

/-- The method `playerHit()`. Its callers have tested `this.player`. -/
def playerHit (g : Game) : Game :=
  match g.player with
  | none => g
  | some p =>
    if !p.isAlive then g else
    let p := p.destroy
    let g := { g with player := some p, lives := g.lives - 1 }
    let made := g.particles.createExplosion g.env g.calls p.position.x p.position.y 80
    let g := { g with particles := made.1, calls := made.2 }
    let g := { g with screenShake := 20, flashEffect := 1.0 }
    if g.lives ≤ 0 then gameOver g
    else { g with timers := g.timers ++ [{ delay := 2000, action := .respawnIfRunning }] }

/-- The method `respawnPlayer()`. -/
def respawnPlayer (g : Game) : Game :=
  let spawnX := g.env.innerWidth / 2
  let spawnY := g.env.innerHeight / 2
  let safeZone : ℚ := 100
  let isSafe := !g.asteroids.any fun asteroid =>
    Vector2.distanceLt { x := spawnX, y := spawnY } asteroid.position safeZone
  if isSafe then
    { g with player := some (Player.new g.env spawnX spawnY), flashEffect := 0.5 }
  else
    { g with timers := g.timers ++ [{ delay := 500, action := .respawnPlayer }] }

/-- The method `checkLevelComplete()`. -/
def checkLevelComplete (g : Game) : Game :=
  if g.asteroids.length = 0 then
    let g := { g with level := g.level + 1, stats := g.stats.levelUp, warpEffect := 1.0 }
    let unlocked := g.shipCustomizer.checkUnlocks
      { highScore := g.stats.lifetime.highScore
        maxLevel := g.stats.session.level
        totalAsteroids := g.stats.lifetime.totalAsteroids }
    { g with
      shipCustomizer := unlocked.1
      timers := g.timers ++ [{ delay := 1000, action := .setupLevel }] }
  else g

/-- The part `// Player vs Asteroids` of `checkCollisions`. -/
def playerVsAsteroids (g : Game) : Game :=
  asteroidsForEach
    (fun _ asteroid s =>
      match s.player with
      | some p => if checkCircleCollision p.entity asteroid.entity then playerHit s else s
      | none => s)
    g

/-- The callback of the inner loop of the part `// Bullets vs Asteroids`, for
the bullet at index `i`. -/
def bulletVsAsteroid (i : Nat) (bullet : Bullet) (asteroid : Asteroid) (t : Game) : Game :=
  if checkCircleCollision bullet.entity asteroid.entity then
    let t := destroyAsteroid asteroid t
    { t with bullets := t.bullets.modify (fun b => { b with isAlive := false }) i }
  else t

/-- The part `// Bullets vs Asteroids` of `checkCollisions`. -/
def bulletsVsAsteroids (g : Game) : Game :=
  bulletsForEach
    (fun i bullet s => asteroidsForEach (fun _ asteroid t => bulletVsAsteroid i bullet asteroid t) s)
    g

/-- The method `checkCollisions()`. -/
def checkCollisions (g : Game) : Game :=
  match g.player with
  | none => g
  | some p0 =>
    if !p0.isAlive then g else
    bulletsVsAsteroids (playerVsAsteroids g)

/-- The method `handleShooting()`. -/
def handleShooting (g : Game) : Game :=
  match g.player with
  | none => g
  | some p =>
    if g.input.fire && decide (g.input.fireTimer ≤ 0) && p.isAlive then
      let bulletDirection := Vector2.fromAngle g.env p.rotation
      let noseOffset : ℚ := 15
      let bulletX := p.position.x + bulletDirection.x * noseOffset
      let bulletY := p.position.y + bulletDirection.y * noseOffset
      let bulletVelocity := bulletDirection.scaled 400
      let made := Bullet.new g.env g.calls bulletX bulletY bulletVelocity
      let g := { g with bullets := g.bullets ++ [made.1], calls := made.2 }
      let g := { g with calls := g.calls + 1 }
      let flash := g.particles.createMuzzleFlash g.env g.calls bulletX bulletY p.rotation
      let g := { g with particles := flash.1, calls := flash.2 }
      let g := { g with input := { g.input with fireTimer := 0.15 } }
      { g with stats := g.stats.shotFired }
    else g

/-- The method `updateEffects()`. -/
def updateEffects (g : Game) : Game :=
  let g := { g with screenShake := g.screenShake * 0.9 }
  let g := if g.screenShake < 0.1 then { g with screenShake := 0 } else g
  let g := { g with flashEffect := g.flashEffect * 0.95 }
  let g := if g.flashEffect < 0.01 then { g with flashEffect := 0 } else g
  let g := { g with warpEffect := g.warpEffect * 0.98 }
  if g.warpEffect < 0.01 then { g with warpEffect := 0 } else g

/-- The method `wrapPosition(object)`, as a map of the object's position. -/
def wrapPosition (env : Env) (radius : ℚ) (position : Vector2) : Vector2 :=
  let margin := radius
  let screenWidth := env.innerWidth
  let screenHeight := env.innerHeight
  let position : Vector2 :=
    if position.x < -margin then { position with x := screenWidth + margin }
    else if position.x > screenWidth + margin then { position with x := -margin }
    else position
  if position.y < -margin then { position with y := screenHeight + margin }
  else if position.y > screenHeight + margin then { position with y := -margin }
  else position

/-- The method `updateCamera()`. -/
def updateCamera (g : Game) : Game :=
  match g.player with
  | none => g
  | some p =>
    let screenCenterX := g.env.innerWidth / 2
    let screenCenterY := g.env.innerHeight / 2
    let lerpFactor : ℚ := 0.05
    let g := { g with targetCameraOffset := { x := screenCenterX - p.position.x, y := screenCenterY - p.position.y } }
    { g with cameraOffset :=
        { x := g.cameraOffset.x + (g.targetCameraOffset.x - g.cameraOffset.x) * lerpFactor
          y := g.cameraOffset.y + (g.targetCameraOffset.y - g.cameraOffset.y) * lerpFactor } }

/-- The method `applyRadialGravity()`. -/
def applyRadialGravity (g : Game) : Game :=
  g

/-- The callback of `this.bullets.filter` in `update`, after `bullet.update`:
whether the bullet is kept. -/
def keepBullet (g : Game) (bullet : Bullet) : Bool :=
  let screenMargin : ℚ := 200
  let worldLeft := -g.cameraOffset.x - screenMargin
  let worldRight := -g.cameraOffset.x + g.env.innerWidth + screenMargin
  let worldTop := -g.cameraOffset.y - screenMargin
  let worldBottom := -g.cameraOffset.y + g.env.innerHeight + screenMargin
  let isOffScreen : Bool :=
    decide (bullet.position.x < worldLeft) || decide (bullet.position.x > worldRight) ||
    decide (bullet.position.y < worldTop) || decide (bullet.position.y > worldBottom)
  bullet.isAlive && !isOffScreen

/-- The part `// Update input timers` of `update`. -/
def updateInputTimers (g : Game) : Game :=
  if g.input.fireTimer > 0 then
    { g with input := { g.input with fireTimer := g.input.fireTimer - g.deltaTime } }
  else g

/-- The part `// Update game objects` of `update`: the player and the camera. -/
def updatePlayer (g : Game) : Game :=
  match g.player with
  | some p =>
    if p.isAlive then
      let moved := p.update g.env g.calls g.deltaTime g.input
      let g := { g with player := some moved.1, calls := moved.2 }
      applyRadialGravity (updateCamera g)
    else g
  | none => g

/-- The part `// Update asteroids` of `update`. -/
def updateAsteroids (g : Game) : Game :=
  asteroidsForEach
    (fun k asteroid s =>
      let asteroid := asteroid.update s.deltaTime
      let asteroid := { asteroid with position := wrapPosition s.env asteroid.radius asteroid.position }
      { s with asteroids := s.asteroids.set k asteroid })
    g

/-- The part `// Update bullets` of `update`. -/
def updateBullets (g : Game) : Game :=
  { g with bullets := (g.bullets.map (Bullet.update g.deltaTime)).filter (keepBullet g) }

/-- The method `update()`. -/
def update (g : Game) : Game :=
  let g := { g with gameTime := g.gameTime + g.deltaTime }
  let g := updateInputTimers g
  let g := updatePlayer g
  let g := updateAsteroids g
  let g := updateBullets g
  let g := { g with particles := g.particles.update g.deltaTime }
  let g := checkCollisions g
  let g := handleShooting g
  let g := checkLevelComplete g
  let g := updateEffects g
  { g with stats := g.stats.updateTime (g.env.dateNow g.dateReads), dateReads := g.dateReads + 1 }

/-- The state in which `update` calls `checkCollisions`: the game after the
parts of `update` that advance the clock, the timers, the player, the
asteroids, the bullets and the particles. -/
def updateObjects (g : Game) : Game :=
  let g := { g with gameTime := g.gameTime + g.deltaTime }
  let g := updateInputTimers g
  let g := updatePlayer g
  let g := updateAsteroids g
  let g := updateBullets g
  { g with particles := g.particles.update g.deltaTime }

/-- The method `gameLoop()` (rendering draws only). -/
def gameLoop (g : Game) : Game :=
  if !g.isRunning then g else
  let currentTime := g.env.performanceNow g.perfReads
  let g := { g with perfReads := g.perfReads + 1 }
  let g := { g with deltaTime := (currentTime - g.lastTime) / 1000 }
  let g := { g with lastTime := currentTime }
  let g := if !g.isPaused then update g else g
  { g with timers := g.timers ++ [{ delay := 0, action := .gameLoop }] }

/-- The method `start()`. -/
def start (rounds : Nat) (g : Game) : Option Game :=
  if g.isRunning then some g else
  let g := { g with isRunning := true, isPaused := false, gameTime := 0 }
  let g := { g with lastTime := g.env.performanceNow g.perfReads, perfReads := g.perfReads + 1 }
  let g := { g with score := 0, lives := 3, level := 1, asteroidsDestroyed := 0 }
  let g := { g with stats := g.stats.startGame (g.env.dateNow g.dateReads), dateReads := g.dateReads + 1 }
  match setupLevel rounds g with
  | none => none
  | some g => some (gameLoop g)

/-- Running a pending callback. -/
def fire (rounds : Nat) (action : Deferred) (g : Game) : Option Game :=
  match action with
  | .respawnIfRunning => some (if g.isRunning then respawnPlayer g else g)
  | .respawnPlayer => some (respawnPlayer g)
  | .setupLevel => setupLevel rounds g
  | .start => start rounds g
  | .gameLoop => some (gameLoop g)

/-- The asteroids of an array are distinct objects, all allocated before
`nextId`: the heap invariant behind the `id` field. -/
def distinctIds (asteroids : List Asteroid) (nextId : Nat) : Prop :=
  (asteroids.map Asteroid.id).Nodup ∧ ∀ a ∈ asteroids, a.id < nextId

/-- The flags of `this.input` that the key and touch handlers write. -/
inductive Key where
  | left
  | right
  | thrust
  | fire
deriving DecidableEq

/-- The input handlers `handleKeyDown`, `handleKeyUp` and `handleTouchInput`,
for a key or button the game listens to. -/
def handleInput (key : Key) (isPressed : Bool) (g : Game) : Game :=
  match key with
  | .left => { g with input := { g.input with left := isPressed } }
  | .right => { g with input := { g.input with right := isPressed } }
  | .thrust => { g with input := { g.input with thrust := isPressed } }
  | .fire => { g with input := { g.input with fire := isPressed } }

/-- The window is resized: `window.innerWidth` and `window.innerHeight` read
new values from now on. -/
def resize (width height : ℚ) (g : Game) : Game :=
  { g with env := { g.env with innerWidth := width, innerHeight := height } }

/-- An `update()` frame whose elapsed time is `deltaTime`. -/
def frame (deltaTime : ℚ) (g : Game) : Game :=
  update { g with deltaTime := deltaTime }

/-- What happens to a running session over time: a key goes down or up, or a
frame passes. -/
inductive FrameEvent where
  | input (key : Key) (isPressed : Bool)
  | tick (deltaTime : ℚ)

/-- The effect of an event on the game. -/
def FrameEvent.run (event : FrameEvent) (g : Game) : Game :=
  match event with
  | .input key isPressed => handleInput key isPressed g
  | .tick deltaTime => frame deltaTime g

/-- The time an event takes: the `deltaTime` of a frame, nothing for a key. -/
def FrameEvent.duration (event : FrameEvent) : ℚ :=
  match event with
  | .input _ _ => 0
  | .tick deltaTime => deltaTime

/-- The effect of a sequence of events, in order. -/
def runEvents (events : List FrameEvent) (g : Game) : Game :=
  events.foldl (fun s event => event.run s) g

/-- The `deltaTime` accumulated over a sequence of events. -/
def elapsed (events : List FrameEvent) : ℚ :=
  (events.map FrameEvent.duration).sum

/-- The number of bullets spawned in the session, as `stats.shotFired()` counts
them. -/
def shots (g : Game) : Nat :=
  g.stats.session.shotsFired

/-- The game's counters agree with the session counters of the recorder. -/
def mirrors (g : Game) : Prop :=
  g.score = g.stats.session.score ∧
  g.asteroidsDestroyed = g.stats.session.asteroidsDestroyed ∧
  g.level = g.stats.session.level

/-- The states of a session: `start()` on a game that is not running, followed
by any number of animation frames and other pending callbacks (`fire`), key and
touch events, window resizes, and the calls of `pause()`, `resume()`, `stop()`
and `restart()` the menus make. -/
inductive Reachable : Game → Prop where
  | started (rounds : Nat) (g0 g : Game) :
      g0.isRunning = false → start rounds g0 = some g → Reachable g
  | fired (rounds : Nat) (action : Deferred) (g g1 : Game) :
      Reachable g → fire rounds action g = some g1 → Reachable g1
  | keyed (key : Key) (isPressed : Bool) (g : Game) :
      Reachable g → Reachable (handleInput key isPressed g)
  | resized (width height : ℚ) (g : Game) : Reachable g → Reachable (resize width height g)
  | paused (g : Game) : Reachable g → Reachable (pause g)
  | resumed (g : Game) : Reachable g → Reachable (resume g)
  | stopped (g : Game) : Reachable g → Reachable (stop g)
  | restarted (g : Game) : Reachable g → Reachable (restart g)

/-- The lives counter is within its range, and a session with no life left has
been stopped. -/
def livesOk (g : Game) : Prop :=
  0 ≤ g.lives ∧ g.lives ≤ 3 ∧ (g.lives = 0 → g.isRunning = false)

/-- The state inside a frame: `livesOk`, and in a stopped session the player,
if any, has been destroyed. -/
def frameOk (g : Game) : Prop :=
  livesOk g ∧ (g.isRunning = false → ∀ p, g.player = some p → p.isAlive = false)

/-! ## Concrete states -/

/-- An environment: an 800 x 600 window, low-order Taylor polynomials for the
trigonometric functions, and a random sequence cycling through
0, 0.025, 0.05, 0.075. -/
def demoEnv : Env :=
  { cos := fun t => 1 - t * t / 2 + t * t * t * t / 24
    sin := fun t => t - t * t * t / 6 + t * t * t * t * t / 120
    PI := 355 / 113
    random := fun n => ((n % 4 : ℕ) : ℚ) / 40
    innerWidth := 800
    innerHeight := 600
    dateNow := fun n => 1000 + 16 * n
    performanceNow := fun n => 16 * n }

/-- An asteroid of the given identity, position and size class, built by the
constructor in `demoEnv`. -/
def demoAsteroid (id : Nat) (x y : ℚ) (size : AsteroidSize) : Asteroid :=
  (Asteroid.new demoEnv 0 id x y size).1

/-- A bullet at the given position flying to the right. -/
def demoBullet (x y : ℚ) : Bullet :=
  (Bullet.new demoEnv 0 x y { x := 400, y := 0 }).1

/-- A running session in `demoEnv`, three lives, level 1, with the player at
the centre of the window and nothing else. -/
def demoGame : Game :=
  { env := demoEnv
    calls := 0
    dateReads := 1
    perfReads := 1
    nextId := 10
    isRunning := true
    isPaused := false
    gameTime := 0
    deltaTime := 0.016
    lastTime := 0
    player := some (Player.new demoEnv 400 300)
    asteroids := []
    bullets := []
    particles := ParticleSystem.new
    shipCustomizer := ShipCustomizer.new
    stats := GameStats.startGame 1000
      { session :=
          { score := 0, level := 1, lives := 3, asteroidsDestroyed := 0, shotsFired := 0
            shotsHit := 0, accuracy := 0, timeAlive := 0, gameStartTime := 0, perfectLevel := true }
        lifetime :=
          { gamesPlayed := 0, totalScore := 0, highScore := 0, maxLevel := 1, totalAsteroids := 0
            totalTimeAlive := 0, playTime := 0 } }
    score := 0
    lives := 3
    level := 1
    asteroidsDestroyed := 0
    input := { left := false, right := false, thrust := false, fire := false, fireTimer := 0 }
    screenShake := 0
    flashEffect := 0
    warpEffect := 0
    cameraOffset := { x := 0, y := 0 }
    targetCameraOffset := { x := 0, y := 0 }
    timers := []
    shownSummary := none }

/-- The session `demoGame` with three small asteroids, the first and the third
at (100, 100), and one bullet at (100, 100). -/
def twoHitGame : Game :=
  { demoGame with
    asteroids :=
      [demoAsteroid 0 100 100 .small, demoAsteroid 1 600 500 .small, demoAsteroid 2 100 100 .small]
    bullets := [demoBullet 100 100] }

/-- The session `demoGame` with two large asteroids, at (100, 100) and at
(600, 500), and one bullet at (120, 100). -/
def fragmentGame : Game :=
  { demoGame with
    asteroids := [demoAsteroid 0 100 100 .large, demoAsteroid 1 600 500 .large]
    bullets := [demoBullet 120 100] }

/-- The session `demoGame` with a large and a medium asteroid on top of the
player. -/
def overlapGame : Game :=
  { demoGame with
    asteroids := [demoAsteroid 0 400 300 .large, demoAsteroid 1 410 300 .medium] }

/-- The session `overlapGame` after `makeInvulnerable(3)` on its player. -/
def invulnerableGame : Game :=
  { overlapGame with player := some ((Player.new demoEnv 400 300).makeInvulnerable 3) }

/-- The session `overlapGame` on its last life, with 120 points scored. -/
def lastLifeGame : Game :=
  { overlapGame with lives := 1, score := 120, stats := overlapGame.stats.addScore 120 }

/-- The session `demoGame` after one `update` frame, which finds the asteroid
array empty and schedules `setupLevel`, and a `stop()` before the callback
fires. -/
def staleLevelGame : Game :=
  stop (update demoGame)

/-- A stopped session whose player has been destroyed, with no asteroid near
the centre of the window and a retry of `respawnPlayer` still pending. -/
def staleRetryGame : Game :=
  stop
    { twoHitGame with
      player := some (Player.new demoEnv 400 300).destroy
      lives := 2
      timers := [{ delay := 500, action := .respawnPlayer }] }

/-- The session `demoGame` with two large asteroids, at (100, 100) and at
(600, 500), and one bullet at (60, 100) flying to the right at 400 a second. -/
def hitGame : Game :=
  { demoGame with
    asteroids := [demoAsteroid 0 100 100 .large, demoAsteroid 1 600 500 .large]
    bullets := [demoBullet 60 100] }

/-- The asteroid `demoAsteroid 0 100 100 .large`, not rotated. -/
def uprightAsteroid : Asteroid :=
  { demoAsteroid 0 100 100 .large with rotation := 0 }

/-- A square root that is exact on the squares of rationals: the integer
square roots of numerator and denominator. -/
def demoSqrt (d : ℚ) : ℚ :=
  (Nat.sqrt d.num.toNat : ℚ) / (Nat.sqrt d.den : ℚ)

/-- The session `fragmentGame` (a bullet inside a large asteroid) with its
player destroyed. -/
def deadPlayerGame : Game :=
  { fragmentGame with player := some (Player.new demoEnv 400 300).destroy }

/-- The session `hitGame` with the fire key held. -/
def firingGame : Game :=
  handleInput .fire true hitGame

/-- The input of a player who holds the thrust key. -/
def thrustInput : Input :=
  { left := false, right := false, thrust := true, fire := false, fireTimer := 0 }

/-- A player moving at 100 a second whose trail holds twenty fresh points. -/
def trailingPlayer : Player :=
  { Player.new demoEnv 400 300 with
    velocity := { x := 100, y := 0 }
    trailPoints := List.replicate 20 { x := 400, y := 300, life := 1.0, size := 2 } }

/-- The player `Player.new` after the given number of `update` calls of a
sixtieth of a second each, with the thrust key held. -/
def thrustedPlayer : Nat → Player × Nat
  | 0 => (Player.new demoEnv 400 300, 0)
  | frames + 1 =>
    let before := thrustedPlayer frames
    Player.update demoEnv before.2 (1 / 60) thrustInput before.1

/-- The session `start()` begins from the stopped `demoGame`. -/
def startedGame : Option Game :=
  start 1 (stop demoGame)

/-! # Theorems -/

/-! ## Vector2 and the collision test -/

theorem distanceSquared_comm (a b : Vector2) :
    Vector2.distanceSquared a b = Vector2.distanceSquared b a := by
  simp only [Vector2.distanceSquared]
  ring

theorem distanceSquared_nonneg (a b : Vector2) : 0 ≤ Vector2.distanceSquared a b := by
  simp only [Vector2.distanceSquared]
  nlinarith [mul_self_nonneg (a.x - b.x), mul_self_nonneg (a.y - b.y)]

/-- The rational test `distanceLt a b r` decides `Math.sqrt(dx * dx + dy * dy) < r`
for the real square root. -/
theorem distanceLt_iff_sqrt (a b : Vector2) (r : ℚ) :
    Vector2.distanceLt a b r = true ↔
      Real.sqrt (((Vector2.distanceSquared a b : ℚ) : ℝ)) < ((r : ℚ) : ℝ) := by
  have hd : (0 : ℝ) ≤ ((Vector2.distanceSquared a b : ℚ) : ℝ) := by
    exact_mod_cast distanceSquared_nonneg a b
  simp only [Vector2.distanceLt, decide_eq_true_eq]
  constructor
  · rintro ⟨hr, hlt⟩
    have hr' : (0 : ℝ) < (r : ℝ) := by exact_mod_cast hr
    rw [Real.sqrt_lt' hr']
    have : ((Vector2.distanceSquared a b : ℚ) : ℝ) < ((r * r : ℚ) : ℝ) := by exact_mod_cast hlt
    simpa [pow_two] using this
  · intro h
    have hr' : (0 : ℝ) < (r : ℝ) := lt_of_le_of_lt (Real.sqrt_nonneg _) h
    have hr : 0 < r := by exact_mod_cast hr'
    refine ⟨hr, ?_⟩
    rw [Real.sqrt_lt' hr'] at h
    have h2 : ((Vector2.distanceSquared a b : ℚ) : ℝ) < ((r * r : ℚ) : ℝ) := by
      simpa [pow_two] using h
    exact_mod_cast h2

/-- C1. `checkCircleCollision` is symmetric in its two entities, and it holds
exactly when the distance between the two positions (the real square root of
the squared distance) is strictly below the sum of the radii; in particular two
entities that exactly touch do not collide. -/
theorem checkCircleCollision_symm_strict (A B : Entity) :
    checkCircleCollision A B = checkCircleCollision B A ∧
    (checkCircleCollision A B = true ↔
      Real.sqrt ((((A.position.x - B.position.x) * (A.position.x - B.position.x) +
        (A.position.y - B.position.y) * (A.position.y - B.position.y) : ℚ) : ℝ)) <
        ((A.radius + B.radius : ℚ) : ℝ)) ∧
    (Real.sqrt ((((A.position.x - B.position.x) * (A.position.x - B.position.x) +
        (A.position.y - B.position.y) * (A.position.y - B.position.y) : ℚ) : ℝ)) =
        ((A.radius + B.radius : ℚ) : ℝ) → checkCircleCollision A B = false) := by
  have hiff := distanceLt_iff_sqrt A.position B.position (A.radius + B.radius)
  refine ⟨?_, ?_, ?_⟩
  · simp only [checkCircleCollision, Vector2.distanceLt]
    rw [distanceSquared_comm A.position B.position, add_comm A.radius B.radius]
  · simpa [checkCircleCollision, Vector2.distanceSquared] using hiff
  · intro h
    have hne : ¬ checkCircleCollision A B = true := by
      intro hc
      have := hiff.mp (by simpa [checkCircleCollision] using hc)
      simp only [Vector2.distanceSquared] at this
      rw [h] at this
      exact lt_irrefl _ this
    simpa using hne

/-! ## Loops -/

theorem foldl_invariant {α β : Type} (P : β → Prop) (f : β → α → β) (l : List α) (b : β)
    (h0 : P b) (hstep : ∀ s a, P s → P (f s a)) : P (l.foldl f b) := by
  induction l generalizing b with
  | nil => simpa using h0
  | cons a rest ih => simpa using ih (f b a) (hstep b a h0)

theorem asteroidsForEach_invariant (P : Game → Prop) (f : Nat → Asteroid → Game → Game) (g : Game)
    (h0 : P g) (hstep : ∀ k a s, P s → P (f k a s)) : P (asteroidsForEach f g) := by
  unfold asteroidsForEach
  apply foldl_invariant P _ _ _ h0
  intro s k hs
  cases h : s.asteroids[k]? with
  | none => simpa [h] using hs
  | some a => simpa [h] using hstep k a s hs

theorem bulletsForEach_invariant (P : Game → Prop) (f : Nat → Bullet → Game → Game) (g : Game)
    (h0 : P g) (hstep : ∀ k b s, P s → P (f k b s)) : P (bulletsForEach f g) := by
  unfold bulletsForEach
  apply foldl_invariant P _ _ _ h0
  intro s k hs
  cases h : s.bullets[k]? with
  | none => simpa [h] using hs
  | some b => simpa [h] using hstep k b s hs

/-! ## Fragmentation -/

theorem asteroid_new_size (env : Env) (calls id : Nat) (x y : ℚ) (size : AsteroidSize) :
    (Asteroid.new env calls id x y size).1.size = size := rfl

theorem createChild_asteroids (parent : Asteroid) (size : AsteroidSize) (count : Nat) (s : Game) (i : Nat) :
    ∃ c, (createChild parent size count s i).asteroids = s.asteroids ++ [c] ∧ c.size = size :=
  ⟨_, rfl, rfl⟩

theorem foldl_createChild_asteroids (parent : Asteroid) (size : AsteroidSize) (count : Nat)
    (l : List Nat) (g : Game) :
    ∃ children, (l.foldl (createChild parent size count) g).asteroids = g.asteroids ++ children ∧
      children.length = l.length ∧ ∀ c ∈ children, c.size = size := by
  induction l generalizing g with
  | nil => exact ⟨[], by simp⟩
  | cons i rest ih =>
    obtain ⟨c, hc, hsize⟩ := createChild_asteroids parent size count g i
    obtain ⟨children, hch, hlen, hall⟩ := ih (createChild parent size count g i)
    refine ⟨c :: children, ?_, by simp [hlen], ?_⟩
    · simp only [List.foldl_cons, hch, hc, List.append_assoc, List.singleton_append]
    · intro d hd
      rcases List.mem_cons.mp hd with h | h
      · rw [h]; exact hsize
      · exact hall d h

theorem createChildAsteroids_asteroids (parent : Asteroid) (size : AsteroidSize) (count : Nat) (g : Game) :
    ∃ children, (createChildAsteroids parent size count g).asteroids = g.asteroids ++ children ∧
      children.length = count ∧ ∀ c ∈ children, c.size = size := by
  obtain ⟨children, h1, h2, h3⟩ := foldl_createChild_asteroids parent size count (List.range count) g
  exact ⟨children, h1, by simpa using h2, h3⟩

/-- A function of the game that a round of `createChildAsteroids` does not
change is not changed by the loop. -/
theorem createChildAsteroids_proj {α : Type} (π : Game → α) (parent : Asteroid) (size : AsteroidSize)
    (count : Nat) (g : Game) (hπ : ∀ s i, π (createChild parent size count s i) = π s) :
    π (createChildAsteroids parent size count g) = π g := by
  unfold createChildAsteroids
  exact foldl_invariant (fun (r : Game) => π r = π g) _ _ _ rfl (fun s i hs => (hπ s i).trans hs)

@[simp] theorem createChildAsteroids_score (parent : Asteroid) (size : AsteroidSize) (count : Nat) (g : Game) :
    (createChildAsteroids parent size count g).score = g.score :=
  createChildAsteroids_proj Game.score parent size count g (fun _ _ => rfl)

@[simp] theorem createChildAsteroids_asteroidsDestroyed (parent : Asteroid) (size : AsteroidSize) (count : Nat) (g : Game) :
    (createChildAsteroids parent size count g).asteroidsDestroyed = g.asteroidsDestroyed :=
  createChildAsteroids_proj Game.asteroidsDestroyed parent size count g (fun _ _ => rfl)

@[simp] theorem createChildAsteroids_stats (parent : Asteroid) (size : AsteroidSize) (count : Nat) (g : Game) :
    (createChildAsteroids parent size count g).stats = g.stats :=
  createChildAsteroids_proj Game.stats parent size count g (fun _ _ => rfl)

@[simp] theorem createChildAsteroids_player (parent : Asteroid) (size : AsteroidSize) (count : Nat) (g : Game) :
    (createChildAsteroids parent size count g).player = g.player :=
  createChildAsteroids_proj Game.player parent size count g (fun _ _ => rfl)

@[simp] theorem createChildAsteroids_lives (parent : Asteroid) (size : AsteroidSize) (count : Nat) (g : Game) :
    (createChildAsteroids parent size count g).lives = g.lives :=
  createChildAsteroids_proj Game.lives parent size count g (fun _ _ => rfl)

@[simp] theorem createChildAsteroids_isRunning (parent : Asteroid) (size : AsteroidSize) (count : Nat) (g : Game) :
    (createChildAsteroids parent size count g).isRunning = g.isRunning :=
  createChildAsteroids_proj Game.isRunning parent size count g (fun _ _ => rfl)

@[simp] theorem createChildAsteroids_isPaused (parent : Asteroid) (size : AsteroidSize) (count : Nat) (g : Game) :
    (createChildAsteroids parent size count g).isPaused = g.isPaused :=
  createChildAsteroids_proj Game.isPaused parent size count g (fun _ _ => rfl)

@[simp] theorem createChildAsteroids_shownSummary (parent : Asteroid) (size : AsteroidSize) (count : Nat) (g : Game) :
    (createChildAsteroids parent size count g).shownSummary = g.shownSummary :=
  createChildAsteroids_proj Game.shownSummary parent size count g (fun _ _ => rfl)

@[simp] theorem createChildAsteroids_bullets (parent : Asteroid) (size : AsteroidSize) (count : Nat) (g : Game) :
    (createChildAsteroids parent size count g).bullets = g.bullets :=
  createChildAsteroids_proj Game.bullets parent size count g (fun _ _ => rfl)

@[simp] theorem createChildAsteroids_level (parent : Asteroid) (size : AsteroidSize) (count : Nat) (g : Game) :
    (createChildAsteroids parent size count g).level = g.level :=
  createChildAsteroids_proj Game.level parent size count g (fun _ _ => rfl)

@[simp] theorem createChildAsteroids_timers (parent : Asteroid) (size : AsteroidSize) (count : Nat) (g : Game) :
    (createChildAsteroids parent size count g).timers = g.timers :=
  createChildAsteroids_proj Game.timers parent size count g (fun _ _ => rfl)

@[simp] theorem createChildAsteroids_env (parent : Asteroid) (size : AsteroidSize) (count : Nat) (g : Game) :
    (createChildAsteroids parent size count g).env = g.env :=
  createChildAsteroids_proj Game.env parent size count g (fun _ _ => rfl)

@[simp] theorem createChildAsteroids_input (parent : Asteroid) (size : AsteroidSize) (count : Nat) (g : Game) :
    (createChildAsteroids parent size count g).input = g.input :=
  createChildAsteroids_proj Game.input parent size count g (fun _ _ => rfl)

@[simp] theorem createChildAsteroids_shipCustomizer (parent : Asteroid) (size : AsteroidSize) (count : Nat) (g : Game) :
    (createChildAsteroids parent size count g).shipCustomizer = g.shipCustomizer :=
  createChildAsteroids_proj Game.shipCustomizer parent size count g (fun _ _ => rfl)

@[simp] theorem createChildAsteroids_dateReads (parent : Asteroid) (size : AsteroidSize) (count : Nat) (g : Game) :
    (createChildAsteroids parent size count g).dateReads = g.dateReads :=
  createChildAsteroids_proj Game.dateReads parent size count g (fun _ _ => rfl)

theorem indexOfId_append (l1 l2 : List Asteroid) (a : Asteroid)
    (h : ∀ b ∈ l1, b.id ≠ a.id) : indexOfId (l1 ++ a :: l2) a.id = some l1.length := by
  induction l1 with
  | nil => simp [indexOfId]
  | cons b rest ih =>
    have hb : b.id ≠ a.id := h b (List.mem_cons_self _ _)
    have hrest : ∀ c ∈ rest, c.id ≠ a.id := fun c hc => h c (List.mem_cons_of_mem _ hc)
    simp [indexOfId, hb, ih hrest]

theorem eraseIdx_append_length (l1 l2 : List Asteroid) (a : Asteroid) :
    (l1 ++ a :: l2).eraseIdx l1.length = l1 ++ l2 := by
  induction l1 with
  | nil => simp
  | cons b rest ih => simp [ih]

@[simp] theorem spliceAsteroid_score (a : Asteroid) (g : Game) :
    (spliceAsteroid a g).score = g.score := by
  unfold spliceAsteroid
  cases indexOfId g.asteroids a.id <;> rfl

@[simp] theorem spliceAsteroid_asteroidsDestroyed (a : Asteroid) (g : Game) :
    (spliceAsteroid a g).asteroidsDestroyed = g.asteroidsDestroyed := by
  unfold spliceAsteroid
  cases indexOfId g.asteroids a.id <;> rfl

@[simp] theorem spliceAsteroid_stats (a : Asteroid) (g : Game) :
    (spliceAsteroid a g).stats = g.stats := by
  unfold spliceAsteroid
  cases indexOfId g.asteroids a.id <;> rfl

@[simp] theorem spliceAsteroid_player (a : Asteroid) (g : Game) :
    (spliceAsteroid a g).player = g.player := by
  unfold spliceAsteroid
  cases indexOfId g.asteroids a.id <;> rfl

@[simp] theorem spliceAsteroid_lives (a : Asteroid) (g : Game) :
    (spliceAsteroid a g).lives = g.lives := by
  unfold spliceAsteroid
  cases indexOfId g.asteroids a.id <;> rfl

@[simp] theorem spliceAsteroid_isRunning (a : Asteroid) (g : Game) :
    (spliceAsteroid a g).isRunning = g.isRunning := by
  unfold spliceAsteroid
  cases indexOfId g.asteroids a.id <;> rfl

@[simp] theorem spliceAsteroid_isPaused (a : Asteroid) (g : Game) :
    (spliceAsteroid a g).isPaused = g.isPaused := by
  unfold spliceAsteroid
  cases indexOfId g.asteroids a.id <;> rfl

@[simp] theorem spliceAsteroid_shownSummary (a : Asteroid) (g : Game) :
    (spliceAsteroid a g).shownSummary = g.shownSummary := by
  unfold spliceAsteroid
  cases indexOfId g.asteroids a.id <;> rfl

@[simp] theorem spliceAsteroid_bullets (a : Asteroid) (g : Game) :
    (spliceAsteroid a g).bullets = g.bullets := by
  unfold spliceAsteroid
  cases indexOfId g.asteroids a.id <;> rfl

@[simp] theorem spliceAsteroid_level (a : Asteroid) (g : Game) :
    (spliceAsteroid a g).level = g.level := by
  unfold spliceAsteroid
  cases indexOfId g.asteroids a.id <;> rfl

@[simp] theorem spliceAsteroid_timers (a : Asteroid) (g : Game) :
    (spliceAsteroid a g).timers = g.timers := by
  unfold spliceAsteroid
  cases indexOfId g.asteroids a.id <;> rfl

@[simp] theorem spliceAsteroid_env (a : Asteroid) (g : Game) :
    (spliceAsteroid a g).env = g.env := by
  unfold spliceAsteroid
  cases indexOfId g.asteroids a.id <;> rfl

@[simp] theorem spliceAsteroid_input (a : Asteroid) (g : Game) :
    (spliceAsteroid a g).input = g.input := by
  unfold spliceAsteroid
  cases indexOfId g.asteroids a.id <;> rfl

@[simp] theorem spliceAsteroid_shipCustomizer (a : Asteroid) (g : Game) :
    (spliceAsteroid a g).shipCustomizer = g.shipCustomizer := by
  unfold spliceAsteroid
  cases indexOfId g.asteroids a.id <;> rfl

@[simp] theorem spliceAsteroid_dateReads (a : Asteroid) (g : Game) :
    (spliceAsteroid a g).dateReads = g.dateReads := by
  unfold spliceAsteroid
  cases indexOfId g.asteroids a.id <;> rfl

/-- The asteroid array after `destroyAsteroid`: the array after the splice,
followed by the fragments. -/
theorem destroyAsteroid_asteroids (a : Asteroid) (g : Game) :
    ∃ children, (destroyAsteroid a g).asteroids = (spliceAsteroid a g).asteroids ++ children ∧
      (a.size = .large → children.length = 2 ∧ ∀ c ∈ children, c.size = .medium) ∧
      (a.size = .medium → children.length = 2 ∧ ∀ c ∈ children, c.size = .small) ∧
      (a.size = .small → children = []) := by
  cases hsize : a.size
  · obtain ⟨children, h1, h2, h3⟩ := createChildAsteroids_asteroids a .medium 2
      { ({ ({ spliceAsteroid a g with score := (spliceAsteroid a g).score + scoreValues a.size } : Game) with
            particles := ((spliceAsteroid a g).particles.createExplosion (spliceAsteroid a g).env
              (spliceAsteroid a g).calls a.position.x a.position.y 50).1
            calls := ((spliceAsteroid a g).particles.createExplosion (spliceAsteroid a g).env
              (spliceAsteroid a g).calls a.position.x a.position.y 50).2 } : Game) with
          screenShake := 10 }
    refine ⟨children, ?_, ?_, ?_, ?_⟩
    · simp only [destroyAsteroid, hsize]
      exact h1
    · intro _; exact ⟨h2, h3⟩
    · intro h; cases h
    · intro h; cases h
  · obtain ⟨children, h1, h2, h3⟩ := createChildAsteroids_asteroids a .small 2
      { ({ ({ spliceAsteroid a g with score := (spliceAsteroid a g).score + scoreValues a.size } : Game) with
            particles := ((spliceAsteroid a g).particles.createExplosion (spliceAsteroid a g).env
              (spliceAsteroid a g).calls a.position.x a.position.y 30).1
            calls := ((spliceAsteroid a g).particles.createExplosion (spliceAsteroid a g).env
              (spliceAsteroid a g).calls a.position.x a.position.y 30).2 } : Game) with
          screenShake := 5 }
    refine ⟨children, ?_, ?_, ?_, ?_⟩
    · simp only [destroyAsteroid, hsize]
      exact h1
    · intro h; cases h
    · intro _; exact ⟨h2, h3⟩
    · intro h; cases h
  · refine ⟨[], ?_, ?_, ?_, ?_⟩
    · simp only [destroyAsteroid, hsize]
      simp
    · intro h; cases h
    · intro h; cases h
    · intro _; rfl

/-- The fields `destroyAsteroid` leaves alone. -/
theorem destroyAsteroid_frame (a : Asteroid) (g : Game) :
    (destroyAsteroid a g).player = g.player ∧
    (destroyAsteroid a g).lives = g.lives ∧
    (destroyAsteroid a g).isRunning = g.isRunning ∧
    (destroyAsteroid a g).shownSummary = g.shownSummary ∧
    (destroyAsteroid a g).bullets = g.bullets ∧
    (destroyAsteroid a g).level = g.level ∧
    (destroyAsteroid a g).timers = g.timers ∧
    (destroyAsteroid a g).env = g.env := by
  simp only [destroyAsteroid]
  split_ifs <;> simp

/-- The score and the destroyed-asteroid counters after `destroyAsteroid`. -/
theorem destroyAsteroid_counters (a : Asteroid) (g : Game) :
    (destroyAsteroid a g).score = g.score + scoreValues a.size ∧
    (destroyAsteroid a g).asteroidsDestroyed = g.asteroidsDestroyed + 1 ∧
    (destroyAsteroid a g).stats.session.score = g.stats.session.score + scoreValues a.size ∧
    (destroyAsteroid a g).stats.session.asteroidsDestroyed = g.stats.session.asteroidsDestroyed + 1 := by
  have hstats : ∀ st : GameStats,
      ((st.asteroidDestroyed).addScore (scoreValues a.size)).session.score =
        st.session.score + scoreValues a.size ∧
      ((st.asteroidDestroyed).addScore (scoreValues a.size)).session.asteroidsDestroyed =
        st.session.asteroidsDestroyed + 1 := by
    intro st
    simp only [GameStats.addScore, GameStats.asteroidDestroyed, GameStats.updateAccuracy]
    split_ifs <;> simp
  simp only [destroyAsteroid]
  split_ifs <;> simp [hstats]

/-- C2. For an asteroid that is a member of the asteroid array (whose objects
have pairwise distinct identities), `destroyAsteroid` cuts exactly that
asteroid out, keeps every other asteroid in place and appends the fragments:
two medium ones for a large asteroid, two small ones for a medium asteroid and
none for a small one; no fragment is large. -/
theorem destroyAsteroid_removes_and_fragments (g : Game) (a : Asteroid)
    (hmem : a ∈ g.asteroids) (hids : (g.asteroids.map Asteroid.id).Nodup) :
    ∃ l1 l2 children, g.asteroids = l1 ++ a :: l2 ∧
      (destroyAsteroid a g).asteroids = l1 ++ l2 ++ children ∧
      (a.size = .large → children.length = 2 ∧ ∀ c ∈ children, c.size = .medium) ∧
      (a.size = .medium → children.length = 2 ∧ ∀ c ∈ children, c.size = .small) ∧
      (a.size = .small → children = []) ∧
      (∀ c ∈ children, c.size ≠ .large) := by
  obtain ⟨l1, l2, hsplit⟩ := List.mem_iff_append.mp hmem
  have hfresh : ∀ b ∈ l1, b.id ≠ a.id := by
    intro b hb heq
    rw [hsplit, List.map_append, List.map_cons] at hids
    have hdis := (List.nodup_append.mp hids).2.2
    exact hdis (List.mem_map_of_mem Asteroid.id hb) (by simp [heq])
  have hspl : (spliceAsteroid a g).asteroids = l1 ++ l2 := by
    unfold spliceAsteroid
    rw [hsplit, indexOfId_append l1 l2 a hfresh]
    exact eraseIdx_append_length l1 l2 a
  obtain ⟨children, hres, hL, hM, hS⟩ := destroyAsteroid_asteroids a g
  refine ⟨l1, l2, children, hsplit, by rw [hres, hspl], hL, hM, hS, ?_⟩
  intro c hc hlarge
  cases hsize : a.size
  · have := (hL hsize).2 c hc
    rw [hlarge] at this
    cases this
  · have := (hM hsize).2 c hc
    rw [hlarge] at this
    cases this
  · rw [hS hsize] at hc
    cases hc

theorem destroyAsteroid_removes_and_fragments_witness :
    demoAsteroid 0 100 100 .large ∈ fragmentGame.asteroids ∧
    (fragmentGame.asteroids.map Asteroid.id).Nodup ∧
    ∃ l1 l2 children, fragmentGame.asteroids = l1 ++ demoAsteroid 0 100 100 .large :: l2 ∧
      (destroyAsteroid (demoAsteroid 0 100 100 .large) fragmentGame).asteroids = l1 ++ l2 ++ children ∧
      ((demoAsteroid 0 100 100 .large).size = .large →
        children.length = 2 ∧ ∀ c ∈ children, c.size = .medium) ∧
      ((demoAsteroid 0 100 100 .large).size = .medium →
        children.length = 2 ∧ ∀ c ∈ children, c.size = .small) ∧
      ((demoAsteroid 0 100 100 .large).size = .small → children = []) ∧
      (∀ c ∈ children, c.size ≠ .large) :=
  ⟨List.mem_cons_self _ _, by decide,
    destroyAsteroid_removes_and_fragments fragmentGame (demoAsteroid 0 100 100 .large)
      (List.mem_cons_self _ _) (by decide)⟩

/-- C3. Every call of `destroyAsteroid` adds the table value of the asteroid's
size class (large 20, medium 50, small 100) to the score and exactly 1 to the
destroyed-asteroid count, in the game's counters and in the stats recorder's
session counters alike, whatever the size class and hence whatever the number
of fragments spawned. -/
theorem destroyAsteroid_score_and_count (a : Asteroid) (g : Game) :
    (scoreValues .large = 20 ∧ scoreValues .medium = 50 ∧ scoreValues .small = 100) ∧
    (destroyAsteroid a g).score = g.score + scoreValues a.size ∧
    (destroyAsteroid a g).asteroidsDestroyed = g.asteroidsDestroyed + 1 ∧
    (destroyAsteroid a g).stats.session.score = g.stats.session.score + scoreValues a.size ∧
    (destroyAsteroid a g).stats.session.asteroidsDestroyed =
      g.stats.session.asteroidsDestroyed + 1 :=
  ⟨⟨rfl, rfl, rfl⟩, destroyAsteroid_counters a g⟩

theorem foldl_asteroids_fixed (f : Asteroid → Game → Game)
    (hf : ∀ a s, (f a s).asteroids = s.asteroids) (l : List Asteroid) (g : Game) :
    (l.foldl (fun s a => f a s) g).asteroids = g.asteroids :=
  foldl_invariant (fun (r : Game) => r.asteroids = g.asteroids) _ _ _ rfl
    (fun s a hs => (hf a s).trans hs)

theorem range_foldl_eq_take (f : Asteroid → Game → Game)
    (hf : ∀ a s, (f a s).asteroids = s.asteroids) (g : Game) (n : Nat) (hn : n ≤ g.asteroids.length) :
    (List.range n).foldl
      (fun s k =>
        match s.asteroids[k]? with
        | some asteroid => f asteroid s
        | none => s) g =
    (g.asteroids.take n).foldl (fun s a => f a s) g := by
  induction n with
  | zero => simp
  | succ n ih =>
    have hlt : n < g.asteroids.length := hn
    rw [List.range_succ, List.foldl_append, ih (Nat.le_of_lt hlt)]
    have hfix := foldl_asteroids_fixed f hf (g.asteroids.take n) g
    have htake : g.asteroids.take (n + 1) = g.asteroids.take n ++ [g.asteroids[n]] := by
      rw [List.take_succ, List.getElem?_eq_getElem hlt]
      rfl
    rw [htake, List.foldl_append]
    simp only [List.foldl_cons, List.foldl_nil, hfix, List.getElem?_eq_getElem hlt]

/-- A `forEach` over the asteroids whose callback leaves the array alone visits
the asteroids of the array in order. -/
theorem asteroidsForEach_eq_foldl (f : Asteroid → Game → Game)
    (hf : ∀ a s, (f a s).asteroids = s.asteroids) (g : Game) :
    asteroidsForEach (fun _ a s => f a s) g = g.asteroids.foldl (fun s a => f a s) g := by
  have h := range_foldl_eq_take f hf g g.asteroids.length (le_refl _)
  rw [List.take_length] at h
  exact h

/-! ## The player against the asteroids -/

theorem playerHit_asteroids (g : Game) : (playerHit g).asteroids = g.asteroids := by
  unfold playerHit
  cases g.player with
  | none => rfl
  | some p =>
    simp only []
    split_ifs <;> rfl

theorem playerHit_bullets (g : Game) : (playerHit g).bullets = g.bullets := by
  unfold playerHit
  cases g.player with
  | none => rfl
  | some p =>
    simp only []
    split_ifs <;> rfl

theorem playerHit_of_dead (g : Game) (p : Player) (hp : g.player = some p) (hdead : p.isAlive = false) :
    playerHit g = g := by
  unfold playerHit
  rw [hp]
  simp [hdead]

/-- What `playerHit` does to an alive player: the player is destroyed in place
and one life is taken; at zero lives the session is stopped and the summary of
the stats recorder, whose score is the session score, is shown. -/
theorem playerHit_of_alive (g : Game) (p : Player) (hp : g.player = some p) (halive : p.isAlive = true) :
    (playerHit g).player = some p.destroy ∧ (playerHit g).lives = g.lives - 1 ∧
    (g.lives - 1 ≤ 0 → (playerHit g).isRunning = false ∧
      ∃ summary, (playerHit g).shownSummary = some summary ∧ summary.score = g.stats.session.score) ∧
    (¬ g.lives - 1 ≤ 0 → (playerHit g).isRunning = g.isRunning ∧
      (playerHit g).shownSummary = g.shownSummary ∧
      (playerHit g).timers = g.timers ++ [{ delay := 2000, action := .respawnIfRunning }]) := by
  unfold playerHit
  rw [hp]
  simp only [halive, Bool.not_true, Bool.false_eq_true, if_false]
  split_ifs with h
  · exact ⟨rfl, rfl, fun _ => ⟨rfl, _, rfl, rfl⟩, fun h2 => absurd h h2⟩
  · exact ⟨rfl, rfl, fun h2 => absurd h2 h, fun _ => ⟨rfl, rfl, rfl⟩⟩

/-- The callback of the first loop of `checkCollisions`. -/
theorem playerLoop_fold (l : List Asteroid) (s : Game) (p : Player) (hp : s.player = some p) :
    l.foldl
      (fun s a =>
        match s.player with
        | some p => if checkCircleCollision p.entity a.entity then playerHit s else s
        | none => s) s =
    if p.isAlive = true ∧ ∃ a ∈ l, checkCircleCollision p.entity a.entity = true then playerHit s else s := by
  induction l generalizing s p with
  | nil => simp
  | cons a rest ih =>
    simp only [List.foldl_cons, hp]
    by_cases hc : checkCircleCollision p.entity a.entity = true
    · simp only [hc, if_true]
      by_cases halive : p.isAlive = true
      · obtain ⟨hpl, -⟩ := playerHit_of_alive s p hp halive
        rw [ih (playerHit s) p.destroy hpl]
        have : p.destroy.isAlive = false := rfl
        simp [this, halive, hc]
      · have hdead : p.isAlive = false := by simpa using halive
        rw [playerHit_of_dead s p hp hdead, ih s p hp]
        simp [hdead]
    · have hcf : checkCircleCollision p.entity a.entity = false := by simpa using hc
      simp only [hcf, Bool.false_eq_true, if_false]
      rw [ih s p hp]
      simp [hcf]

theorem playerVsAsteroids_eq (g : Game) (p : Player) (hp : g.player = some p) :
    playerVsAsteroids g =
    if p.isAlive = true ∧ ∃ a ∈ g.asteroids, checkCircleCollision p.entity a.entity = true
    then playerHit g else g := by
  have h := asteroidsForEach_eq_foldl
    (fun asteroid s =>
      match s.player with
      | some p => if checkCircleCollision p.entity asteroid.entity then playerHit s else s
      | none => s)
    (by
      intro a s
      cases hs : s.player with
      | none => simp only [hs]
      | some q =>
        simp only [hs]
        split_ifs
        · exact playerHit_asteroids s
        · rfl) g
  exact h.trans (playerLoop_fold g.asteroids g p hp)

/-! ## The bullets against the asteroids -/

/-- The fields the part `// Bullets vs Asteroids` leaves alone. -/
theorem bulletsVsAsteroids_frame (g : Game) :
    (bulletsVsAsteroids g).player = g.player ∧
    (bulletsVsAsteroids g).lives = g.lives ∧
    (bulletsVsAsteroids g).isRunning = g.isRunning ∧
    (bulletsVsAsteroids g).shownSummary = g.shownSummary ∧
    (bulletsVsAsteroids g).level = g.level ∧
    (bulletsVsAsteroids g).timers = g.timers ∧
    (bulletsVsAsteroids g).env = g.env := by
  unfold bulletsVsAsteroids
  apply bulletsForEach_invariant (fun (r : Game) => r.player = g.player ∧ r.lives = g.lives ∧
    r.isRunning = g.isRunning ∧ r.shownSummary = g.shownSummary ∧ r.level = g.level ∧
    r.timers = g.timers ∧ r.env = g.env)
  · exact ⟨rfl, rfl, rfl, rfl, rfl, rfl, rfl⟩
  · intro i b s hs
    apply asteroidsForEach_invariant (fun (r : Game) => r.player = g.player ∧ r.lives = g.lives ∧
      r.isRunning = g.isRunning ∧ r.shownSummary = g.shownSummary ∧ r.level = g.level ∧
      r.timers = g.timers ∧ r.env = g.env) _ _ hs
    intro k a t ht
    unfold bulletVsAsteroid
    split_ifs
    · obtain ⟨h1, h2, h3, h4, -, h6, h7, h8⟩ := destroyAsteroid_frame a t
      obtain ⟨t1, t2, t3, t4, t5, t6, t7⟩ := ht
      exact ⟨h1.trans t1, h2.trans t2, h3.trans t3, h4.trans t4, h6.trans t5, h7.trans t6, h8.trans t7⟩
    · exact ht

theorem checkCollisions_of_hit (g : Game) (p : Player) (hp : g.player = some p)
    (halive : p.isAlive = true)
    (hoverlap : ∃ a ∈ g.asteroids, checkCircleCollision p.entity a.entity = true) :
    checkCollisions g = bulletsVsAsteroids (playerHit g) := by
  unfold checkCollisions
  rw [hp]
  simp only [halive, Bool.not_true, Bool.false_eq_true, if_false]
  rw [playerVsAsteroids_eq g p hp, if_pos ⟨halive, hoverlap⟩]

/-- C5. When an alive player overlaps `k >= 1` asteroids at once, one pass of
`checkCollisions` takes exactly one life (not `k`) and leaves the player not
alive. -/
theorem checkCollisions_player_destroyed_once (g : Game) (p : Player) (hp : g.player = some p)
    (halive : p.isAlive = true)
    (hk : 1 ≤ g.asteroids.countP (fun a => checkCircleCollision p.entity a.entity)) :
    (checkCollisions g).lives = g.lives - 1 ∧
    ∃ q, (checkCollisions g).player = some q ∧ q.isAlive = false := by
  have hoverlap : ∃ a ∈ g.asteroids, checkCircleCollision p.entity a.entity = true :=
    List.countP_pos_iff.mp hk
  rw [checkCollisions_of_hit g p hp halive hoverlap]
  obtain ⟨b1, b2, -⟩ := bulletsVsAsteroids_frame (playerHit g)
  obtain ⟨h1, h2, -⟩ := playerHit_of_alive g p hp halive
  exact ⟨b2.trans h2, p.destroy, b1.trans h1, rfl⟩

theorem checkCollisions_player_destroyed_once_witness :
    overlapGame.player = some (Player.new demoEnv 400 300) ∧
    (Player.new demoEnv 400 300).isAlive = true ∧
    overlapGame.asteroids.countP
      (fun a => checkCircleCollision (Player.new demoEnv 400 300).entity a.entity) = 2 ∧
    (checkCollisions overlapGame).lives = overlapGame.lives - 1 ∧
    ∃ q, (checkCollisions overlapGame).player = some q ∧ q.isAlive = false :=
  ⟨rfl, rfl, by decide!,
    checkCollisions_player_destroyed_once overlapGame (Player.new demoEnv 400 300) rfl rfl
      (by decide!)⟩

/-- C6, evaluated on the code: in `invulnerableGame` the player's `invulnerable`
flag is set and the player overlaps an asteroid; one pass of `checkCollisions`
leaves the player not alive and takes a life. -/
theorem checkCollisions_ignores_invulnerable :
    invulnerableGame.player.map Player.invulnerable = some true ∧
    invulnerableGame.player.map Player.isAlive = some true ∧
    invulnerableGame.lives = 3 ∧
    (checkCollisions invulnerableGame).player.map Player.isAlive = some false ∧
    (checkCollisions invulnerableGame).lives = 2 := by
  refine ⟨rfl, rfl, rfl, ?_, ?_⟩
  · have h := checkCollisions_of_hit invulnerableGame ((Player.new demoEnv 400 300).makeInvulnerable 3)
      rfl rfl ⟨demoAsteroid 0 400 300 .large, List.mem_cons_self _ _, by decide!⟩
    obtain ⟨b1, -⟩ := bulletsVsAsteroids_frame (playerHit invulnerableGame)
    obtain ⟨h1, -⟩ := playerHit_of_alive invulnerableGame
      ((Player.new demoEnv 400 300).makeInvulnerable 3) rfl rfl
    rw [h, b1, h1]
    rfl
  · have h := checkCollisions_of_hit invulnerableGame ((Player.new demoEnv 400 300).makeInvulnerable 3)
      rfl rfl ⟨demoAsteroid 0 400 300 .large, List.mem_cons_self _ _, by decide!⟩
    obtain ⟨-, b2, -⟩ := bulletsVsAsteroids_frame (playerHit invulnerableGame)
    obtain ⟨-, h2, -⟩ := playerHit_of_alive invulnerableGame
      ((Player.new demoEnv 400 300).makeInvulnerable 3) rfl rfl
    rw [h, b2, h2]
    rfl

/-- C7. In a running session whose player has exactly one life, is alive, is
not invulnerable and overlaps an asteroid, and whose stats recorder mirrors the
game's score, one pass of `checkCollisions` leaves `lives` at 0, stops the
session (`isRunning` is false) and shows a summary whose score is the score the
game held before the hit. -/
theorem checkCollisions_last_life_game_over (g : Game) (p : Player)
    (_hrun : g.isRunning = true) (hlives : g.lives = 1) (hp : g.player = some p)
    (halive : p.isAlive = true) (_hinv : p.invulnerable = false)
    (hoverlap : ∃ a ∈ g.asteroids, checkCircleCollision p.entity a.entity = true)
    (hmirror : g.stats.session.score = g.score) :
    (checkCollisions g).lives = 0 ∧ (checkCollisions g).isRunning = false ∧
    ∃ summary, (checkCollisions g).shownSummary = some summary ∧ summary.score = g.score := by
  rw [checkCollisions_of_hit g p hp halive hoverlap]
  obtain ⟨-, b2, b3, b4, -⟩ := bulletsVsAsteroids_frame (playerHit g)
  obtain ⟨-, h2, h3, -⟩ := playerHit_of_alive g p hp halive
  have hzero : g.lives - 1 ≤ 0 := by rw [hlives]; decide
  obtain ⟨hstop, summary, hshown, hscore⟩ := h3 hzero
  refine ⟨?_, b3.trans hstop, summary, b4.trans hshown, hscore.trans hmirror⟩
  rw [b2, h2, hlives]
  rfl

theorem checkCollisions_last_life_game_over_witness :
    lastLifeGame.isRunning = true ∧ lastLifeGame.lives = 1 ∧
    lastLifeGame.player = some (Player.new demoEnv 400 300) ∧
    lastLifeGame.score = 120 ∧
    (checkCollisions lastLifeGame).lives = 0 ∧ (checkCollisions lastLifeGame).isRunning = false ∧
    ∃ summary, (checkCollisions lastLifeGame).shownSummary = some summary ∧
      summary.score = lastLifeGame.score :=
  ⟨rfl, rfl, rfl, rfl,
    checkCollisions_last_life_game_over lastLifeGame (Player.new demoEnv 400 300) rfl rfl rfl rfl rfl
      ⟨demoAsteroid 0 400 300 .large, List.mem_cons_self _ _, by decide!⟩ rfl⟩

/-! ## Level completion -/

theorem asteroidsForEach_of_empty (f : Nat → Asteroid → Game → Game) (g : Game)
    (h : g.asteroids = []) : asteroidsForEach f g = g := by
  unfold asteroidsForEach
  rw [h]
  rfl

theorem bulletsVsAsteroids_of_empty (g : Game) (h : g.asteroids = []) :
    bulletsVsAsteroids g = g := by
  unfold bulletsVsAsteroids
  apply bulletsForEach_invariant (fun (r : Game) => r = g) _ _ rfl
  intro i b s hs
  rw [hs]
  exact asteroidsForEach_of_empty _ g h

theorem checkCollisions_of_empty (g : Game) (h : g.asteroids = []) : checkCollisions g = g := by
  unfold checkCollisions
  cases hp : g.player with
  | none => rfl
  | some p =>
    simp only []
    split_ifs
    · rfl
    · have h1 : playerVsAsteroids g = g := asteroidsForEach_of_empty _ g h
      rw [h1]
      exact bulletsVsAsteroids_of_empty g h

theorem handleShooting_frame (g : Game) :
    (handleShooting g).asteroids = g.asteroids ∧ (handleShooting g).level = g.level := by
  unfold handleShooting
  cases g.player with
  | none => exact ⟨rfl, rfl⟩
  | some p =>
    simp only []
    split_ifs
    · exact ⟨rfl, rfl⟩
    · exact ⟨rfl, rfl⟩

theorem checkLevelComplete_of_empty (g : Game) (h : g.asteroids = []) :
    (checkLevelComplete g).level = g.level + 1 ∧ (checkLevelComplete g).asteroids = [] ∧
    (checkLevelComplete g).timers = g.timers ++ [{ delay := 1000, action := .setupLevel }] := by
  unfold checkLevelComplete
  simp [h]

theorem updateEffects_frame (g : Game) :
    (updateEffects g).asteroids = g.asteroids ∧ (updateEffects g).level = g.level := by
  unfold updateEffects
  simp only []
  split_ifs <;> exact ⟨rfl, rfl⟩

theorem updateInputTimers_frame (g : Game) :
    (updateInputTimers g).asteroids = g.asteroids ∧ (updateInputTimers g).level = g.level := by
  unfold updateInputTimers
  split_ifs <;> exact ⟨rfl, rfl⟩

theorem updateCamera_frame (g : Game) :
    (updateCamera g).asteroids = g.asteroids ∧ (updateCamera g).level = g.level := by
  unfold updateCamera
  cases g.player <;> exact ⟨rfl, rfl⟩

theorem updatePlayer_frame (g : Game) :
    (updatePlayer g).asteroids = g.asteroids ∧ (updatePlayer g).level = g.level := by
  unfold updatePlayer
  cases g.player with
  | none => exact ⟨rfl, rfl⟩
  | some p =>
    simp only []
    split_ifs
    · exact updateCamera_frame _
    · exact ⟨rfl, rfl⟩

/-- A frame of `update` that starts with an empty asteroid array ends with an
empty asteroid array and with the level counter raised by one. -/
theorem update_of_empty (g : Game) (h : g.asteroids = []) :
    (update g).level = g.level + 1 ∧ (update g).asteroids = [] := by
  unfold update
  lift_lets
  intro g1 g2 g3 g4 g5 g6 g7 g8 g9 g10
  have h1 : g1.asteroids = [] ∧ g1.level = g.level := ⟨h, rfl⟩
  have h2 : g2.asteroids = [] ∧ g2.level = g.level := by
    obtain ⟨a, l⟩ := updateInputTimers_frame g1
    exact ⟨a.trans h1.1, l.trans h1.2⟩
  have h3 : g3.asteroids = [] ∧ g3.level = g.level := by
    obtain ⟨a, l⟩ := updatePlayer_frame g2
    exact ⟨a.trans h2.1, l.trans h2.2⟩
  have e4 : g4 = g3 := asteroidsForEach_of_empty _ g3 h3.1
  have h5 : g5.asteroids = [] ∧ g5.level = g.level := by
    have a : g5.asteroids = g4.asteroids := rfl
    have l : g5.level = g4.level := rfl
    rw [a, l, e4]
    exact h3
  have h6 : g6.asteroids = [] ∧ g6.level = g.level := h5
  have e7 : g7 = g6 := checkCollisions_of_empty g6 h6.1
  have h8 : g8.asteroids = [] ∧ g8.level = g.level := by
    obtain ⟨a, l⟩ := handleShooting_frame g7
    have h7 : g7.asteroids = [] ∧ g7.level = g.level := by rw [e7]; exact h6
    exact ⟨a.trans h7.1, l.trans h7.2⟩
  obtain ⟨l9, a9, -⟩ := checkLevelComplete_of_empty g8 h8.1
  obtain ⟨a10, l10⟩ := updateEffects_frame g9
  refine ⟨?_, ?_⟩
  · show g10.level = g.level + 1
    rw [l10, l9, h8.2]
  · show g10.asteroids = []
    rw [a10, a9]

theorem iterate_update_of_empty (k : Nat) (g : Game) (h : g.asteroids = []) :
    (update^[k] g).level = g.level + k ∧ (update^[k] g).asteroids = [] := by
  induction k generalizing g with
  | zero => exact ⟨rfl, h⟩
  | succ k ih =>
    obtain ⟨l1, a1⟩ := update_of_empty g h
    obtain ⟨l2, a2⟩ := ih (update g) a1
    rw [Function.iterate_succ_apply]
    exact ⟨by rw [l2, l1]; ring, a2⟩

/-- C8, evaluated on the code: `demoGame` is a running session at level 1 whose
asteroid array is empty. One `update` frame raises the level to 2, a second
frame to 3, and sixty frames (one second at sixty frames a second, the delay of
the scheduled `setupLevel`) to 61. -/
theorem update_increments_level_every_empty_frame :
    demoGame.isRunning = true ∧ demoGame.asteroids = [] ∧ demoGame.level = 1 ∧
    (update demoGame).level = 2 ∧
    (update (update demoGame)).level = 3 ∧
    (update^[60] demoGame).level = 61 :=
  ⟨rfl, rfl, rfl, (update_of_empty demoGame rfl).1,
    (iterate_update_of_empty 2 demoGame rfl).1, (iterate_update_of_empty 60 demoGame rfl).1⟩

/-! ## Respawn -/

theorem distanceLt_eq_false_iff_sqrt (a b : Vector2) (r : ℚ) :
    Vector2.distanceLt a b r = false ↔
      ((r : ℚ) : ℝ) ≤ Real.sqrt (((Vector2.distanceSquared a b : ℚ) : ℝ)) := by
  rw [← not_lt, ← distanceLt_iff_sqrt]
  simp

/-- C9. `respawnPlayer` puts a new player at the centre of the window exactly
when every asteroid's position is at distance at least 100 from the centre;
otherwise the player is left as it was and a retry is scheduled (500 ms). The
asteroids are never touched, so whenever the player has been replaced no
asteroid is within the safe zone of the new player. -/
theorem respawnPlayer_safe_or_retry (g : Game) :
    ((∀ a ∈ g.asteroids, ((100 : ℚ) : ℝ) ≤ Real.sqrt (((Vector2.distanceSquared
        { x := g.env.innerWidth / 2, y := g.env.innerHeight / 2 } a.position : ℚ) : ℝ))) →
      (respawnPlayer g).player =
        some (Player.new g.env (g.env.innerWidth / 2) (g.env.innerHeight / 2)) ∧
      (Player.new g.env (g.env.innerWidth / 2) (g.env.innerHeight / 2)).position =
        { x := g.env.innerWidth / 2, y := g.env.innerHeight / 2 } ∧
      (Player.new g.env (g.env.innerWidth / 2) (g.env.innerHeight / 2)).isAlive = true ∧
      (respawnPlayer g).timers = g.timers) ∧
    ((∃ a ∈ g.asteroids, Real.sqrt (((Vector2.distanceSquared
        { x := g.env.innerWidth / 2, y := g.env.innerHeight / 2 } a.position : ℚ) : ℝ)) <
          ((100 : ℚ) : ℝ)) →
      (respawnPlayer g).player = g.player ∧
      (respawnPlayer g).timers = g.timers ++ [{ delay := 500, action := .respawnPlayer }]) ∧
    (respawnPlayer g).asteroids = g.asteroids ∧
    ((respawnPlayer g).player ≠ g.player →
      ∀ a ∈ (respawnPlayer g).asteroids, ((100 : ℚ) : ℝ) ≤ Real.sqrt (((Vector2.distanceSquared
        { x := g.env.innerWidth / 2, y := g.env.innerHeight / 2 } a.position : ℚ) : ℝ))) := by
  have hclear : (∀ a ∈ g.asteroids, ((100 : ℚ) : ℝ) ≤ Real.sqrt (((Vector2.distanceSquared
        { x := g.env.innerWidth / 2, y := g.env.innerHeight / 2 } a.position : ℚ) : ℝ))) →
      (g.asteroids.any fun asteroid => Vector2.distanceLt
        { x := g.env.innerWidth / 2, y := g.env.innerHeight / 2 } asteroid.position 100) = false := by
    intro h
    rw [List.any_eq_false]
    intro a ha
    have := (distanceLt_eq_false_iff_sqrt _ _ _).mpr (h a ha)
    simp [this]
  have hnear : (∃ a ∈ g.asteroids, Real.sqrt (((Vector2.distanceSquared
        { x := g.env.innerWidth / 2, y := g.env.innerHeight / 2 } a.position : ℚ) : ℝ)) <
          ((100 : ℚ) : ℝ)) →
      (g.asteroids.any fun asteroid => Vector2.distanceLt
        { x := g.env.innerWidth / 2, y := g.env.innerHeight / 2 } asteroid.position 100) = true := by
    rintro ⟨a, ha, hlt⟩
    rw [List.any_eq_true]
    exact ⟨a, ha, (distanceLt_iff_sqrt _ _ _).mpr hlt⟩
  refine ⟨?_, ?_, ?_, ?_⟩
  · intro h
    unfold respawnPlayer
    simp only [hclear h]
    exact ⟨rfl, rfl, rfl, rfl⟩
  · intro h
    unfold respawnPlayer
    simp only [hnear h]
    exact ⟨rfl, rfl⟩
  · unfold respawnPlayer
    simp only []
    split_ifs <;> rfl
  · intro hne a ha
    by_contra hlt
    rw [not_le] at hlt
    have hasame : (respawnPlayer g).asteroids = g.asteroids := by
      unfold respawnPlayer
      simp only []
      split_ifs <;> rfl
    rw [hasame] at ha
    apply hne
    unfold respawnPlayer
    simp only [hnear ⟨a, ha, hlt⟩]
    rfl

/-! ## Level setup -/

/-- More rounds do not change a result of the re-roll loop. -/
theorem rollPosition_mono (env : Env) (player : Option Player) (rounds extra calls : Nat)
    (r : ℚ × ℚ × Nat) (h : rollPosition env player rounds calls = some r) :
    rollPosition env player (rounds + extra) calls = some r := by
  induction rounds generalizing calls with
  | zero => simp [rollPosition] at h
  | succ n ih =>
    rw [Nat.succ_add]
    unfold rollPosition at h ⊢
    simp only [] at h ⊢
    split_ifs at h ⊢ with hagain
    · exact ih (calls + 2) h
    · exact h

/-- The re-roll loop returns as soon as a drawn position is outside the safe
zone of the player. -/
theorem rollPosition_terminates (env : Env) (p : Player) (j calls : Nat)
    (hfar : Vector2.distanceLt
      { x := env.random (calls + 2 * j) * env.innerWidth
        y := env.random (calls + 2 * j + 1) * env.innerHeight } p.position 100 = false) :
    ∃ r, rollPosition env (some p) (j + 1) calls = some r := by
  induction j generalizing calls with
  | zero =>
    unfold rollPosition
    simp only [Nat.mul_zero, Nat.add_zero] at hfar
    simp [hfar]
  | succ j ih =>
    unfold rollPosition
    simp only []
    split_ifs with hagain
    · apply ih (calls + 2)
      have e1 : calls + 2 + 2 * j = calls + 2 * (j + 1) := by ring
      rw [e1]
      exact hfar
    · exact ⟨_, rfl⟩

theorem createRandomAsteroid_mono (rounds extra : Nat) (g g1 : Game)
    (h : createRandomAsteroid rounds g = some g1) :
    createRandomAsteroid (rounds + extra) g = some g1 := by
  unfold createRandomAsteroid at h ⊢
  cases hr : rollPosition g.env g.player rounds g.calls with
  | none => rw [hr] at h; cases h
  | some r =>
    rw [rollPosition_mono g.env g.player rounds extra g.calls r hr]
    rw [hr] at h
    exact h

theorem createRandomAsteroid_result (rounds : Nat) (g g1 : Game)
    (h : createRandomAsteroid rounds g = some g1) :
    (∃ a, g1.asteroids = g.asteroids ++ [a] ∧ a.size = .large) ∧
    g1.bullets = g.bullets ∧ g1.particles = g.particles ∧ g1.player = g.player ∧
    g1.env = g.env ∧ g1.level = g.level := by
  unfold createRandomAsteroid at h
  cases hr : rollPosition g.env g.player rounds g.calls with
  | none => rw [hr] at h; cases h
  | some r =>
    rw [hr] at h
    obtain ⟨x, y, c⟩ := r
    simp only [Option.some.injEq] at h
    subst h
    exact ⟨⟨_, rfl, rfl⟩, rfl, rfl, rfl, rfl, rfl⟩

theorem createRandomAsteroids_mono (rounds extra n : Nat) (g g1 : Game)
    (h : createRandomAsteroids rounds n g = some g1) :
    createRandomAsteroids (rounds + extra) n g = some g1 := by
  induction n generalizing g with
  | zero => simpa [createRandomAsteroids] using h
  | succ n ih =>
    unfold createRandomAsteroids at h ⊢
    cases hc : createRandomAsteroid rounds g with
    | none => rw [hc] at h; cases h
    | some g2 =>
      rw [hc] at h
      rw [createRandomAsteroid_mono rounds extra g g2 hc]
      exact ih g2 h

theorem createRandomAsteroids_result (rounds n : Nat) (g g1 : Game)
    (h : createRandomAsteroids rounds n g = some g1) :
    (∃ l, g1.asteroids = g.asteroids ++ l ∧ l.length = n ∧ ∀ a ∈ l, a.size = .large) ∧
    g1.bullets = g.bullets ∧ g1.particles = g.particles ∧ g1.player = g.player ∧
    g1.env = g.env ∧ g1.level = g.level := by
  induction n generalizing g with
  | zero =>
    simp only [createRandomAsteroids, Option.some.injEq] at h
    subst h
    exact ⟨⟨[], by simp⟩, rfl, rfl, rfl, rfl, rfl⟩
  | succ n ih =>
    unfold createRandomAsteroids at h
    cases hc : createRandomAsteroid rounds g with
    | none => rw [hc] at h; cases h
    | some g2 =>
      rw [hc] at h
      obtain ⟨⟨a, ha, hsize⟩, b2, p2, pl2, e2, l2⟩ := createRandomAsteroid_result rounds g g2 hc
      obtain ⟨⟨l, hl, hlen, hall⟩, b1, p1, pl1, e1, l1⟩ := ih g2 h
      refine ⟨⟨a :: l, ?_, by simp [hlen], ?_⟩, b1.trans b2, p1.trans p2, pl1.trans pl2,
        e1.trans e2, l1.trans l2⟩
      · rw [hl, ha]; simp
      · intro c hc2
        rcases List.mem_cons.mp hc2 with h1 | h1
        · rw [h1]; exact hsize
        · exact hall c h1

/-- The loop of `setupLevel` returns when, from every point of the random
sequence on, some drawn position is outside the safe zone of the player. -/
theorem createRandomAsteroids_terminates (env : Env) (p : Player)
    (hterm : ∀ calls, ∃ j, Vector2.distanceLt
      { x := env.random (calls + 2 * j) * env.innerWidth
        y := env.random (calls + 2 * j + 1) * env.innerHeight } p.position 100 = false)
    (n : Nat) (g : Game) (henv : g.env = env) (hp : g.player = some p) :
    ∃ rounds g1, createRandomAsteroids rounds n g = some g1 := by
  induction n generalizing g with
  | zero => exact ⟨0, g, rfl⟩
  | succ n ih =>
    obtain ⟨j, hj⟩ := hterm g.calls
    obtain ⟨r, hr⟩ := rollPosition_terminates env p j g.calls hj
    obtain ⟨x, y, c⟩ := r
    obtain ⟨g2, hc, henv2, hp2⟩ : ∃ g2, createRandomAsteroid (j + 1) g = some g2 ∧
        g2.env = env ∧ g2.player = some p := by
      refine ⟨{ g with
          asteroids := g.asteroids ++ [(Asteroid.new g.env c g.nextId x y .large).1]
          calls := (Asteroid.new g.env c g.nextId x y .large).2
          nextId := g.nextId + 1 }, ?_, henv, hp⟩
      unfold createRandomAsteroid
      rw [henv, hp, hr]
    obtain ⟨rounds, g1, h1⟩ := ih g2 henv2 hp2
    refine ⟨(j + 1) + rounds, g1, ?_⟩
    unfold createRandomAsteroids
    rw [createRandomAsteroid_mono (j + 1) rounds g g2 hc]
    have h2 := createRandomAsteroids_mono rounds (j + 1) n g2 g1 h1
    rw [Nat.add_comm] at h2
    exact h2

/-- C10. For every level, `setupLevel` returns (given enough rounds for the
re-roll loop, on a random sequence that keeps leaving the safe zone), and
whenever it returns the asteroid array holds exactly
`min(2 + floor(level / 2), 8)` asteroids, all large (2 at level 1, never more
than 8), and the bullet array and the particle list are empty. -/
theorem setupLevel_spawns_large_asteroids (g : Game)
    (hterm : ∀ calls, ∃ j, Vector2.distanceLt
      { x := g.env.random (calls + 2 * j) * g.env.innerWidth
        y := g.env.random (calls + 2 * j + 1) * g.env.innerHeight }
      { x := g.env.innerWidth / 2, y := g.env.innerHeight / 2 } 100 = false) :
    (∃ rounds g1, setupLevel rounds g = some g1) ∧
    ∀ rounds g1, setupLevel rounds g = some g1 →
      g1.asteroids.length = min (2 + g.level / 2) 8 ∧
      (∀ a ∈ g1.asteroids, a.size = .large) ∧
      g1.asteroids.length ≤ 8 ∧
      (g.level = 1 → g1.asteroids.length = 2) ∧
      g1.bullets = [] ∧ g1.particles.particles = [] := by
  constructor
  · unfold setupLevel
    exact createRandomAsteroids_terminates g.env
      (Player.new g.env (g.env.innerWidth / 2) (g.env.innerHeight / 2)) hterm _ _ rfl rfl
  · intro rounds g1 h
    unfold setupLevel at h
    obtain ⟨⟨l, hl, hlen, hall⟩, hb, hpart, -, -, -⟩ := createRandomAsteroids_result _ _ _ _ h
    simp only [List.nil_append] at hl
    have hlen2 : g1.asteroids.length = min (2 + g.level / 2) 8 := by rw [hl, hlen]
    refine ⟨hlen2, ?_, ?_, ?_, hb, ?_⟩
    · rw [hl]; exact hall
    · rw [hlen2]; exact Nat.min_le_right _ _
    · intro h1
      rw [hlen2, h1]
      rfl
    · rw [hpart]; rfl

theorem demoEnv_leaves_safe_zone (calls : Nat) :
    ∃ j, Vector2.distanceLt
      { x := demoGame.env.random (calls + 2 * j) * demoGame.env.innerWidth
        y := demoGame.env.random (calls + 2 * j + 1) * demoGame.env.innerHeight }
      { x := demoGame.env.innerWidth / 2, y := demoGame.env.innerHeight / 2 } 100 = false := by
  refine ⟨0, ?_⟩
  have hlt : calls % 4 < 4 := Nat.mod_lt _ (by decide)
  have h0 : (0 : ℚ) ≤ ((calls % 4 : ℕ) : ℚ) := Nat.cast_nonneg _
  have h3 : ((calls % 4 : ℕ) : ℚ) ≤ 3 := by exact_mod_cast Nat.lt_succ_iff.mp hlt
  simp only [Vector2.distanceLt, Vector2.distanceSquared, demoGame, demoEnv, Nat.mul_zero,
    Nat.add_zero, decide_eq_false_iff_not, not_and, not_lt]
  intro _
  nlinarith [mul_self_nonneg (((calls + 1) % 4 : ℕ) / 40 * 600 - 600 / 2 : ℚ)]

theorem setupLevel_spawns_large_asteroids_witness :
    (∃ rounds g1, setupLevel rounds demoGame = some g1) ∧
    ∀ rounds g1, setupLevel rounds demoGame = some g1 →
      g1.asteroids.length = min (2 + demoGame.level / 2) 8 ∧
      (∀ a ∈ g1.asteroids, a.size = .large) ∧
      g1.asteroids.length ≤ 8 ∧
      (demoGame.level = 1 → g1.asteroids.length = 2) ∧
      g1.bullets = [] ∧ g1.particles.particles = [] :=
  setupLevel_spawns_large_asteroids demoGame demoEnv_leaves_safe_zone

/-! ## One bullet, several asteroids -/

set_option maxRecDepth 100000 in
/-- C4, evaluated on the code: in `twoHitGame` a single bullet overlaps the
first and the third of three small asteroids, and one pass of `checkCollisions`
destroys both of them; in `fragmentGame` a single bullet overlaps a large
asteroid, and the same pass destroys that asteroid and then one of the two
medium fragments this destruction has just spawned (20 + 50 points). -/
theorem checkCollisions_bullet_destroys_two :
    twoHitGame.bullets.length = 1 ∧ twoHitGame.asteroids.map Asteroid.id = [0, 1, 2] ∧
    (checkCollisions twoHitGame).asteroidsDestroyed = twoHitGame.asteroidsDestroyed + 2 ∧
    (checkCollisions twoHitGame).asteroids.map Asteroid.id = [1] ∧
    fragmentGame.bullets.length = 1 ∧ fragmentGame.asteroids.map Asteroid.id = [0, 1] ∧
    (checkCollisions fragmentGame).asteroidsDestroyed = fragmentGame.asteroidsDestroyed + 2 ∧
    (checkCollisions fragmentGame).asteroids.map Asteroid.id = [1, 11, 12, 13] ∧
    (checkCollisions fragmentGame).score = fragmentGame.score + 20 + 50 := by
  refine ⟨rfl, ?_, ?_, ?_, rfl, ?_, ?_, ?_, ?_⟩ <;> decide!

/-! ## The stats recorder mirrors the score -/

theorem playerHit_score (g : Game) :
    (playerHit g).score = g.score ∧ (playerHit g).stats.session = g.stats.session := by
  unfold playerHit
  cases g.player with
  | none => exact ⟨rfl, rfl⟩
  | some p =>
    simp only []
    split_ifs <;> exact ⟨rfl, rfl⟩

theorem playerVsAsteroids_mirror (g : Game) (h : g.stats.session.score = g.score) :
    (playerVsAsteroids g).stats.session.score = (playerVsAsteroids g).score := by
  unfold playerVsAsteroids
  apply asteroidsForEach_invariant (fun (r : Game) => r.stats.session.score = r.score) _ _ h
  intro k a s hs
  cases hp : s.player with
  | none => simpa [hp] using hs
  | some p =>
    simp only [hp]
    split_ifs
    · obtain ⟨h1, h2⟩ := playerHit_score s
      rw [h1, h2]
      exact hs
    · exact hs

theorem bulletsVsAsteroids_mirror (g : Game) (h : g.stats.session.score = g.score) :
    (bulletsVsAsteroids g).stats.session.score = (bulletsVsAsteroids g).score := by
  unfold bulletsVsAsteroids
  apply bulletsForEach_invariant (fun (r : Game) => r.stats.session.score = r.score) _ _ h
  intro i b s hs
  apply asteroidsForEach_invariant (fun (r : Game) => r.stats.session.score = r.score) _ _ hs
  intro k a t ht
  unfold bulletVsAsteroid
  split_ifs
  · obtain ⟨h1, -, h3, -⟩ := destroyAsteroid_counters a t
    show (destroyAsteroid a t).stats.session.score = (destroyAsteroid a t).score
    rw [h1, h3, ht]
  · exact ht

theorem checkCollisions_mirror (g : Game) (h : g.stats.session.score = g.score) :
    (checkCollisions g).stats.session.score = (checkCollisions g).score := by
  unfold checkCollisions
  cases g.player with
  | none => exact h
  | some p =>
    simp only []
    split_ifs
    · exact h
    · exact bulletsVsAsteroids_mirror _ (playerVsAsteroids_mirror g h)

theorem handleShooting_mirror (g : Game) (h : g.stats.session.score = g.score) :
    (handleShooting g).stats.session.score = (handleShooting g).score := by
  unfold handleShooting
  cases g.player with
  | none => exact h
  | some p =>
    simp only []
    split_ifs
    · simp only [GameStats.shotFired, GameStats.updateAccuracy]
      split_ifs <;> exact h
    · exact h

theorem checkLevelComplete_mirror (g : Game) (h : g.stats.session.score = g.score) :
    (checkLevelComplete g).stats.session.score = (checkLevelComplete g).score := by
  unfold checkLevelComplete
  split_ifs
  · exact h
  · exact h

theorem updateEffects_mirror (g : Game) (h : g.stats.session.score = g.score) :
    (updateEffects g).stats.session.score = (updateEffects g).score := by
  unfold updateEffects
  simp only []
  split_ifs <;> exact h

theorem updateInputTimers_mirror (g : Game) (h : g.stats.session.score = g.score) :
    (updateInputTimers g).stats.session.score = (updateInputTimers g).score := by
  unfold updateInputTimers
  split_ifs <;> exact h

theorem updatePlayer_mirror (g : Game) (h : g.stats.session.score = g.score) :
    (updatePlayer g).stats.session.score = (updatePlayer g).score := by
  unfold updatePlayer
  cases g.player with
  | none => exact h
  | some p =>
    simp only []
    split_ifs
    · unfold applyRadialGravity updateCamera
      exact h
    · exact h

theorem updateAsteroids_mirror (g : Game) (h : g.stats.session.score = g.score) :
    (updateAsteroids g).stats.session.score = (updateAsteroids g).score := by
  unfold updateAsteroids
  exact asteroidsForEach_invariant (fun (r : Game) => r.stats.session.score = r.score) _ _ h
    (fun k a s hs => hs)

/-- A frame of `update` keeps the recorder's session score equal to the game's
score. -/
theorem update_mirror (g : Game) (h : g.stats.session.score = g.score) :
    (update g).stats.session.score = (update g).score := by
  unfold update
  lift_lets
  intro g1 g2 g3 g4 g5 g6 g7 g8 g9 g10
  have h1 : g1.stats.session.score = g1.score := h
  have h2 := updateInputTimers_mirror g1 h1
  have h3 := updatePlayer_mirror g2 h2
  have h4 := updateAsteroids_mirror g3 h3
  have h5 : g5.stats.session.score = g5.score := h4
  have h6 : g6.stats.session.score = g6.score := h5
  have h7 := checkCollisions_mirror g6 h6
  have h8 := handleShooting_mirror g7 h7
  have h9 := checkLevelComplete_mirror g8 h8
  have h10 := updateEffects_mirror g9 h9
  exact h10

theorem gameLoop_mirror (g : Game) (h : g.stats.session.score = g.score) :
    (gameLoop g).stats.session.score = (gameLoop g).score := by
  unfold gameLoop
  simp only []
  split_ifs <;> first | exact h | exact update_mirror _ h

theorem createRandomAsteroid_score (rounds : Nat) (g g1 : Game)
    (h : createRandomAsteroid rounds g = some g1) :
    g1.score = g.score ∧ g1.stats = g.stats := by
  unfold createRandomAsteroid at h
  cases hr : rollPosition g.env g.player rounds g.calls with
  | none => rw [hr] at h; cases h
  | some r =>
    rw [hr] at h
    obtain ⟨x, y, c⟩ := r
    simp only [Option.some.injEq] at h
    subst h
    exact ⟨rfl, rfl⟩

theorem createRandomAsteroids_score (rounds n : Nat) (g g1 : Game)
    (h : createRandomAsteroids rounds n g = some g1) :
    g1.score = g.score ∧ g1.stats = g.stats := by
  induction n generalizing g with
  | zero =>
    simp only [createRandomAsteroids, Option.some.injEq] at h
    subst h
    exact ⟨rfl, rfl⟩
  | succ n ih =>
    unfold createRandomAsteroids at h
    cases hc : createRandomAsteroid rounds g with
    | none => rw [hc] at h; cases h
    | some g2 =>
      rw [hc] at h
      obtain ⟨s2, t2⟩ := createRandomAsteroid_score rounds g g2 hc
      obtain ⟨s1, t1⟩ := ih g2 h
      exact ⟨s1.trans s2, t1.trans t2⟩

theorem setupLevel_mirror (rounds : Nat) (g g1 : Game) (hs : setupLevel rounds g = some g1)
    (h : g.stats.session.score = g.score) : g1.stats.session.score = g1.score := by
  unfold setupLevel at hs
  obtain ⟨s1, t1⟩ := createRandomAsteroids_score _ _ _ _ hs
  rw [s1, t1]
  exact h

theorem respawnPlayer_mirror (g : Game) (h : g.stats.session.score = g.score) :
    (respawnPlayer g).stats.session.score = (respawnPlayer g).score := by
  unfold respawnPlayer
  simp only []
  split_ifs <;> exact h

/-- The method `start()` resets both scores, so a session that `start()` has
started begins with the recorder's session score equal to the game's score. -/
theorem start_mirror (rounds : Nat) (g g1 : Game) (hrun : g.isRunning = false)
    (hs : start rounds g = some g1) : g1.stats.session.score = g1.score := by
  unfold start at hs
  simp only [hrun, Bool.false_eq_true, if_false] at hs
  split at hs
  · cases hs
  · rename_i g2 hsetup
    simp only [Option.some.injEq] at hs
    subst hs
    exact gameLoop_mirror g2 (setupLevel_mirror rounds _ g2 hsetup rfl)

/-- Running a pending callback keeps the recorder's session score equal to the
game's score. -/
theorem fire_mirror (rounds : Nat) (action : Deferred) (g g1 : Game)
    (hs : fire rounds action g = some g1) (h : g.stats.session.score = g.score) :
    g1.stats.session.score = g1.score := by
  cases action with
  | respawnIfRunning =>
    simp only [fire, Option.some.injEq] at hs
    subst hs
    split_ifs
    · exact respawnPlayer_mirror g h
    · exact h
  | respawnPlayer =>
    simp only [fire, Option.some.injEq] at hs
    subst hs
    exact respawnPlayer_mirror g h
  | setupLevel => exact setupLevel_mirror rounds g g1 hs h
  | start =>
    simp only [fire] at hs
    by_cases hrun : g.isRunning = true
    · unfold start at hs
      simp only [hrun, if_true, Option.some.injEq] at hs
      subst hs
      exact h
    · exact start_mirror rounds g g1 (by simpa using hrun) hs
  | gameLoop =>
    simp only [fire, Option.some.injEq] at hs
    subst hs
    exact gameLoop_mirror g h

/-! ## Object identity -/

theorem distinctIds_append_fresh (l : List Asteroid) (n : Nat) (c : Asteroid) (hc : c.id = n)
    (h : distinctIds l n) : distinctIds (l ++ [c]) (n + 1) := by
  obtain ⟨hnd, hlt⟩ := h
  constructor
  · rw [List.map_append, List.nodup_append]
    refine ⟨hnd, by simp, ?_⟩
    intro x hx hx2
    obtain ⟨a, ha, rfl⟩ := List.mem_map.mp hx
    have hlt2 := hlt a ha
    simp only [List.map_cons, List.map_nil, List.mem_singleton] at hx2
    omega
  · intro a ha
    rcases List.mem_append.mp ha with h1 | h1
    · exact Nat.lt_succ_of_lt (hlt a h1)
    · simp only [List.mem_singleton] at h1
      rw [h1, hc]
      exact Nat.lt_succ_self n

theorem distinctIds_eraseIdx (l : List Asteroid) (n i : Nat) (h : distinctIds l n) :
    distinctIds (l.eraseIdx i) n := by
  obtain ⟨hnd, hlt⟩ := h
  have hsub : (l.eraseIdx i).Sublist l := List.eraseIdx_sublist l i
  exact ⟨(hsub.map Asteroid.id).nodup hnd, fun a ha => hlt a (hsub.subset ha)⟩

theorem createChild_distinct (parent : Asteroid) (size : AsteroidSize) (count : Nat) (s : Game) (i : Nat)
    (h : distinctIds s.asteroids s.nextId) :
    distinctIds (createChild parent size count s i).asteroids (createChild parent size count s i).nextId :=
  distinctIds_append_fresh s.asteroids s.nextId _ rfl h

theorem createChildAsteroids_distinct (parent : Asteroid) (size : AsteroidSize) (count : Nat) (g : Game)
    (h : distinctIds g.asteroids g.nextId) :
    distinctIds (createChildAsteroids parent size count g).asteroids
      (createChildAsteroids parent size count g).nextId := by
  unfold createChildAsteroids
  exact foldl_invariant (fun (r : Game) => distinctIds r.asteroids r.nextId) _ _ _ h
    (fun s i hs => createChild_distinct parent size count s i hs)

theorem spliceAsteroid_distinct (a : Asteroid) (g : Game) (h : distinctIds g.asteroids g.nextId) :
    distinctIds (spliceAsteroid a g).asteroids (spliceAsteroid a g).nextId := by
  unfold spliceAsteroid
  cases indexOfId g.asteroids a.id with
  | none => exact h
  | some i => exact distinctIds_eraseIdx g.asteroids g.nextId i h

/-- `destroyAsteroid` keeps the asteroids distinct objects: the fragments are
freshly allocated. -/
theorem destroyAsteroid_distinct (a : Asteroid) (g : Game) (h : distinctIds g.asteroids g.nextId) :
    distinctIds (destroyAsteroid a g).asteroids (destroyAsteroid a g).nextId := by
  have hs := spliceAsteroid_distinct a g h
  simp only [destroyAsteroid]
  split_ifs
  · exact createChildAsteroids_distinct a .medium 2 _ hs
  · exact createChildAsteroids_distinct a .small 2 _ hs
  · exact hs

theorem playerHit_nextId (g : Game) : (playerHit g).nextId = g.nextId := by
  unfold playerHit
  cases g.player with
  | none => rfl
  | some p =>
    simp only []
    split_ifs <;> rfl

/-- One pass of `checkCollisions` keeps the asteroids distinct objects. -/
theorem checkCollisions_distinct (g : Game) (h : distinctIds g.asteroids g.nextId) :
    distinctIds (checkCollisions g).asteroids (checkCollisions g).nextId := by
  unfold checkCollisions
  cases g.player with
  | none => exact h
  | some p =>
    simp only []
    split_ifs
    · exact h
    · unfold bulletsVsAsteroids
      apply bulletsForEach_invariant (fun (r : Game) => distinctIds r.asteroids r.nextId)
      · unfold playerVsAsteroids
        apply asteroidsForEach_invariant (fun (r : Game) => distinctIds r.asteroids r.nextId) _ _ h
        intro k a s hs
        cases hp : s.player with
        | none => simpa [hp] using hs
        | some q =>
          simp only [hp]
          split_ifs
          · rw [playerHit_asteroids, playerHit_nextId]
            exact hs
          · exact hs
      · intro i b s hs
        apply asteroidsForEach_invariant (fun (r : Game) => distinctIds r.asteroids r.nextId) _ _ hs
        intro k a t ht
        unfold bulletVsAsteroid
        split_ifs
        · exact destroyAsteroid_distinct a t ht
        · exact ht

theorem createRandomAsteroid_distinct (rounds : Nat) (g g1 : Game)
    (hc : createRandomAsteroid rounds g = some g1) (h : distinctIds g.asteroids g.nextId) :
    distinctIds g1.asteroids g1.nextId := by
  unfold createRandomAsteroid at hc
  cases hr : rollPosition g.env g.player rounds g.calls with
  | none => rw [hr] at hc; cases hc
  | some r =>
    rw [hr] at hc
    obtain ⟨x, y, c⟩ := r
    simp only [Option.some.injEq] at hc
    subst hc
    exact distinctIds_append_fresh g.asteroids g.nextId _ rfl h

theorem createRandomAsteroids_distinct (rounds n : Nat) (g g1 : Game)
    (hc : createRandomAsteroids rounds n g = some g1) (h : distinctIds g.asteroids g.nextId) :
    distinctIds g1.asteroids g1.nextId := by
  induction n generalizing g with
  | zero =>
    simp only [createRandomAsteroids, Option.some.injEq] at hc
    subst hc
    exact h
  | succ n ih =>
    unfold createRandomAsteroids at hc
    cases h2 : createRandomAsteroid rounds g with
    | none => rw [h2] at hc; cases hc
    | some g2 =>
      rw [h2] at hc
      exact ih g2 hc (createRandomAsteroid_distinct rounds g g2 h2 h)

/-- The asteroids `setupLevel` creates are distinct objects. -/
theorem setupLevel_distinct (rounds : Nat) (g g1 : Game) (hs : setupLevel rounds g = some g1) :
    distinctIds g1.asteroids g1.nextId := by
  unfold setupLevel at hs
  exact createRandomAsteroids_distinct _ _ _ _ hs ⟨List.nodup_nil, fun a ha => by cases ha⟩

theorem asteroidsForEach_invariant_at (P : Game → Prop) (f : Nat → Asteroid → Game → Game) (g : Game)
    (h0 : P g) (hstep : ∀ k a s, s.asteroids[k]? = some a → P s → P (f k a s)) :
    P (asteroidsForEach f g) := by
  unfold asteroidsForEach
  apply foldl_invariant P _ _ _ h0
  intro s k hs
  cases h : s.asteroids[k]? with
  | none => simpa [h] using hs
  | some a => simpa [h] using hstep k a s h hs

theorem map_id_set (l : List Asteroid) (k : Nat) (a b : Asteroid) (hk : l[k]? = some a)
    (hid : b.id = a.id) : (l.set k b).map Asteroid.id = l.map Asteroid.id := by
  induction l generalizing k with
  | nil => simp
  | cons c rest ih =>
    cases k with
    | zero =>
      simp only [List.getElem?_cons_zero, Option.some.injEq] at hk
      simp [hid, hk]
    | succ k =>
      simp only [List.getElem?_cons_succ] at hk
      simp [ih k hk]

theorem mem_set_id (l : List Asteroid) (k : Nat) (a b : Asteroid) (hk : l[k]? = some a)
    (hid : b.id = a.id) (n : Nat) (h : ∀ c ∈ l, c.id < n) : ∀ c ∈ l.set k b, c.id < n := by
  intro c hc
  rcases List.mem_or_eq_of_mem_set hc with h1 | h1
  · exact h c h1
  · rw [h1, hid]
    exact h a (List.getElem?_mem hk)

theorem updateAsteroids_distinct (g : Game) (h : distinctIds g.asteroids g.nextId) :
    distinctIds (updateAsteroids g).asteroids (updateAsteroids g).nextId := by
  unfold updateAsteroids
  apply asteroidsForEach_invariant_at (fun (r : Game) => distinctIds r.asteroids r.nextId) _ _ h
  intro k a s hk hs
  obtain ⟨hnd, hlt⟩ := hs
  have hmap := map_id_set s.asteroids k a
    { a.update s.deltaTime with
      position := wrapPosition s.env (a.update s.deltaTime).radius (a.update s.deltaTime).position }
    hk rfl
  constructor
  · show ((s.asteroids.set k _).map Asteroid.id).Nodup
    rw [hmap]
    exact hnd
  · exact mem_set_id s.asteroids k a
      { a.update s.deltaTime with
        position := wrapPosition s.env (a.update s.deltaTime).radius (a.update s.deltaTime).position }
      hk rfl s.nextId hlt

theorem handleShooting_ids (g : Game) :
    (handleShooting g).asteroids = g.asteroids ∧ (handleShooting g).nextId = g.nextId := by
  unfold handleShooting
  cases g.player with
  | none => exact ⟨rfl, rfl⟩
  | some p =>
    simp only []
    split_ifs <;> exact ⟨rfl, rfl⟩

/-- A frame of `update` keeps the asteroids distinct objects. -/
theorem update_distinct (g : Game) (h : distinctIds g.asteroids g.nextId) :
    distinctIds (update g).asteroids (update g).nextId := by
  unfold update
  lift_lets
  intro g1 g2 g3 g4 g5 g6 g7 g8 g9 g10
  have h1 : distinctIds g1.asteroids g1.nextId := h
  have h2 : distinctIds g2.asteroids g2.nextId := by
    show distinctIds (updateInputTimers g1).asteroids (updateInputTimers g1).nextId
    unfold updateInputTimers
    split_ifs <;> exact h1
  have h3 : distinctIds g3.asteroids g3.nextId := by
    show distinctIds (updatePlayer g2).asteroids (updatePlayer g2).nextId
    unfold updatePlayer
    cases g2.player with
    | none => exact h2
    | some p =>
      simp only []
      split_ifs
      · unfold applyRadialGravity updateCamera
        exact h2
      · exact h2
  have h4 : distinctIds g4.asteroids g4.nextId := updateAsteroids_distinct g3 h3
  have h6 : distinctIds g6.asteroids g6.nextId := h4
  have h7 : distinctIds g7.asteroids g7.nextId := checkCollisions_distinct g6 h6
  have h8 : distinctIds g8.asteroids g8.nextId := by
    obtain ⟨a, n⟩ := handleShooting_ids g7
    show distinctIds (handleShooting g7).asteroids (handleShooting g7).nextId
    rw [a, n]
    exact h7
  have h9 : distinctIds g9.asteroids g9.nextId := by
    show distinctIds (checkLevelComplete g8).asteroids (checkLevelComplete g8).nextId
    unfold checkLevelComplete
    split_ifs <;> exact h8
  show distinctIds (updateEffects g9).asteroids (updateEffects g9).nextId
  unfold updateEffects
  simp only []
  split_ifs <;> exact h9

/-! ## Spawn safety -/

/-- A position returned by the re-roll loop is outside the safe zone of the
player. -/
theorem rollPosition_far (env : Env) (p : Player) (rounds calls : Nat) (x y : ℚ) (c : Nat)
    (h : rollPosition env (some p) rounds calls = some (x, y, c)) :
    Vector2.distanceLt { x := x, y := y } p.position 100 = false := by
  induction rounds generalizing calls with
  | zero => simp [rollPosition] at h
  | succ n ih =>
    unfold rollPosition at h
    simp only [] at h
    split_ifs at h with hagain
    · exact ih (calls + 2) h
    · simp only [Option.some.injEq, Prod.mk.injEq] at h
      obtain ⟨hx, hy, -⟩ := h
      rw [← hx, ← hy]
      simpa using hagain

/-- C11. Whenever the re-roll loop of `createRandomAsteroid` terminates while a
player exists, exactly one asteroid is appended to the asteroid array (the
others are kept), it is large, and its position is at distance at least 100
from the player's position. -/
theorem createRandomAsteroid_outside_safe_zone (rounds : Nat) (g g1 : Game) (p : Player)
    (hp : g.player = some p) (h : createRandomAsteroid rounds g = some g1) :
    ∃ a, g1.asteroids = g.asteroids ++ [a] ∧ a.size = .large ∧
      g1.asteroids.length = g.asteroids.length + 1 ∧
      ((100 : ℚ) : ℝ) ≤ Real.sqrt (((Vector2.distanceSquared a.position p.position : ℚ) : ℝ)) := by
  unfold createRandomAsteroid at h
  rw [hp] at h
  cases hr : rollPosition g.env (some p) rounds g.calls with
  | none => rw [hr] at h; cases h
  | some r =>
    rw [hr] at h
    obtain ⟨x, y, c⟩ := r
    simp only [Option.some.injEq] at h
    subst h
    refine ⟨(Asteroid.new g.env c g.nextId x y .large).1, rfl, rfl, by simp, ?_⟩
    exact (distanceLt_eq_false_iff_sqrt _ _ _).mp (rollPosition_far g.env p rounds g.calls x y c hr)

theorem createRandomAsteroid_outside_safe_zone_witness :
    ∃ g1, createRandomAsteroid 1 demoGame = some g1 ∧
      ∃ a, g1.asteroids = demoGame.asteroids ++ [a] ∧ a.size = .large ∧
        g1.asteroids.length = demoGame.asteroids.length + 1 ∧
        ((100 : ℚ) : ℝ) ≤ Real.sqrt (((Vector2.distanceSquared a.position
          (Player.new demoEnv 400 300).position : ℚ) : ℝ)) :=
  ⟨(createRandomAsteroid 1 demoGame).get (by decide!), (Option.some_get _).symm,
    createRandomAsteroid_outside_safe_zone 1 demoGame _ (Player.new demoEnv 400 300) rfl
      (Option.some_get _).symm⟩

/-! ## The particle cap -/

theorem createExplosion_length (env : Env) (calls : Nat) (x y : ℚ) (intensity : ℤ)
    (ps : ParticleSystem) :
    (ps.createExplosion env calls x y intensity).1.particles.length =
      ps.particles.length +
        (min intensity ((ps.maxParticles : ℤ) - ps.particles.length)).toNat +
        (min 8 ((ps.maxParticles : ℤ) - ((ps.particles.length +
          (min intensity ((ps.maxParticles : ℤ) - ps.particles.length)).toNat : ℕ) : ℤ))).toNat ∧
    (ps.createExplosion env calls x y intensity).1.maxParticles = ps.maxParticles := by
  simp only [ParticleSystem.createExplosion, List.length_append, List.length_map, List.length_range,
    Nat.cast_add, and_true]

/-- C13. For a particle system holding `M <= C` particles and an integer
intensity `>= 0`, `createExplosion` (a total function: it raises no error for
any count) leaves exactly `min(C, M + N)` particles, where `N = intensity + 8`
is the number of spawn requests; the cap `C` itself is unchanged, and it is
1000 for a system built by the constructor. -/
theorem createExplosion_count (env : Env) (calls : Nat) (x y : ℚ) (intensity : ℤ)
    (ps : ParticleSystem) (hint : 0 ≤ intensity) (hM : ps.particles.length ≤ ps.maxParticles) :
    (ps.createExplosion env calls x y intensity).1.particles.length =
      min ps.maxParticles (ps.particles.length + (intensity + 8).toNat) ∧
    (ps.createExplosion env calls x y intensity).1.maxParticles = ps.maxParticles ∧
    ParticleSystem.new.maxParticles = 1000 := by
  obtain ⟨hlen, hmax⟩ := createExplosion_length env calls x y intensity ps
  refine ⟨?_, hmax, rfl⟩
  rw [hlen]
  omega

theorem createExplosion_count_witness :
    (0 : ℤ) ≤ 50 ∧ ParticleSystem.new.particles.length ≤ ParticleSystem.new.maxParticles ∧
    (ParticleSystem.new.createExplosion demoEnv 0 400 300 50).1.particles.length =
      min ParticleSystem.new.maxParticles (ParticleSystem.new.particles.length + ((50 : ℤ) + 8).toNat) ∧
    (ParticleSystem.new.createExplosion demoEnv 0 400 300 50).1.maxParticles =
      ParticleSystem.new.maxParticles ∧
    ParticleSystem.new.maxParticles = 1000 :=
  ⟨by decide, by decide,
    createExplosion_count demoEnv 0 400 300 50 ParticleSystem.new (by decide) (by decide)⟩

theorem createMuzzleFlash_length (env : Env) (calls : Nat) (x y direction : ℚ) (ps : ParticleSystem) :
    (ps.createMuzzleFlash env calls x y direction).1.particles.length = ps.particles.length + 8 := by
  simp [ParticleSystem.createMuzzleFlash]

theorem createStarField_length (env : Env) (calls count : Nat) (width height : ℚ)
    (ps : ParticleSystem) :
    (ps.createStarField env calls count width height).1.particles.length =
      ps.particles.length + count := by
  simp [ParticleSystem.createStarField]

theorem createThrustParticles_length (env : Env) (calls : Nat) (x y direction intensity : ℚ)
    (ps : ParticleSystem) :
    (ps.createThrustParticles env calls x y direction intensity).1.particles.length =
      ps.particles.length + ⌊5 * intensity⌋.toNat := by
  simp [ParticleSystem.createThrustParticles]

/-- The operations that consult `maxParticles`, and those that only remove
particles, keep the particle count within the cap. -/
theorem capped_run_within_cap (env : Env) (op : ParticleOp) (s : ParticleSystem × Nat)
    (hop : op.capped = true) (h : s.1.particles.length ≤ s.1.maxParticles) :
    (op.run env s).1.particles.length ≤ (op.run env s).1.maxParticles := by
  cases op with
  | createExplosion x y intensity =>
    obtain ⟨hlen, hmax⟩ := createExplosion_length env s.2 x y intensity s.1
    simp only [ParticleOp.run]
    rw [hlen, hmax]
    omega
  | createMuzzleFlash x y direction => simp [ParticleOp.capped] at hop
  | createThrustParticles x y direction intensity => simp [ParticleOp.capped] at hop
  | createStarField count width height => simp [ParticleOp.capped] at hop
  | addParticle particle =>
    simp only [ParticleOp.run, ParticleSystem.addParticle]
    split_ifs with hlt
    · simp only [List.length_append, List.length_singleton]
      omega
    · exact h
  | update deltaTime =>
    simp only [ParticleOp.run, ParticleSystem.update]
    exact le_trans (List.length_filterMap_le _ _) h
  | clear =>
    simp [ParticleOp.run, ParticleSystem.clear]

/-- A sequence of `createExplosion`, `addParticle`, `update` and `clear` calls
on a fresh system never exceeds the cap. -/
theorem capped_ops_within_cap (env : Env) (ops : List ParticleOp)
    (hops : ∀ op ∈ ops, op.capped = true) :
    (runParticleOps env ops).1.particles.length ≤ (runParticleOps env ops).1.maxParticles := by
  unfold runParticleOps
  have hgen : ∀ (l : List ParticleOp) (s : ParticleSystem × Nat),
      (∀ op ∈ l, op.capped = true) → s.1.particles.length ≤ s.1.maxParticles →
      (l.foldl (fun s op => op.run env s) s).1.particles.length ≤
        (l.foldl (fun s op => op.run env s) s).1.maxParticles := by
    intro l
    induction l with
    | nil => intro s _ h; exact h
    | cons op rest ih =>
      intro s hl h
      simp only [List.foldl_cons]
      exact ih _ (fun o ho => hl o (List.mem_cons_of_mem _ ho))
        (capped_run_within_cap env op s (hl op (List.mem_cons_self _ _)) h)
  exact hgen ops _ hops (by decide)

set_option maxRecDepth 100000 in
/-- C12, evaluated on the code: on a fresh system (cap 1000) one call
`createStarField(1001, bounds)` leaves 1001 particles; twelve calls
`createExplosion(x, y, 80)` fill the system to exactly 1000 particles, and one
`createMuzzleFlash` after them (what `handleShooting` calls for every shot)
leaves 1008; 126 calls of `createMuzzleFlash` alone leave 1008 as well. -/
theorem particle_cap_exceeded :
    (runParticleOps demoEnv []).1.particles.length = 0 ∧
    (runParticleOps demoEnv []).1.maxParticles = 1000 ∧
    (runParticleOps demoEnv [.createStarField 1001 800 600]).1.particles.length = 1001 ∧
    (runParticleOps demoEnv (List.replicate 12 (.createExplosion 400 300 80))).1.particles.length
      = 1000 ∧
    (runParticleOps demoEnv (List.replicate 12 (.createExplosion 400 300 80) ++
      [.createMuzzleFlash 400 300 0])).1.particles.length = 1008 ∧
    (runParticleOps demoEnv (List.replicate 126 (.createMuzzleFlash 400 300 0))).1.particles.length
      = 1008 ∧
    (runParticleOps demoEnv (List.replicate 12 (.createExplosion 400 300 80) ++
      [.createMuzzleFlash 400 300 0])).1.maxParticles = 1000 := by
  refine ⟨rfl, rfl, ?_, ?_, ?_, ?_, ?_⟩ <;> decide!

/-! ## Stale deferred callbacks -/

/-- The respawn callback of `playerHit` tests `isRunning`: on a session that
is no longer running it changes nothing. -/
theorem fire_respawnIfRunning_of_stopped (rounds : Nat) (g : Game) (h : g.isRunning = false) :
    fire rounds .respawnIfRunning g = some g := by
  simp [fire, h]

/-- The retry callback of `respawnPlayer` and the callback of
`checkLevelComplete` run `respawnPlayer` and `setupLevel` whatever `isRunning`
is. -/
theorem fire_unguarded (rounds : Nat) (g : Game) :
    fire rounds .respawnPlayer g = some (respawnPlayer g) ∧
    fire rounds .setupLevel g = setupLevel rounds g :=
  ⟨rfl, rfl⟩

set_option maxRecDepth 100000 in
/-- C14, evaluated on the code: `staleLevelGame` is stopped with a pending
`setupLevel` callback and no asteroids; firing the callback creates three
asteroids and replaces the player. `staleRetryGame` is stopped with a
destroyed player and a pending `respawnPlayer` retry; firing the retry puts an
alive player back and sets the flash effect to 0.5. Only the respawn callback
of `playerHit` leaves a stopped session as it is. -/
theorem stale_callbacks_change_stopped_session :
    staleLevelGame.isRunning = false ∧
    staleLevelGame.timers = [{ delay := 1000, action := .setupLevel }] ∧
    staleLevelGame.asteroids.length = 0 ∧
    staleLevelGame.player.map Player.pulsePhase = some 0.08 ∧
    (fire 1 .setupLevel staleLevelGame).map (fun g => g.isRunning) = some false ∧
    (fire 1 .setupLevel staleLevelGame).map (fun g => g.asteroids.length) = some 3 ∧
    (fire 1 .setupLevel staleLevelGame).map (fun g => g.player.map Player.pulsePhase) =
      some (some 0) ∧
    staleRetryGame.isRunning = false ∧
    staleRetryGame.timers = [{ delay := 500, action := .respawnPlayer }] ∧
    staleRetryGame.player.map Player.isAlive = some false ∧
    staleRetryGame.flashEffect = 0 ∧
    (fire 1 .respawnPlayer staleRetryGame).map (fun g => g.isRunning) = some false ∧
    (fire 1 .respawnPlayer staleRetryGame).map (fun g => g.player.map Player.isAlive) =
      some (some true) ∧
    (fire 1 .respawnPlayer staleRetryGame).map (fun g => g.flashEffect) = some 0.5 ∧
    (fire 1 .respawnIfRunning staleRetryGame).map (fun g => g.player.map Player.isAlive) =
      some (some false) := by
  refine ⟨rfl, ?_, ?_, ?_, ?_, ?_, ?_, rfl, rfl, rfl, rfl, ?_, ?_, ?_, ?_⟩ <;> decide!

/-! ## Camera and effects -/

/-- C15. With a player at position `p`, `updateCamera` sets the target to
the screen centre minus `p` and moves the camera offset `c` to `c'` with
`target - c' = 0.95 * (target - c)` in each component: one tick takes exactly
5% off the offset error, and `c'` differs from the target whenever `c` does. -/
theorem updateCamera_reduces_error (g : Game) (p : Player) (hp : g.player = some p) :
    (updateCamera g).targetCameraOffset =
      { x := g.env.innerWidth / 2 - p.position.x, y := g.env.innerHeight / 2 - p.position.y } ∧
    (updateCamera g).targetCameraOffset.x - (updateCamera g).cameraOffset.x =
      0.95 * ((updateCamera g).targetCameraOffset.x - g.cameraOffset.x) ∧
    (updateCamera g).targetCameraOffset.y - (updateCamera g).cameraOffset.y =
      0.95 * ((updateCamera g).targetCameraOffset.y - g.cameraOffset.y) ∧
    (g.cameraOffset ≠ (updateCamera g).targetCameraOffset →
      (updateCamera g).cameraOffset ≠ (updateCamera g).targetCameraOffset) := by
  unfold updateCamera
  rw [hp]
  refine ⟨rfl, ?_, ?_, ?_⟩
  · simp only []
    ring
  · simp only []
    ring
  · simp only []
    intro hne heq
    apply hne
    have hx := congrArg Vector2.x heq
    have hy := congrArg Vector2.y heq
    simp only [] at hx hy
    have hx2 : g.cameraOffset.x = g.env.innerWidth / 2 - p.position.x := by
      norm_num at hx
      linarith
    have hy2 : g.cameraOffset.y = g.env.innerHeight / 2 - p.position.y := by
      norm_num at hy
      linarith
    cases hc : g.cameraOffset with
    | mk cx cy =>
      rw [hc] at hx2 hy2
      simp only [] at hx2 hy2
      rw [hx2, hy2]

theorem updateCamera_reduces_error_witness :
    demoGame.player = some (Player.new demoEnv 400 300) ∧
    (updateCamera demoGame).targetCameraOffset =
      { x := demoGame.env.innerWidth / 2 - (Player.new demoEnv 400 300).position.x
        y := demoGame.env.innerHeight / 2 - (Player.new demoEnv 400 300).position.y } ∧
    (updateCamera demoGame).targetCameraOffset.x - (updateCamera demoGame).cameraOffset.x =
      0.95 * ((updateCamera demoGame).targetCameraOffset.x - demoGame.cameraOffset.x) ∧
    (updateCamera demoGame).targetCameraOffset.y - (updateCamera demoGame).cameraOffset.y =
      0.95 * ((updateCamera demoGame).targetCameraOffset.y - demoGame.cameraOffset.y) ∧
    (demoGame.cameraOffset ≠ (updateCamera demoGame).targetCameraOffset →
      (updateCamera demoGame).cameraOffset ≠ (updateCamera demoGame).targetCameraOffset) :=
  ⟨rfl, updateCamera_reduces_error demoGame (Player.new demoEnv 400 300) rfl⟩

/-- C16. `updateEffects` decays each of the three effect magnitudes from its
own previous value alone: `screenShake` `s` becomes `0.9 * s` if that is at
least 0.1 and 0 otherwise, `flashEffect` `f` becomes `0.95 * f` if that is at
least 0.01 and 0 otherwise, `warpEffect` `w` becomes `0.98 * w` if that is at
least 0.01 and 0 otherwise. -/
theorem updateEffects_decay (g : Game) :
    (updateEffects g).screenShake =
      (if 0.9 * g.screenShake ≥ 0.1 then 0.9 * g.screenShake else 0) ∧
    (updateEffects g).flashEffect =
      (if 0.95 * g.flashEffect ≥ 0.01 then 0.95 * g.flashEffect else 0) ∧
    (updateEffects g).warpEffect =
      (if 0.98 * g.warpEffect ≥ 0.01 then 0.98 * g.warpEffect else 0) := by
  unfold updateEffects
  simp only []
  refine ⟨?_, ?_, ?_⟩
  · by_cases h1 : g.screenShake * 0.9 < 0.1
    · have h2 : ¬ (0.9 * g.screenShake ≥ 0.1) := by rw [mul_comm]; exact not_le.mpr h1
      split_ifs <;> simp_all
    · have h2 : 0.9 * g.screenShake ≥ 0.1 := by rw [mul_comm]; exact not_lt.mp h1
      split_ifs <;> simp_all [mul_comm]
  · by_cases h1 : g.flashEffect * 0.95 < 0.01
    · have h2 : ¬ (0.95 * g.flashEffect ≥ 0.01) := by rw [mul_comm]; exact not_le.mpr h1
      split_ifs <;> simp_all
    · have h2 : 0.95 * g.flashEffect ≥ 0.01 := by rw [mul_comm]; exact not_lt.mp h1
      split_ifs <;> simp_all [mul_comm]
  · by_cases h1 : g.warpEffect * 0.98 < 0.01
    · have h2 : ¬ (0.98 * g.warpEffect ≥ 0.01) := by rw [mul_comm]; exact not_le.mpr h1
      split_ifs <;> simp_all
    · have h2 : 0.98 * g.warpEffect ≥ 0.01 := by rw [mul_comm]; exact not_lt.mp h1
      split_ifs <;> simp_all [mul_comm]

/-! ## Bullet -/

theorem bullet_new_constants (env : Env) (calls : Nat) (x y : ℚ) (velocity : Vector2) :
    (Bullet.new env calls x y velocity).1.lifetime = 2 ∧
    (Bullet.new env calls x y velocity).1.maxTrailLength = 8 ∧
    (Bullet.new env calls x y velocity).1.trailPoints = [] ∧
    (Bullet.new env calls x y velocity).1.age = 0 := by
  refine ⟨?_, rfl, rfl, rfl⟩
  simp only [Bullet.new]
  norm_num

theorem bullet_update_constants (deltaTime : ℚ) (b : Bullet) :
    (b.update deltaTime).lifetime = b.lifetime ∧
    (b.update deltaTime).maxTrailLength = b.maxTrailLength ∧
    (b.update deltaTime).age = b.age + deltaTime := by
  unfold Bullet.update
  simp only []
  split_ifs <;> exact ⟨rfl, rfl, rfl⟩

/-- C18. A bullet has the lifetime 2.0 the constructor gives it. After
`update(dt)` of a bullet with that lifetime: when the new age `age + dt` is at
least 2.0 the bullet is not alive and its position and trail are as before;
when the new age is below 2.0 the alive flag is as before and the position has
advanced by `velocity * dt`. -/
theorem bullet_update_lifetime (b : Bullet) (dt : ℚ) (hdt : 0 ≤ dt) (hlife : b.lifetime = 2) :
    (b.age + dt ≥ 2 →
      (b.update dt).isAlive = false ∧ (b.update dt).position = b.position ∧
      (b.update dt).trailPoints = b.trailPoints) ∧
    (b.age + dt < 2 →
      (b.update dt).isAlive = b.isAlive ∧
      (b.update dt).position =
        { x := b.position.x + b.velocity.x * dt, y := b.position.y + b.velocity.y * dt }) := by
  have _ := hdt
  unfold Bullet.update
  simp only [hlife]
  constructor
  · intro h
    rw [if_pos h]
    exact ⟨rfl, rfl, rfl⟩
  · intro h
    rw [if_neg (not_le.mpr h)]
    exact ⟨rfl, rfl⟩

theorem bullet_update_lifetime_witness :
    (0 : ℚ) ≤ 0.016 ∧ (demoBullet 100 100).lifetime = 2 ∧
    ((demoBullet 100 100).age + 0.016 ≥ 2 →
      ((demoBullet 100 100).update 0.016).isAlive = false ∧
      ((demoBullet 100 100).update 0.016).position = (demoBullet 100 100).position ∧
      ((demoBullet 100 100).update 0.016).trailPoints = (demoBullet 100 100).trailPoints) ∧
    ((demoBullet 100 100).age + 0.016 < 2 →
      ((demoBullet 100 100).update 0.016).isAlive = (demoBullet 100 100).isAlive ∧
      ((demoBullet 100 100).update 0.016).position =
        { x := (demoBullet 100 100).position.x + (demoBullet 100 100).velocity.x * 0.016
          y := (demoBullet 100 100).position.y + (demoBullet 100 100).velocity.y * 0.016 }) :=
  ⟨by decide!, by decide!, bullet_update_lifetime (demoBullet 100 100) 0.016 (by decide!) (by decide!)⟩

theorem bullet_trail_step (l : List BulletTrailPoint) (dt : ℚ) (hl : l.length ≤ 9) :
    (if ((l.map fun point => { point with life := point.life - dt * 3 }).filter
          fun point => decide (point.life > 0)).length > 8
      then ((l.map fun point => { point with life := point.life - dt * 3 }).filter
          fun point => decide (point.life > 0)).tail
      else ((l.map fun point => { point with life := point.life - dt * 3 }).filter
          fun point => decide (point.life > 0))).length ≤ 8 ∧
    ∀ point ∈ (if ((l.map fun point => { point with life := point.life - dt * 3 }).filter
          fun point => decide (point.life > 0)).length > 8
      then ((l.map fun point => { point with life := point.life - dt * 3 }).filter
          fun point => decide (point.life > 0)).tail
      else ((l.map fun point => { point with life := point.life - dt * 3 }).filter
          fun point => decide (point.life > 0))), point.life > 0 := by
  have hfil : ((l.map fun point => { point with life := point.life - dt * 3 }).filter
      fun point => decide (point.life > 0)).length ≤ 9 :=
    le_trans (List.length_filter_le _ _) (by simpa using hl)
  have hpos : ∀ point ∈ ((l.map fun point => { point with life := point.life - dt * 3 }).filter
      fun point => decide (point.life > 0)), point.life > 0 := by
    intro point hpt
    simpa using (List.mem_filter.mp hpt).2
  constructor
  · split_ifs with hgt
    · rw [List.length_tail]
      omega
    · exact not_lt.mp hgt
  · intro point hpt
    split_ifs at hpt with hgt
    · exact hpos point (List.mem_of_mem_tail hpt)
    · exact hpos point hpt

/-- C19. For a bullet with the trail cap 8 of the constructor whose trail has
at most 8 points, all of positive life, the trail after `update(dt)` has at
most 8 points, all of positive life, for every `dt`. The bound on the length
does not depend on the lives; the lives of the points of an update that does
not expire the bullet are positive whatever they were before. -/
theorem bullet_update_trail_bounded (b : Bullet) (dt : ℚ) (hcap : b.maxTrailLength = 8)
    (hlen : b.trailPoints.length ≤ 8) :
    (b.update dt).trailPoints.length ≤ 8 ∧
    ((∀ point ∈ b.trailPoints, point.life > 0) →
      ∀ point ∈ (b.update dt).trailPoints, point.life > 0) ∧
    (¬ (b.age + dt ≥ b.lifetime) → ∀ point ∈ (b.update dt).trailPoints, point.life > 0) := by
  unfold Bullet.update
  simp only []
  by_cases hexp : b.age + dt ≥ b.lifetime
  · rw [if_pos hexp]
    exact ⟨hlen, fun h => h, fun h => absurd hexp h⟩
  · rw [if_neg hexp]
    simp only [hcap]
    have hstep := bullet_trail_step
      (b.trailPoints ++ [{ x := (b.position.add (b.velocity.scaled dt)).x
                           y := (b.position.add (b.velocity.scaled dt)).y
                           life := 1.0
                           time := b.age + dt }]) dt
      (by simp only [List.length_append, List.length_singleton]; omega)
    exact ⟨hstep.1, fun _ => hstep.2, fun _ => hstep.2⟩

theorem bullet_update_trail_bounded_witness :
    (demoBullet 100 100).maxTrailLength = 8 ∧ (demoBullet 100 100).trailPoints.length ≤ 8 ∧
    ((demoBullet 100 100).update 0.016).trailPoints.length ≤ 8 ∧
    ((∀ point ∈ (demoBullet 100 100).trailPoints, point.life > 0) →
      ∀ point ∈ ((demoBullet 100 100).update 0.016).trailPoints, point.life > 0) ∧
    (¬ ((demoBullet 100 100).age + 0.016 ≥ (demoBullet 100 100).lifetime) →
      ∀ point ∈ ((demoBullet 100 100).update 0.016).trailPoints, point.life > 0) :=
  ⟨rfl, by decide, bullet_update_trail_bounded (demoBullet 100 100) 0.016 rfl (by decide)⟩

/-! ## Player -/

theorem player_new_constants (env : Env) (x y : ℚ) :
    (Player.new env x y).maxThrust = 300 ∧ (Player.new env x y).thrustDecay = 0.98 ∧
    (Player.new env x y).thrust = 0 ∧ (Player.new env x y).maxTrailLength = 20 ∧
    (Player.new env x y).trailPoints = [] ∧ (Player.new env x y).isAlive = true :=
  ⟨rfl, rfl, rfl, rfl, rfl, rfl⟩

/-- The thrust after `Player.update` of an alive player. -/
theorem player_update_thrust_eq (env : Env) (calls : Nat) (dt : ℚ) (input : Input) (p : Player)
    (halive : p.isAlive = true) :
    (p.update env calls dt input).1.thrust =
      (if input.thrust = true then min (p.thrust + 200 * dt) p.maxThrust
       else p.thrust * p.thrustDecay) ∧
    (p.update env calls dt input).1.maxThrust = p.maxThrust ∧
    (p.update env calls dt input).1.thrustDecay = p.thrustDecay := by
  unfold Player.update
  rw [if_neg (by simp [halive])]
  lift_lets
  intro q1 q2 q3 q4 tv q5 td tp pc q6 q7 q8 q9 q10 q11
  have h1 : q1.thrust = p.thrust ∧ q1.maxThrust = p.maxThrust ∧ q1.thrustDecay = p.thrustDecay :=
    ⟨rfl, rfl, rfl⟩
  have h2 : q2.thrust = p.thrust ∧ q2.maxThrust = p.maxThrust ∧ q2.thrustDecay = p.thrustDecay := by
    show (if input.left = true then _ else if input.right = true then _ else _ : Player).thrust = _ ∧
      (if input.left = true then _ else if input.right = true then _ else _ : Player).maxThrust = _ ∧
      (if input.left = true then _ else if input.right = true then _ else _ : Player).thrustDecay = _
    split_ifs <;> exact h1
  have h3 : q3.thrust = p.thrust ∧ q3.maxThrust = p.maxThrust ∧ q3.thrustDecay = p.thrustDecay := h2
  have h6 : q6.thrust = (if input.thrust = true then min (p.thrust + 200 * dt) p.maxThrust
        else p.thrust * p.thrustDecay) ∧ q6.maxThrust = p.maxThrust ∧
      q6.thrustDecay = p.thrustDecay := by
    show (if input.thrust = true then _ else _ : Player × Nat).1.thrust = _ ∧
      (if input.thrust = true then _ else _ : Player × Nat).1.maxThrust = _ ∧
      (if input.thrust = true then _ else _ : Player × Nat).1.thrustDecay = _
    split_ifs with hin
    · refine ⟨?_, h3.2.1, h3.2.2⟩
      show min (q3.thrust + 200 * dt) q3.maxThrust = _
      rw [h3.1, h3.2.1]
    · refine ⟨?_, h3.2.1, h3.2.2⟩
      show q3.thrust * q3.thrustDecay = _
      rw [h3.1, h3.2.2]
  have h9 : q9.thrust = q6.thrust ∧ q9.maxThrust = q6.maxThrust ∧ q9.thrustDecay = q6.thrustDecay :=
    ⟨rfl, rfl, rfl⟩
  have h11 : q11.thrust = q9.thrust ∧ q11.maxThrust = q9.maxThrust ∧
      q11.thrustDecay = q9.thrustDecay := by
    show (if q9.invulnerable = true then (if q10.invulnerabilityTime ≤ 0 then _ else _) else _ :
        Player).thrust = _ ∧
      (if q9.invulnerable = true then (if q10.invulnerabilityTime ≤ 0 then _ else _) else _ :
        Player).maxThrust = _ ∧
      (if q9.invulnerable = true then (if q10.invulnerabilityTime ≤ 0 then _ else _) else _ :
        Player).thrustDecay = _
    split_ifs <;> exact ⟨rfl, rfl, rfl⟩
  exact ⟨h11.1.trans (h9.1.trans h6.1), h11.2.1.trans (h9.2.1.trans h6.2.1),
    h11.2.2.trans (h9.2.2.trans h6.2.2)⟩

/-- C20. For an alive player with the constructor's `maxThrust = 300` and
`thrustDecay = 0.98`, a thrust between 0 and 300 and `dt >= 0`: after
`Player.update` the thrust is `min(thrust + 200 * dt, 300)` when the thrust
input is held and `0.98 * thrust` otherwise, and in both cases it is between 0
and 300. -/
theorem player_update_thrust_bounded (env : Env) (calls : Nat) (dt : ℚ) (input : Input) (p : Player)
    (halive : p.isAlive = true) (hmax : p.maxThrust = 300) (hdecay : p.thrustDecay = 0.98)
    (h0 : 0 ≤ p.thrust) (h1 : p.thrust ≤ 300) (hdt : 0 ≤ dt) :
    (input.thrust = true →
      (p.update env calls dt input).1.thrust = min (p.thrust + 200 * dt) 300) ∧
    (input.thrust = false → (p.update env calls dt input).1.thrust = 0.98 * p.thrust) ∧
    0 ≤ (p.update env calls dt input).1.thrust ∧ (p.update env calls dt input).1.thrust ≤ 300 := by
  obtain ⟨hth, -, -⟩ := player_update_thrust_eq env calls dt input p halive
  rw [hmax, hdecay] at hth
  have hheld : input.thrust = true →
      (p.update env calls dt input).1.thrust = min (p.thrust + 200 * dt) 300 := by
    intro hin
    rw [hth, if_pos hin]
  have hidle : input.thrust = false →
      (p.update env calls dt input).1.thrust = 0.98 * p.thrust := by
    intro hin
    rw [hth, if_neg (by simp [hin]), mul_comm]
  refine ⟨hheld, hidle, ?_, ?_⟩
  · cases hin : input.thrust
    · rw [hidle hin]
      exact mul_nonneg (by norm_num) h0
    · rw [hheld hin]
      exact le_min (by nlinarith) (by norm_num)
  · cases hin : input.thrust
    · rw [hidle hin]
      have h98 : (0.98 : ℚ) ≤ 1 := by norm_num
      nlinarith
    · rw [hheld hin]
      exact min_le_right _ _

theorem player_update_thrust_bounded_witness :
    (Player.new demoEnv 400 300).isAlive = true ∧ (Player.new demoEnv 400 300).maxThrust = 300 ∧
    (Player.new demoEnv 400 300).thrustDecay = 0.98 ∧
    (0 : ℚ) ≤ (Player.new demoEnv 400 300).thrust ∧ (Player.new demoEnv 400 300).thrust ≤ 300 ∧
    (0 : ℚ) ≤ 0.016 ∧
    (demoGame.input.thrust = true →
      ((Player.new demoEnv 400 300).update demoEnv 0 0.016 demoGame.input).1.thrust =
        min ((Player.new demoEnv 400 300).thrust + 200 * 0.016) 300) ∧
    (demoGame.input.thrust = false →
      ((Player.new demoEnv 400 300).update demoEnv 0 0.016 demoGame.input).1.thrust =
        0.98 * (Player.new demoEnv 400 300).thrust) ∧
    0 ≤ ((Player.new demoEnv 400 300).update demoEnv 0 0.016 demoGame.input).1.thrust ∧
    ((Player.new demoEnv 400 300).update demoEnv 0 0.016 demoGame.input).1.thrust ≤ 300 :=
  ⟨rfl, rfl, rfl, by decide!, by decide!, by decide!,
    player_update_thrust_bounded demoEnv 0 0.016 demoGame.input (Player.new demoEnv 400 300)
      rfl rfl rfl (by decide!) (by decide!) (by decide!)⟩

/-! ## Bullets after a hit -/

theorem modify_eq_set (f : Bullet → Bullet) (l : List Bullet) (i : Nat) (b : Bullet)
    (h : l[i]? = some b) : l.modify f i = l.set i (f b) := by
  rw [List.modify_eq_set_get?]
  simp [h]

theorem modify_getElem? (f : Bullet → Bullet) (l : List Bullet) (i j : Nat) :
    (l.modify f i)[j]? = if i = j then (l[j]?).map f else l[j]? := by
  rw [List.getElem?_modify]
  split_ifs with hij
  · cases l[j]? <;> simp
  · cases l[j]? <;> simp

/-- The collision callback keeps the bullet in the collection and clears its
`isAlive` flag. -/
theorem bulletVsAsteroid_bullets (i : Nat) (bullet : Bullet) (asteroid : Asteroid) (t : Game)
    (hi : t.bullets[i]? = some bullet)
    (hc : checkCircleCollision bullet.entity asteroid.entity = true) :
    (bulletVsAsteroid i bullet asteroid t).bullets =
      t.bullets.set i { bullet with isAlive := false } := by
  unfold bulletVsAsteroid
  rw [if_pos hc]
  obtain ⟨-, -, -, -, hb, -⟩ := destroyAsteroid_frame asteroid t
  show (destroyAsteroid asteroid t).bullets.modify _ i = _
  rw [hb]
  exact modify_eq_set _ t.bullets i bullet hi

/-- Through the collision callback a bullet of the collection stays where it
is, possibly with its `isAlive` flag cleared. -/
theorem bulletVsAsteroid_keeps (j : Nat) (bullet : Bullet) (asteroid : Asteroid) (t : Game)
    (i : Nat) (b : Bullet)
    (h : t.bullets[i]? = some b ∨ t.bullets[i]? = some { b with isAlive := false }) :
    (bulletVsAsteroid j bullet asteroid t).bullets[i]? = some b ∨
    (bulletVsAsteroid j bullet asteroid t).bullets[i]? = some { b with isAlive := false } := by
  unfold bulletVsAsteroid
  split_ifs with hc
  · obtain ⟨-, -, -, -, hb, -⟩ := destroyAsteroid_frame asteroid t
    show ((destroyAsteroid asteroid t).bullets.modify _ j)[i]? = _ ∨
      ((destroyAsteroid asteroid t).bullets.modify _ j)[i]? = _
    rw [hb, modify_getElem?]
    split_ifs with hji
    · right
      rcases h with h | h <;> rw [h] <;> rfl
    · exact h
  · exact h

/-- One pass of `checkCollisions` removes no bullet: every bullet stays at its
index, possibly with its `isAlive` flag cleared. -/
theorem checkCollisions_keeps_bullets (g : Game) (i : Nat) (b : Bullet)
    (h : g.bullets[i]? = some b) :
    (checkCollisions g).bullets[i]? = some b ∨
    (checkCollisions g).bullets[i]? = some { b with isAlive := false } := by
  unfold checkCollisions
  cases hp : g.player with
  | none => exact Or.inl h
  | some p =>
    simp only []
    split_ifs
    · exact Or.inl h
    · unfold bulletsVsAsteroids
      apply bulletsForEach_invariant (fun (r : Game) => r.bullets[i]? = some b ∨
        r.bullets[i]? = some { b with isAlive := false })
      · left
        have hsame : (playerVsAsteroids g).bullets = g.bullets := by
          unfold playerVsAsteroids
          apply asteroidsForEach_invariant (fun (r : Game) => r.bullets = g.bullets) _ _ rfl
          intro k a s hs
          cases hq : s.player with
          | none => simpa [hq] using hs
          | some q =>
            simp only [hq]
            split_ifs
            · rw [playerHit_bullets]; exact hs
            · exact hs
        rw [hsame]
        exact h
      · intro j bullet s hs
        apply asteroidsForEach_invariant (fun (r : Game) => r.bullets[i]? = some b ∨
          r.bullets[i]? = some { b with isAlive := false }) _ _ hs
        intro k a t ht
        exact bulletVsAsteroid_keeps j bullet a t i b ht

theorem handleShooting_keeps_bullets (g : Game) (i : Nat) (b : Bullet)
    (h : g.bullets[i]? = some b) : (handleShooting g).bullets[i]? = some b := by
  unfold handleShooting
  cases g.player with
  | none => exact h
  | some p =>
    simp only []
    split_ifs
    · show (g.bullets ++ [_])[i]? = some b
      have hlt : i < g.bullets.length := (List.getElem?_eq_some.mp h).1
      rw [List.getElem?_append_left hlt]
      exact h
    · exact h

theorem update_bullets_eq (g : Game) :
    (update g).bullets = (handleShooting (checkCollisions (updateObjects g))).bullets := by
  have h1 : ∀ s : Game, (updateEffects s).bullets = s.bullets := by
    intro s
    unfold updateEffects
    simp only []
    split_ifs <;> rfl
  have h2 : ∀ s : Game, (checkLevelComplete s).bullets = s.bullets := by
    intro s
    unfold checkLevelComplete
    split_ifs <;> rfl
  show (updateEffects (checkLevelComplete (handleShooting
    (checkCollisions (updateObjects g))))).bullets = _
  rw [h1, h2]

theorem bullet_update_dead (dt : ℚ) (b : Bullet) (h : b.isAlive = false) :
    (b.update dt).isAlive = false := by
  unfold Bullet.update
  simp only []
  split_ifs <;> first | rfl | exact h

theorem filter_map_dead (dt : ℚ) (k : Bullet → Bool) (hk : ∀ b, k b = true → b.isAlive = true)
    (l : List Bullet) :
    (l.map (Bullet.update dt)).filter k =
      ((l.filter fun b => b.isAlive).map (Bullet.update dt)).filter k := by
  induction l with
  | nil => rfl
  | cons b rest ih =>
    cases hb : b.isAlive
    · have hdead : k (b.update dt) = false := by
        cases hkb : k (b.update dt)
        · rfl
        · have := hk _ hkb
          rw [bullet_update_dead dt b hb] at this
          cases this
      simp [List.filter_cons, hb, hdead, ih]
    · simp only [List.map_cons, List.filter_cons, hb, if_true]
      rw [ih]

/-- C17, as the code has it. A bullet that collides with an asteroid is not
removed in that `update()` frame: the collision callback keeps it in the bullet
collection and clears its `isAlive` flag; every bullet that is in the
collection when `checkCollisions` starts (after the frame's bullet filter) is
at the same index of the collection at the end of the frame, unchanged or with
`isAlive` cleared; and the bullet filter of the next frame keeps only bullets
whose `isAlive` is set, so it drops the bullet before the next collision
pass. -/
theorem hit_bullet_removed_by_next_filter :
    (∀ (i : Nat) (bullet : Bullet) (asteroid : Asteroid) (t : Game),
      t.bullets[i]? = some bullet →
      checkCircleCollision bullet.entity asteroid.entity = true →
      (bulletVsAsteroid i bullet asteroid t).bullets =
        t.bullets.set i { bullet with isAlive := false }) ∧
    (∀ (g : Game) (i : Nat) (b : Bullet), (updateObjects g).bullets[i]? = some b →
      (update g).bullets[i]? = some b ∨
      (update g).bullets[i]? = some { b with isAlive := false }) ∧
    (∀ (g : Game), (updateBullets g).bullets =
        ((g.bullets.filter fun b => b.isAlive).map (Bullet.update g.deltaTime)).filter
          (keepBullet g)) ∧
    (∀ (g : Game) (b : Bullet), b ∈ (updateBullets g).bullets → b.isAlive = true) := by
  have hkeep : ∀ (g : Game) (b : Bullet), keepBullet g b = true → b.isAlive = true := by
    intro g b h
    unfold keepBullet at h
    simp only [Bool.and_eq_true] at h
    exact h.1
  refine ⟨bulletVsAsteroid_bullets, ?_, ?_, ?_⟩
  · intro g i b h
    rw [update_bullets_eq]
    rcases checkCollisions_keeps_bullets (updateObjects g) i b h with h1 | h1
    · exact Or.inl (handleShooting_keeps_bullets _ i b h1)
    · exact Or.inr (handleShooting_keeps_bullets _ i _ h1)
  · intro g
    exact filter_map_dead g.deltaTime (keepBullet g) (hkeep g) g.bullets
  · intro g b hb
    exact hkeep g b (List.mem_filter.mp hb).2

set_option maxRecDepth 100000 in
/-- The scenario of C17 on the code: in `hitGame` the bullet reaches the first
large asteroid during the frame; at the end of `update` there are three
asteroids, 20 more points and one asteroid destroyed, and the bullet is still
in the bullet collection, at its new position and with `isAlive` cleared. The
next frame removes it. -/
theorem hit_bullet_still_member :
    hitGame.bullets.length = 1 ∧ hitGame.asteroids.length = 2 ∧
    (update hitGame).asteroids.length = 3 ∧
    (update hitGame).score = hitGame.score + 20 ∧
    (update hitGame).asteroidsDestroyed = 1 ∧
    (update hitGame).bullets.length = 1 ∧
    (update hitGame).bullets.map Bullet.isAlive = [false] ∧
    (update hitGame).bullets.map Bullet.position = [{ x := 66.4, y := 100 }] ∧
    (update (update hitGame)).bullets = [] := by
  refine ⟨rfl, rfl, ?_, ?_, ?_, ?_, ?_, ?_, ?_⟩ <;> decide!

/-! ## The point test of an asteroid -/

theorem sqrtLe_iff_sqrt (d r : ℚ) (hd : 0 ≤ d) :
    Asteroid.sqrtLe d r = true ↔ Real.sqrt ((d : ℚ) : ℝ) ≤ ((r : ℚ) : ℝ) := by
  simp only [Asteroid.sqrtLe, decide_eq_true_eq]
  rw [Real.sqrt_le_iff]
  constructor
  · rintro ⟨-, hr, hle⟩
    refine ⟨by exact_mod_cast hr, ?_⟩
    have : ((d : ℚ) : ℝ) ≤ ((r * r : ℚ) : ℝ) := by exact_mod_cast hle
    simpa [pow_two] using this
  · rintro ⟨hr, hle⟩
    refine ⟨hd, by exact_mod_cast hr, ?_⟩
    have h2 : ((d : ℚ) : ℝ) ≤ ((r * r : ℚ) : ℝ) := by simpa [pow_two] using hle
    exact_mod_cast h2

theorem containsPoint_eq (env : Env) (a : Asteroid) (x y : ℚ)
    (htrig : env.cos (-a.rotation) * env.cos (-a.rotation) +
      env.sin (-a.rotation) * env.sin (-a.rotation) = 1) :
    a.containsPoint env x y =
      Asteroid.sqrtLe (Vector2.distanceSquared { x := x, y := y } a.position) a.radius := by
  unfold Asteroid.containsPoint Vector2.distanceSquared
  simp only []
  congr 1
  have e : ∀ (u v c s : ℚ), c * c + s * s = 1 →
      (u * c - v * s) * (u * c - v * s) + (u * s + v * c) * (u * s + v * c) = u * u + v * v := by
    intro u v c s h
    have : (u * c - v * s) * (u * c - v * s) + (u * s + v * c) * (u * s + v * c)
        = (u * u + v * v) * (c * c + s * s) := by ring
    rw [this, h, mul_one]
  exact e _ _ _ _ htrig

/-- C21. `containsPoint` is a circular test. Where the platform's cosine and
sine of the asteroid's angle satisfy `cos² + sin² = 1`, `containsPoint(x, y)`
is true exactly when the distance from `(x, y)` to the asteroid's position (the
real square root of the squared distance) is at most the radius; the result is
the same for every other rotation angle and every other polygon. The radius is
the one of the size class: 40, 25 and 15. -/
theorem containsPoint_circular (env : Env) (a : Asteroid) (x y : ℚ)
    (htrig : env.cos (-a.rotation) * env.cos (-a.rotation) +
      env.sin (-a.rotation) * env.sin (-a.rotation) = 1) :
    (a.containsPoint env x y = true ↔
      Real.sqrt ((Vector2.distanceSquared { x := x, y := y } a.position : ℚ) : ℝ)
        ≤ ((a.radius : ℚ) : ℝ)) ∧
    (∀ rotation vertices,
      env.cos (-rotation) * env.cos (-rotation) + env.sin (-rotation) * env.sin (-rotation) = 1 →
      Asteroid.containsPoint env { a with rotation := rotation, vertices := vertices } x y =
        a.containsPoint env x y) ∧
    (∀ calls id px py size, (Asteroid.new env calls id px py size).1.radius = sizeMap size) ∧
    sizeMap .large = 40 ∧ sizeMap .medium = 25 ∧ sizeMap .small = 15 := by
  refine ⟨?_, ?_, fun _ _ _ _ _ => rfl, rfl, rfl, rfl⟩
  · rw [containsPoint_eq env a x y htrig]
    exact sqrtLe_iff_sqrt _ _ (distanceSquared_nonneg _ _)
  · intro rotation vertices h
    rw [containsPoint_eq env a x y htrig, containsPoint_eq env _ x y h]

set_option maxRecDepth 100000 in
theorem containsPoint_circular_witness :
    (demoEnv.cos (-uprightAsteroid.rotation) * demoEnv.cos (-uprightAsteroid.rotation) +
      demoEnv.sin (-uprightAsteroid.rotation) * demoEnv.sin (-uprightAsteroid.rotation) = 1) ∧
    (uprightAsteroid.containsPoint demoEnv 124 132 = true ↔
      Real.sqrt ((Vector2.distanceSquared { x := 124, y := 132 } uprightAsteroid.position : ℚ) : ℝ)
        ≤ ((uprightAsteroid.radius : ℚ) : ℝ)) ∧
    uprightAsteroid.containsPoint demoEnv 124 132 = true ∧
    uprightAsteroid.containsPoint demoEnv 125 132 = false :=
  ⟨by decide!, (containsPoint_circular demoEnv uprightAsteroid 124 132 (by decide!)).1,
    by decide!, by decide!⟩

/-! ## Normalising a vector -/

theorem lengthSquared_eq_zero (v : Vector2) (h : v.x * v.x + v.y * v.y = 0) :
    v = { x := 0, y := 0 } := by
  have hx : v.x = 0 := by nlinarith [mul_self_nonneg v.x, mul_self_nonneg v.y]
  have hy : v.y = 0 := by nlinarith [mul_self_nonneg v.x, mul_self_nonneg v.y]
  cases v
  simp only [Vector2.mk.injEq]
  exact ⟨hx, hy⟩

/-- The rational `normalize` at a vector whose length is rational, so that a
rational-valued `Math.sqrt` can return the exact root of `x * x + y * y`: the
zero vector stays as it is, every other such vector `v` becomes `v / |v|`. -/
theorem normalize_of_exact (sqrt : ℚ → ℚ) (v : Vector2)
    (hexact : ((sqrt (v.x * v.x + v.y * v.y) : ℚ) : ℝ) =
      Real.sqrt ((v.x * v.x + v.y * v.y : ℚ) : ℝ)) :
    (v = { x := 0, y := 0 } → v.normalize sqrt = v) ∧
    (v ≠ { x := 0, y := 0 } →
      0 < v.length sqrt ∧
      ((v.length sqrt : ℚ) : ℝ) = Real.sqrt ((v.lengthSquared : ℚ) : ℝ) ∧
      v.normalize sqrt = { x := v.x / v.length sqrt, y := v.y / v.length sqrt } ∧
      v.normalize sqrt = v.scale (1 / v.length sqrt) ∧
      (v.normalize sqrt).lengthSquared = 1 ∧
      Real.sqrt (((v.normalize sqrt).lengthSquared : ℚ) : ℝ) = 1) := by
  have hnn : (0 : ℚ) ≤ v.x * v.x + v.y * v.y := by
    nlinarith [mul_self_nonneg v.x, mul_self_nonneg v.y]
  constructor
  · intro h0
    have hz : sqrt (v.x * v.x + v.y * v.y) = 0 := by
      have : ((sqrt (v.x * v.x + v.y * v.y) : ℚ) : ℝ) = 0 := by
        rw [hexact, h0]
        simp
      exact_mod_cast this
    unfold Vector2.normalize Vector2.length
    simp only [hz, gt_iff_lt, lt_self_iff_false, if_false]
  · intro hne
    have hpos : (0 : ℚ) < v.x * v.x + v.y * v.y := by
      rcases lt_or_eq_of_le hnn with h | h
      · exact h
      · exact absurd (lengthSquared_eq_zero v h.symm) hne
    have hposR : (0 : ℝ) < ((v.x * v.x + v.y * v.y : ℚ) : ℝ) := by exact_mod_cast hpos
    have hlenR : (0 : ℝ) < ((sqrt (v.x * v.x + v.y * v.y) : ℚ) : ℝ) := by
      rw [hexact]
      exact Real.sqrt_pos.mpr hposR
    have hlen : 0 < sqrt (v.x * v.x + v.y * v.y) := by exact_mod_cast hlenR
    have hsq : sqrt (v.x * v.x + v.y * v.y) * sqrt (v.x * v.x + v.y * v.y)
        = v.x * v.x + v.y * v.y := by
      have : (((sqrt (v.x * v.x + v.y * v.y) * sqrt (v.x * v.x + v.y * v.y) : ℚ)) : ℝ)
          = ((v.x * v.x + v.y * v.y : ℚ) : ℝ) := by
        rw [Rat.cast_mul, hexact, Real.mul_self_sqrt (le_of_lt hposR)]
      exact_mod_cast this
    have hnorm : v.normalize sqrt =
        { x := v.x / v.length sqrt, y := v.y / v.length sqrt } := by
      unfold Vector2.normalize Vector2.length
      simp only [gt_iff_lt, hlen, if_true]
    have hone : (v.normalize sqrt).lengthSquared = 1 := by
      rw [hnorm]
      unfold Vector2.lengthSquared Vector2.length
      simp only []
      have hne0 : sqrt (v.x * v.x + v.y * v.y) ≠ 0 := ne_of_gt hlen
      field_simp
      rw [hsq]
    refine ⟨hlen, hexact, hnorm, ?_, hone, ?_⟩
    · rw [hnorm]
      unfold Vector2.scale
      simp only [Vector2.mk.injEq]
      constructor <;> ring
    · rw [hone]
      simp

theorem demoSqrt_25 : demoSqrt (3 * 3 + 4 * 4) = 5 := by decide!

theorem normalize_of_exact_example :
    (((demoSqrt ((3 : ℚ) * 3 + 4 * 4) : ℚ) : ℝ) = Real.sqrt (((3 : ℚ) * 3 + 4 * 4 : ℚ) : ℝ)) ∧
    Vector2.normalize demoSqrt { x := 3, y := 4 } = { x := 3 / 5, y := 4 / 5 } := by
  have hexact : (((demoSqrt ((3 : ℚ) * 3 + 4 * 4) : ℚ) : ℝ) =
      Real.sqrt (((3 : ℚ) * 3 + 4 * 4 : ℚ) : ℝ)) := by
    rw [demoSqrt_25]
    have h25 : ((((3 : ℚ) * 3 + 4 * 4 : ℚ)) : ℝ) = 5 * 5 := by norm_num
    rw [h25, Real.sqrt_mul_self (by norm_num)]
    norm_num
  refine ⟨hexact, ?_⟩
  have h := (normalize_of_exact demoSqrt { x := 3, y := 4 } hexact).2 (by decide)
  rw [h.2.2.1]
  unfold Vector2.length
  simp only [demoSqrt_25]

theorem normalizeOver_of_exact {K : Type} [LinearOrderedField K] (sqrt : K → K)
    (v : Vector2Over K) (h0 : 0 ≤ sqrt (v.x * v.x + v.y * v.y))
    (hsq : sqrt (v.x * v.x + v.y * v.y) * sqrt (v.x * v.x + v.y * v.y) = v.x * v.x + v.y * v.y) :
    (v.x = 0 ∧ v.y = 0 → v.normalize sqrt = v) ∧
    (¬ (v.x = 0 ∧ v.y = 0) →
      0 < v.length sqrt ∧
      v.normalize sqrt = { x := v.x / v.length sqrt, y := v.y / v.length sqrt } ∧
      (v.normalize sqrt).x * (v.normalize sqrt).x +
        (v.normalize sqrt).y * (v.normalize sqrt).y = 1 ∧
      v.x = v.length sqrt * (v.normalize sqrt).x ∧
      v.y = v.length sqrt * (v.normalize sqrt).y) := by
  constructor
  · rintro ⟨hx, hy⟩
    have hz : sqrt (v.x * v.x + v.y * v.y) = 0 := by
      have h1 : sqrt (v.x * v.x + v.y * v.y) * sqrt (v.x * v.x + v.y * v.y) = 0 := by
        rw [hsq, hx, hy]
        simp
      exact mul_self_eq_zero.mp h1
    unfold Vector2Over.normalize Vector2Over.length
    simp only [hz, gt_iff_lt, lt_self_iff_false, if_false]
  · intro hne
    have hpos : 0 < v.x * v.x + v.y * v.y := by
      rcases lt_or_eq_of_le (add_nonneg (mul_self_nonneg v.x) (mul_self_nonneg v.y)) with h | h
      · exact h
      · exfalso
        apply hne
        have hx2 : v.x * v.x = 0 := by
          nlinarith [mul_self_nonneg v.x, mul_self_nonneg v.y]
        have hy2 : v.y * v.y = 0 := by
          nlinarith [mul_self_nonneg v.x, mul_self_nonneg v.y]
        exact ⟨mul_self_eq_zero.mp hx2, mul_self_eq_zero.mp hy2⟩
    have hlen : 0 < sqrt (v.x * v.x + v.y * v.y) := by
      rcases lt_or_eq_of_le h0 with h | h
      · exact h
      · exfalso
        rw [← h] at hsq
        simp only [mul_zero] at hsq
        rw [← hsq] at hpos
        exact lt_irrefl _ hpos
    have hne0 : sqrt (v.x * v.x + v.y * v.y) ≠ 0 := ne_of_gt hlen
    have hnorm : v.normalize sqrt =
        { x := v.x / v.length sqrt, y := v.y / v.length sqrt } := by
      unfold Vector2Over.normalize Vector2Over.length
      simp only [gt_iff_lt, hlen, if_true]
    refine ⟨hlen, hnorm, ?_, ?_, ?_⟩
    · rw [hnorm]
      unfold Vector2Over.length
      simp only []
      field_simp
      rw [hsq]
    · rw [hnorm]
      unfold Vector2Over.length
      simp only []
      field_simp
    · rw [hnorm]
      unfold Vector2Over.length
      simp only []
      field_simp

theorem normalize_eq_over (sqrt : ℚ → ℚ) (w : Vector2) :
    (w.normalize sqrt).x = (Vector2Over.normalize sqrt { x := w.x, y := w.y }).x ∧
    (w.normalize sqrt).y = (Vector2Over.normalize sqrt { x := w.x, y := w.y }).y := by
  unfold Vector2.normalize Vector2.length Vector2Over.normalize Vector2Over.length
  simp only []
  split_ifs <;> exact ⟨rfl, rfl⟩

/-- C22. Over the reals, with the exact square root for `Math.sqrt`,
`normalize` leaves the zero vector as it is, and maps every other vector `v` to
`v / |v|` with `|v| > 0`: a vector of length 1 that, scaled by `|v|`, gives `v`
back. The method is total. The rational `Vector2.normalize` is the same method
with rational coordinates. -/
theorem normalize_unit (v : Vector2Over ℝ) :
    (v.x = 0 ∧ v.y = 0 → v.normalize Real.sqrt = v) ∧
    (¬ (v.x = 0 ∧ v.y = 0) →
      0 < v.length Real.sqrt ∧
      v.normalize Real.sqrt =
        { x := v.x / v.length Real.sqrt, y := v.y / v.length Real.sqrt } ∧
      (v.normalize Real.sqrt).length Real.sqrt = 1 ∧
      v.x = v.length Real.sqrt * (v.normalize Real.sqrt).x ∧
      v.y = v.length Real.sqrt * (v.normalize Real.sqrt).y) ∧
    (∀ (sqrt : ℚ → ℚ) (w : Vector2),
      (w.normalize sqrt).x = (Vector2Over.normalize sqrt { x := w.x, y := w.y }).x ∧
      (w.normalize sqrt).y = (Vector2Over.normalize sqrt { x := w.x, y := w.y }).y) := by
  have hnn : (0 : ℝ) ≤ v.x * v.x + v.y * v.y :=
    add_nonneg (mul_self_nonneg v.x) (mul_self_nonneg v.y)
  obtain ⟨hzero, hunit⟩ := normalizeOver_of_exact Real.sqrt v (Real.sqrt_nonneg _)
    (Real.mul_self_sqrt hnn)
  refine ⟨hzero, ?_, normalize_eq_over⟩
  intro hne
  obtain ⟨h1, h2, h3, h4, h5⟩ := hunit hne
  refine ⟨h1, h2, ?_, h4, h5⟩
  unfold Vector2Over.length
  rw [h3, Real.sqrt_one]

/-- The diagonal `(1, 1)`, of irrational length, becomes `(1/√2, 1/√2)`. -/
theorem normalize_diagonal :
    (Vector2.over ℝ { x := 1, y := 1 }).normalize Real.sqrt =
      { x := 1 / Real.sqrt 2, y := 1 / Real.sqrt 2 } ∧
    ((Vector2.over ℝ { x := 1, y := 1 }).normalize Real.sqrt).x *
        ((Vector2.over ℝ { x := 1, y := 1 }).normalize Real.sqrt).x +
      ((Vector2.over ℝ { x := 1, y := 1 }).normalize Real.sqrt).y *
        ((Vector2.over ℝ { x := 1, y := 1 }).normalize Real.sqrt).y = 1 := by
  have hne : ¬ ((Vector2.over ℝ { x := 1, y := 1 }).x = 0 ∧
      (Vector2.over ℝ { x := 1, y := 1 }).y = 0) := by
    rintro ⟨hx, -⟩
    simp [Vector2.over] at hx
  have hnn : (0 : ℝ) ≤ (Vector2.over ℝ { x := 1, y := 1 }).x * (Vector2.over ℝ { x := 1, y := 1 }).x +
      (Vector2.over ℝ { x := 1, y := 1 }).y * (Vector2.over ℝ { x := 1, y := 1 }).y :=
    add_nonneg (mul_self_nonneg _) (mul_self_nonneg _)
  obtain ⟨-, h2, h3, -, -⟩ := (normalizeOver_of_exact Real.sqrt
    (Vector2.over ℝ { x := 1, y := 1 }) (Real.sqrt_nonneg _) (Real.mul_self_sqrt hnn)).2 hne
  refine ⟨?_, h3⟩
  rw [h2]
  have hl : (Vector2.over ℝ { x := 1, y := 1 }).length Real.sqrt = Real.sqrt 2 := by
    unfold Vector2Over.length Vector2.over
    norm_num
  rw [hl]
  simp [Vector2.over]

/-! ## Wrapping at the window's edges -/

theorem wrapPosition_of_inside (env : Env) (radius : ℚ) (position : Vector2)
    (hx1 : -radius ≤ position.x) (hx2 : position.x ≤ env.innerWidth + radius)
    (hy1 : -radius ≤ position.y) (hy2 : position.y ≤ env.innerHeight + radius) :
    wrapPosition env radius position = position := by
  unfold wrapPosition
  simp only [not_lt.mpr hx1, not_lt.mpr hx2, not_lt.mpr hy1, not_lt.mpr hy2, gt_iff_lt, if_false]

theorem wrapPosition_bounds (env : Env) (radius : ℚ) (position : Vector2)
    (hw : 0 ≤ env.innerWidth) (hh : 0 ≤ env.innerHeight) (hr : 0 ≤ radius) :
    -radius ≤ (wrapPosition env radius position).x ∧
    (wrapPosition env radius position).x ≤ env.innerWidth + radius ∧
    -radius ≤ (wrapPosition env radius position).y ∧
    (wrapPosition env radius position).y ≤ env.innerHeight + radius := by
  unfold wrapPosition
  simp only [gt_iff_lt]
  split_ifs <;> refine ⟨?_, ?_, ?_, ?_⟩ <;> dsimp only <;> linarith

/-- C27. For a window of width `W >= 0` and height `H >= 0` and an object of
radius `r >= 0`, the position after `wrapPosition` satisfies
`-r <= x <= W + r` and `-r <= y <= H + r`; a position within these bounds is
left as it is, and wrapping a second time changes nothing. -/
theorem wrapPosition_contained (env : Env) (radius : ℚ) (position : Vector2)
    (hw : 0 ≤ env.innerWidth) (hh : 0 ≤ env.innerHeight) (hr : 0 ≤ radius) :
    (-radius ≤ (wrapPosition env radius position).x ∧
      (wrapPosition env radius position).x ≤ env.innerWidth + radius ∧
      -radius ≤ (wrapPosition env radius position).y ∧
      (wrapPosition env radius position).y ≤ env.innerHeight + radius) ∧
    (-radius ≤ position.x ∧ position.x ≤ env.innerWidth + radius ∧
      -radius ≤ position.y ∧ position.y ≤ env.innerHeight + radius →
      wrapPosition env radius position = position) ∧
    wrapPosition env radius (wrapPosition env radius position) =
      wrapPosition env radius position := by
  have hb := wrapPosition_bounds env radius position hw hh hr
  refine ⟨hb, ?_, ?_⟩
  · rintro ⟨h1, h2, h3, h4⟩
    exact wrapPosition_of_inside env radius position h1 h2 h3 h4
  · exact wrapPosition_of_inside env radius _ hb.1 hb.2.1 hb.2.2.1 hb.2.2.2

theorem wrapPosition_contained_witness :
    (0 : ℚ) ≤ demoEnv.innerWidth ∧ (0 : ℚ) ≤ demoEnv.innerHeight ∧ (0 : ℚ) ≤ 40 ∧
    wrapPosition demoEnv 40 { x := -41, y := 641 } = { x := 840, y := -40 } ∧
    wrapPosition demoEnv 40 (wrapPosition demoEnv 40 { x := -41, y := 641 }) =
      wrapPosition demoEnv 40 { x := -41, y := 641 } :=
  ⟨by decide!, by decide!, by decide!, by decide!,
    (wrapPosition_contained demoEnv 40 { x := -41, y := 641 }
      (by decide!) (by decide!) (by decide!)).2.2⟩

/-! ## Collisions without a player -/

/-- C28. When the player is absent or not alive, `checkCollisions` returns the
state it was given: score, lives, asteroids, bullets and every other field are
unchanged, whatever the bullets and asteroids overlap. -/
theorem checkCollisions_without_player (g : Game)
    (h : g.player = none ∨ ∃ p, g.player = some p ∧ p.isAlive = false) :
    checkCollisions g = g := by
  unfold checkCollisions
  rcases h with h | ⟨p, hp, hdead⟩
  · rw [h]
  · rw [hp]
    simp only [hdead, Bool.not_false, if_true]

set_option maxRecDepth 100000 in
theorem checkCollisions_without_player_witness :
    (deadPlayerGame.player = none ∨
      ∃ p, deadPlayerGame.player = some p ∧ p.isAlive = false) ∧
    (∃ b ∈ deadPlayerGame.bullets, ∃ a ∈ deadPlayerGame.asteroids,
      checkCircleCollision b.entity a.entity = true) ∧
    checkCollisions deadPlayerGame = deadPlayerGame :=
  ⟨Or.inr ⟨_, rfl, rfl⟩,
    ⟨demoBullet 120 100, List.mem_singleton.mpr rfl, demoAsteroid 0 100 100 .large,
      List.mem_cons_self _ _, by decide!⟩,
    checkCollisions_without_player deadPlayerGame (Or.inr ⟨_, rfl, rfl⟩)⟩

/-! ## Settings -/

theorem property_assign_self (key : String) (value : SettingValue) (object : SettingsObject) :
    SettingsObject.property key (SettingsObject.assign key value object) = some value := by
  induction object with
  | nil => simp [SettingsObject.assign, SettingsObject.property]
  | cons entry rest ih =>
    obtain ⟨k, v⟩ := entry
    unfold SettingsObject.assign
    split_ifs with hk
    · simp [SettingsObject.property, hk]
    · simp only [SettingsObject.property, hk, if_false]
      exact ih

theorem property_assign_other (key other : String) (value : SettingValue)
    (object : SettingsObject) (hne : other ≠ key) :
    SettingsObject.property other (SettingsObject.assign key value object) =
      SettingsObject.property other object := by
  induction object with
  | nil => simp [SettingsObject.assign, SettingsObject.property, hne.symm]
  | cons entry rest ih =>
    obtain ⟨k, v⟩ := entry
    unfold SettingsObject.assign
    split_ifs with hk
    · have : ¬ k = other := fun h => hne (h.symm.trans hk)
      simp [SettingsObject.property, this]
    · simp only [SettingsObject.property]
      split_ifs
      · rfl
      · exact ih

/-- C23. `set(key, value)` returns true and stores `value` under `key`, every
other setting and the defaults staying as they are, when `key` is an own
property of the defaults; for every other key it returns false and leaves the
whole object unchanged. The defaults are the eighteen keys of the constructor's
table. -/
theorem set_known_keys_only (s : GameSettings) (key : String) (value : SettingValue) :
    (key ∈ s.defaults.map Prod.fst →
      (s.set key value).2 = true ∧
      (s.set key value).1.get key = some value ∧
      (∀ other, other ≠ key → (s.set key value).1.get other = s.get other) ∧
      (s.set key value).1.defaults = s.defaults) ∧
    (key ∉ s.defaults.map Prod.fst → s.set key value = (s, false)) ∧
    (∀ stored, (GameSettings.new stored).defaults.map Prod.fst =
      ["masterVolume", "musicVolume", "sfxVolume", "particleCount", "screenShake",
       "flashEffects", "trailEffects", "glowEffects", "difficulty", "autofire", "showFPS",
       "rotationSensitivity", "thrustDeadzone", "colorTheme", "backgroundIntensity",
       "reducedMotion", "highContrast", "colorBlindMode"]) := by
  refine ⟨?_, ?_, ?_⟩
  · intro hk
    have hown : s.defaults.hasOwnProperty key = true := by
      simp only [SettingsObject.hasOwnProperty, decide_eq_true_eq]
      exact hk
    have e : s.set key value = (GameSettings.saveSettings
        { s with settings := SettingsObject.assign key value s.settings }, true) := by
      unfold GameSettings.set
      simp only [hown, if_true]
    rw [e]
    refine ⟨rfl, ?_, ?_, rfl⟩
    · exact property_assign_self key value s.settings
    · intro other hne
      exact property_assign_other key other value s.settings hne
  · intro hk
    have hown : s.defaults.hasOwnProperty key = false := by
      simp only [SettingsObject.hasOwnProperty, decide_eq_false_iff_not]
      exact hk
    unfold GameSettings.set
    simp only [hown, Bool.false_eq_true, if_false]
  · intro stored
    cases stored <;> rfl

/-! ## Unlocking ship styles -/

theorem unlockFold_eq (gameStats : UnlockStats)
    (l : List (String × RequirementType × Nat))
    (hnd : (l.map Prod.fst).Nodup) (hkeys : ∀ e ∈ l, e.1 ∈ shipStyleKeys)
    (sc : ShipCustomizer) (acc : List String) :
    l.foldl
      (fun (acc : ShipCustomizer × List String) (entry : String × RequirementType × Nat) =>
        let style := entry.1
        if !acc.1.isUnlocked style then
          let shouldUnlock : Bool :=
            match entry.2.1 with
            | .score => decide (gameStats.highScore ≥ entry.2.2)
            | .level => decide (gameStats.maxLevel ≥ entry.2.2)
            | .asteroids => decide (gameStats.totalAsteroids ≥ entry.2.2)
          if shouldUnlock then ((ShipCustomizer.unlockStyle style acc.1).1, acc.2 ++ [style])
          else acc
        else acc)
      (sc, acc) =
    ({ sc with unlockedStyles := sc.unlockedStyles ++
        (l.filter fun entry => !sc.isUnlocked entry.1 &&
          ShipCustomizer.requirementMet gameStats entry.2.1 entry.2.2).map Prod.fst },
      acc ++ (l.filter fun entry => !sc.isUnlocked entry.1 &&
          ShipCustomizer.requirementMet gameStats entry.2.1 entry.2.2).map Prod.fst) := by
  induction l generalizing sc acc with
  | nil => simp
  | cons e rest ih =>
    have hnd2 : (rest.map Prod.fst).Nodup := (List.nodup_cons.mp hnd).2
    have hnot : e.1 ∉ rest.map Prod.fst := (List.nodup_cons.mp hnd).1
    have hkeys2 : ∀ e ∈ rest, e.1 ∈ shipStyleKeys := fun x hx => hkeys x (List.mem_cons_of_mem _ hx)
    have hkey : e.1 ∈ shipStyleKeys := hkeys e (List.mem_cons_self _ _)
    have hmet : (match e.2.1 with
        | .score => decide (gameStats.highScore ≥ e.2.2)
        | .level => decide (gameStats.maxLevel ≥ e.2.2)
        | .asteroids => decide (gameStats.totalAsteroids ≥ e.2.2)) =
        ShipCustomizer.requirementMet gameStats e.2.1 e.2.2 := by
      unfold ShipCustomizer.requirementMet
      cases e.2.1 <;> rfl
    rw [List.foldl_cons]
    by_cases hc : (!sc.isUnlocked e.1 &&
        ShipCustomizer.requirementMet gameStats e.2.1 e.2.2) = true
    · have hc2 := hc
      simp only [Bool.and_eq_true, Bool.not_eq_true', ShipCustomizer.isUnlocked,
        decide_eq_false_iff_not] at hc2
      obtain ⟨hlocked, hm⟩ := hc2
      have hstep : (ShipCustomizer.unlockStyle e.1 sc).1 =
          { sc with unlockedStyles := sc.unlockedStyles ++ [e.1] } := by
        unfold ShipCustomizer.unlockStyle
        simp only [hkey, if_true, hlocked, if_false]
      have hun : sc.isUnlocked e.1 = false := by
        simp only [ShipCustomizer.isUnlocked, decide_eq_false_iff_not]
        exact hlocked
      simp only [hun, Bool.not_false, if_true, hmet, hm, hstep]
      rw [ih hnd2 hkeys2]
      have hfilter : (rest.filter fun entry =>
            !ShipCustomizer.isUnlocked
              { sc with unlockedStyles := sc.unlockedStyles ++ [e.1] } entry.1 &&
            ShipCustomizer.requirementMet gameStats entry.2.1 entry.2.2) =
          (rest.filter fun entry => !sc.isUnlocked entry.1 &&
            ShipCustomizer.requirementMet gameStats entry.2.1 entry.2.2) := by
        apply List.filter_congr
        intro x hx
        have hne : x.1 ≠ e.1 := by
          intro heq
          exact hnot (heq ▸ List.mem_map_of_mem Prod.fst hx)
        simp only [ShipCustomizer.isUnlocked, List.mem_append, List.mem_singleton, hne, or_false]
      rw [hfilter, List.filter_cons]
      simp only [hc, if_true, List.map_cons, List.append_assoc, List.singleton_append]
    · have hcf : (!sc.isUnlocked e.1 &&
          ShipCustomizer.requirementMet gameStats e.2.1 e.2.2) = false := by
        simpa using hc
      have hstep : (if (!sc.isUnlocked e.1) = true then
            (if (match e.2.1 with
                | .score => decide (gameStats.highScore ≥ e.2.2)
                | .level => decide (gameStats.maxLevel ≥ e.2.2)
                | .asteroids => decide (gameStats.totalAsteroids ≥ e.2.2)) = true
              then ((ShipCustomizer.unlockStyle e.1 sc).1, acc ++ [e.1]) else (sc, acc))
            else (sc, acc)) = (sc, acc) := by
        rw [hmet]
        rcases Bool.and_eq_false_iff.mp hcf with h | h
        · simp only [h, Bool.false_eq_true, if_false]
        · simp only [h, Bool.false_eq_true, if_false, ite_self]
      simp only [] at hstep ⊢
      rw [hstep, ih hnd2 hkeys2, List.filter_cons]
      simp only [hcf, Bool.false_eq_true, if_false]

theorem checkUnlocks_eq (gameStats : UnlockStats) (sc : ShipCustomizer) :
    sc.checkUnlocks gameStats =
      ({ sc with unlockedStyles := sc.unlockedStyles ++ sc.newlySatisfied gameStats },
        sc.newlySatisfied gameStats) := by
  have h := unlockFold_eq gameStats getUnlockRequirements (by decide) (by decide) sc []
  simp only [List.nil_append] at h
  exact h

theorem mem_newlySatisfied (gameStats : UnlockStats) (sc : ShipCustomizer) (key : String) :
    key ∈ sc.newlySatisfied gameStats ↔
      key ∉ sc.unlockedStyles ∧ ∃ type value, (key, type, value) ∈ getUnlockRequirements ∧
        ShipCustomizer.requirementMet gameStats type value = true := by
  unfold ShipCustomizer.newlySatisfied
  simp only [List.mem_map, List.mem_filter, Bool.and_eq_true, Bool.not_eq_true',
    ShipCustomizer.isUnlocked, decide_eq_false_iff_not]
  constructor
  · rintro ⟨⟨k, t, v⟩, ⟨hmem, hl, hm⟩, rfl⟩
    exact ⟨hl, t, v, hmem, hm⟩
  · rintro ⟨hl, t, v, hmem, hm⟩
    exact ⟨(key, t, v), ⟨hmem, hl, hm⟩, rfl⟩

/-- C24. `checkUnlocks(stats)` returns exactly the newly satisfied unlock keys:
a key is returned, once, if and only if it was locked before the call and is a
key of the requirement table whose score, level or asteroid threshold the
snapshot meets. Every returned key is unlocked afterwards, every style unlocked
before stays unlocked, and a second call with the same snapshot returns the
empty list. -/
theorem checkUnlocks_newly_satisfied (gameStats : UnlockStats) (sc : ShipCustomizer) :
    (sc.checkUnlocks gameStats).2 = sc.newlySatisfied gameStats ∧
    (∀ key, key ∈ (sc.checkUnlocks gameStats).2 ↔
      sc.isUnlocked key = false ∧ ∃ type value, (key, type, value) ∈ getUnlockRequirements ∧
        (match type with
          | .score => gameStats.highScore ≥ value
          | .level => gameStats.maxLevel ≥ value
          | .asteroids => gameStats.totalAsteroids ≥ value)) ∧
    (sc.checkUnlocks gameStats).2.Nodup ∧
    (∀ key ∈ (sc.checkUnlocks gameStats).2, (sc.checkUnlocks gameStats).1.isUnlocked key = true) ∧
    (∀ key, sc.isUnlocked key = true → (sc.checkUnlocks gameStats).1.isUnlocked key = true) ∧
    ((sc.checkUnlocks gameStats).1.checkUnlocks gameStats).2 = [] := by
  rw [checkUnlocks_eq]
  refine ⟨rfl, ?_, ?_, ?_, ?_, ?_⟩
  · intro key
    rw [mem_newlySatisfied]
    simp only [ShipCustomizer.isUnlocked, decide_eq_false_iff_not]
    constructor
    · rintro ⟨hl, t, v, hmem, hm⟩
      refine ⟨hl, t, v, hmem, ?_⟩
      cases t <;> simpa [ShipCustomizer.requirementMet] using hm
    · rintro ⟨hl, t, v, hmem, hm⟩
      refine ⟨hl, t, v, hmem, ?_⟩
      cases t <;> simpa [ShipCustomizer.requirementMet] using hm
  · unfold ShipCustomizer.newlySatisfied
    have hnd : (getUnlockRequirements.map Prod.fst).Nodup := by decide
    exact (List.Nodup.sublist ((List.filter_sublist _).map Prod.fst) hnd)
  · intro key hkey
    simp only [ShipCustomizer.isUnlocked, decide_eq_true_eq, List.mem_append]
    exact Or.inr hkey
  · intro key hkey
    simp only [ShipCustomizer.isUnlocked, decide_eq_true_eq, List.mem_append] at hkey ⊢
    exact Or.inl hkey
  · rw [checkUnlocks_eq]
    simp only []
    rw [List.eq_nil_iff_forall_not_mem]
    intro key hkey
    rw [mem_newlySatisfied] at hkey
    obtain ⟨hl, t, v, hmem, hm⟩ := hkey
    apply hl
    simp only [List.mem_append]
    by_cases h0 : key ∈ sc.unlockedStyles
    · exact Or.inl h0
    · exact Or.inr ((mem_newlySatisfied gameStats sc key).mpr ⟨h0, t, v, hmem, hm⟩)

/-! ## The player's trail -/

set_option maxRecDepth 100000 in
/-- C26, evaluated on the code: an alive player with `maxTrailLength` 20 and a
trail of twenty points, moving faster than 10 with the thrust key held, has a
trail of twenty-one points after `update`: the thrust branch pushes a point,
`updateTrail` pushes another, and the limit removes only one. The same happens
to a new player of the constructor after twenty frames of thrust, and the trail
keeps growing from there. -/
theorem player_trail_exceeds_max :
    trailingPlayer.isAlive = true ∧ trailingPlayer.maxTrailLength = 20 ∧
    trailingPlayer.trailPoints.length = 20 ∧
    (Player.update demoEnv 0 0.016 thrustInput trailingPlayer).1.maxTrailLength = 20 ∧
    (Player.update demoEnv 0 0.016 thrustInput trailingPlayer).1.trailPoints.length = 21 ∧
    (thrustedPlayer 19).1.isAlive = true ∧ (thrustedPlayer 19).1.maxTrailLength = 20 ∧
    (thrustedPlayer 19).1.trailPoints.length = 20 ∧
    (thrustedPlayer 20).1.trailPoints.length = 21 ∧
    (thrustedPlayer 30).1.trailPoints.length = 31 := by
  refine ⟨?_, ?_, ?_, ?_, ?_, ?_, ?_, ?_, ?_, ?_⟩ <;> decide!

theorem updateTrail_length (dt : ℚ) (p : Player) (h : p.trailPoints.length ≤ p.maxTrailLength) :
    (p.updateTrail dt).trailPoints.length ≤ p.maxTrailLength ∧
    (p.updateTrail dt).maxTrailLength = p.maxTrailLength := by
  unfold Player.updateTrail
  lift_lets
  intro aged pushed limited
  have haged : aged.length ≤ p.maxTrailLength := by
    have h1 : aged.length ≤ (p.trailPoints.map fun point =>
        { point with life := point.life - dt * 2 }).length := List.length_filter_le _ _
    rw [List.length_map] at h1
    exact le_trans h1 h
  have hpushed : pushed.length ≤ p.maxTrailLength + 1 := by
    show (if p.velocity.lengthGt 10 = true then _ else _ : List PlayerTrailPoint).length ≤ _
    split_ifs
    · rw [List.length_append, List.length_singleton]
      omega
    · omega
  have hlimited : limited.length ≤ p.maxTrailLength := by
    show (if pushed.length > p.maxTrailLength then pushed.tail else pushed).length ≤ _
    split_ifs with hgt
    · rw [List.length_tail]
      omega
    · omega
  exact ⟨hlimited, rfl⟩

/-- Without thrust the trail of an alive player stays within `maxTrailLength`:
only `updateTrail` pushes a point, and its limit removes one. -/
theorem player_update_trail_bounded_of_idle (env : Env) (calls : Nat) (dt : ℚ) (input : Input)
    (p : Player) (halive : p.isAlive = true) (hidle : input.thrust = false)
    (h : p.trailPoints.length ≤ p.maxTrailLength) :
    (p.update env calls dt input).1.trailPoints.length ≤ p.maxTrailLength := by
  unfold Player.update
  rw [if_neg (by simp [halive])]
  lift_lets
  intro q1 q2 q3 q4 tv q5 td tp pc q6 q7 q8 q9 q10 q11
  have h1 : q1.trailPoints = p.trailPoints ∧ q1.maxTrailLength = p.maxTrailLength := ⟨rfl, rfl⟩
  have h2 : q2.trailPoints = p.trailPoints ∧ q2.maxTrailLength = p.maxTrailLength := by
    show (if input.left = true then _ else if input.right = true then _ else _ : Player).trailPoints = _ ∧
      (if input.left = true then _ else if input.right = true then _ else _ : Player).maxTrailLength = _
    split_ifs <;> exact h1
  have h3 : q3.trailPoints = p.trailPoints ∧ q3.maxTrailLength = p.maxTrailLength := h2
  have h6 : q6.trailPoints = p.trailPoints ∧ q6.maxTrailLength = p.maxTrailLength := by
    show (if input.thrust = true then _ else _ : Player × Nat).1.trailPoints = _ ∧
      (if input.thrust = true then _ else _ : Player × Nat).1.maxTrailLength = _
    rw [if_neg (by simp [hidle])]
    exact h3
  have h8 : q8.trailPoints = p.trailPoints ∧ q8.maxTrailLength = p.maxTrailLength := h6
  have h9 : q9.trailPoints.length ≤ p.maxTrailLength := by
    have := (updateTrail_length dt q8 (by rw [h8.1, h8.2]; exact h)).1
    rw [h8.2] at this
    exact this
  show (if q9.invulnerable = true then (if q10.invulnerabilityTime ≤ 0 then _ else _) else _ :
      Player).trailPoints.length ≤ _
  split_ifs <;> exact h9

/-! ## The fire cooldown -/

theorem updateAccuracy_shotsFired (st : GameStats) :
    st.updateAccuracy.session.shotsFired = st.session.shotsFired := by
  unfold GameStats.updateAccuracy
  split_ifs <;> rfl

theorem destroyAsteroid_input (a : Asteroid) (g : Game) :
    (destroyAsteroid a g).input = g.input ∧ shots (destroyAsteroid a g) = shots g := by
  constructor
  · simp only [destroyAsteroid]
    split_ifs <;> simp
  · unfold shots
    simp only [destroyAsteroid, GameStats.addScore, GameStats.asteroidDestroyed]
    rw [updateAccuracy_shotsFired]
    split_ifs <;> simp

theorem playerHit_input (g : Game) :
    (playerHit g).input = g.input ∧ shots (playerHit g) = shots g := by
  refine ⟨?_, congrArg (fun s => s.shotsFired) (playerHit_score g).2⟩
  unfold playerHit
  cases g.player with
  | none => rfl
  | some p =>
    simp only []
    split_ifs <;> rfl

theorem checkCollisions_input (g : Game) :
    (checkCollisions g).input = g.input ∧ shots (checkCollisions g) = shots g := by
  unfold checkCollisions
  cases g.player with
  | none => exact ⟨rfl, rfl⟩
  | some p0 =>
    simp only []
    split_ifs
    · exact ⟨rfl, rfl⟩
    · have h1 : (playerVsAsteroids g).input = g.input ∧ shots (playerVsAsteroids g) = shots g := by
        unfold playerVsAsteroids
        apply asteroidsForEach_invariant
          (fun (r : Game) => r.input = g.input ∧ shots r = shots g) _ _ ⟨rfl, rfl⟩
        intro k a s hs
        cases hp : s.player with
        | none => simpa [hp] using hs
        | some p =>
          simp only [hp]
          split_ifs
          · exact ⟨(playerHit_input s).1.trans hs.1, (playerHit_input s).2.trans hs.2⟩
          · exact hs
      unfold bulletsVsAsteroids
      apply bulletsForEach_invariant
        (fun (r : Game) => r.input = g.input ∧ shots r = shots g) _ _ h1
      intro i b s hs
      apply asteroidsForEach_invariant
        (fun (r : Game) => r.input = g.input ∧ shots r = shots g) _ _ hs
      intro k a t ht
      unfold bulletVsAsteroid
      split_ifs
      · exact ⟨(destroyAsteroid_input a t).1.trans ht.1, (destroyAsteroid_input a t).2.trans ht.2⟩
      · exact ht

theorem updatePlayer_input (g : Game) :
    (updatePlayer g).input = g.input ∧ shots (updatePlayer g) = shots g := by
  unfold updatePlayer
  cases g.player with
  | none => exact ⟨rfl, rfl⟩
  | some p =>
    simp only []
    split_ifs
    · unfold applyRadialGravity updateCamera
      exact ⟨rfl, rfl⟩
    · exact ⟨rfl, rfl⟩

theorem updateAsteroids_input (g : Game) :
    (updateAsteroids g).input = g.input ∧ shots (updateAsteroids g) = shots g := by
  unfold updateAsteroids
  exact asteroidsForEach_invariant (fun (r : Game) => r.input = g.input ∧ shots r = shots g) _ _
    ⟨rfl, rfl⟩ (fun k a s hs => hs)

theorem checkLevelComplete_input (g : Game) :
    (checkLevelComplete g).input = g.input ∧ shots (checkLevelComplete g) = shots g := by
  unfold checkLevelComplete
  split_ifs
  · exact ⟨rfl, rfl⟩
  · exact ⟨rfl, rfl⟩

theorem updateEffects_input (g : Game) :
    (updateEffects g).input = g.input ∧ shots (updateEffects g) = shots g := by
  unfold updateEffects
  simp only []
  split_ifs <;> exact ⟨rfl, rfl⟩

/-- The bullet `handleShooting` spawns for the player `p`. -/
theorem handleShooting_spawn (g : Game) :
    (∀ p, g.player = some p → g.input.fire = true → g.input.fireTimer ≤ 0 → p.isAlive = true →
      (∃ b, (handleShooting g).bullets = g.bullets ++ [b]) ∧
      (handleShooting g).input.fireTimer = 0.15 ∧
      (handleShooting g).input.fire = g.input.fire ∧
      shots (handleShooting g) = shots g + 1) ∧
    (¬ (g.input.fire = true ∧ g.input.fireTimer ≤ 0 ∧
        ∃ p, g.player = some p ∧ p.isAlive = true) → handleShooting g = g) := by
  constructor
  · intro p hp hfire htimer halive
    unfold handleShooting
    rw [hp]
    simp only []
    rw [if_pos (by simp [hfire, htimer, halive])]
    refine ⟨⟨_, rfl⟩, rfl, rfl, ?_⟩
    unfold shots GameStats.shotFired
    rw [updateAccuracy_shotsFired]
  · intro hnot
    unfold handleShooting
    cases hp : g.player with
    | none => rfl
    | some p =>
      simp only []
      split_ifs with hc
      · exfalso
        simp only [Bool.and_eq_true, decide_eq_true_eq] at hc
        exact hnot ⟨hc.1.1, hc.1.2, p, hp, hc.2⟩
      · rfl

theorem handleShooting_cooldown (g : Game) :
    (shots (handleShooting g) = shots g + 1 ∧ g.input.fireTimer ≤ 0 ∧
      (handleShooting g).input.fireTimer = 0.15) ∨
    (shots (handleShooting g) = shots g ∧ (handleShooting g).input = g.input) := by
  by_cases hc : g.input.fire = true ∧ g.input.fireTimer ≤ 0 ∧
      ∃ p, g.player = some p ∧ p.isAlive = true
  · obtain ⟨hfire, htimer, p, hp, halive⟩ := hc
    obtain ⟨-, h2, -, h4⟩ := (handleShooting_spawn g).1 p hp hfire htimer halive
    exact Or.inl ⟨h4, htimer, h2⟩
  · rw [(handleShooting_spawn g).2 hc]
    exact Or.inr ⟨rfl, rfl⟩

theorem updateInputTimers_cooldown (g : Game) (hdt : 0 ≤ g.deltaTime) :
    shots (updateInputTimers g) = shots g ∧
    g.input.fireTimer - g.deltaTime ≤ (updateInputTimers g).input.fireTimer ∧
    ((updateInputTimers g).input.fireTimer ≤ 0 → g.input.fireTimer ≤ g.deltaTime) := by
  unfold updateInputTimers
  split_ifs with h
  · refine ⟨rfl, le_refl _, ?_⟩
    intro h2
    have h3 : g.input.fireTimer - g.deltaTime ≤ 0 := h2
    linarith
  · refine ⟨rfl, by linarith, ?_⟩
    intro _
    linarith

/-- One `update` frame and the cooldown: the timer falls by at most the
frame's `deltaTime`; a frame that spawns a bullet starts with the timer at most
`deltaTime` and ends with the timer at 0.15, and spawns one bullet. -/
theorem update_cooldown (g : Game) (hdt : 0 ≤ g.deltaTime) :
    g.input.fireTimer - g.deltaTime ≤ (update g).input.fireTimer ∧
    (shots (update g) = shots g ∨ shots (update g) = shots g + 1) ∧
    (shots (update g) = shots g + 1 →
      g.input.fireTimer ≤ g.deltaTime ∧ (update g).input.fireTimer = 0.15) := by
  unfold update
  lift_lets
  intro g1 g2 g3 g4 g5 g6 g7 g8 g9 g10
  have h1 : g1.input = g.input ∧ shots g1 = shots g ∧ g1.deltaTime = g.deltaTime := ⟨rfl, rfl, rfl⟩
  have h2 := updateInputTimers_cooldown g1 (by rw [h1.2.2]; exact hdt)
  rw [h1.1, h1.2.1, h1.2.2] at h2
  have h3 : g3.input = g2.input ∧ shots g3 = shots g2 := updatePlayer_input g2
  have h4 : g4.input = g3.input ∧ shots g4 = shots g3 := updateAsteroids_input g3
  have h6 : g6.input = g4.input ∧ shots g6 = shots g4 := ⟨rfl, rfl⟩
  have h7 : g7.input = g6.input ∧ shots g7 = shots g6 := checkCollisions_input g6
  have e7 : g7.input = g2.input := h7.1.trans (h6.1.trans (h4.1.trans h3.1))
  have s7 : shots g7 = shots g := h7.2.trans (h6.2.trans (h4.2.trans (h3.2.trans h2.1)))
  have h8 := handleShooting_cooldown g7
  have h9 : g9.input = g8.input ∧ shots g9 = shots g8 := checkLevelComplete_input g8
  have h10 : g10.input = g9.input ∧ shots g10 = shots g9 := updateEffects_input g9
  have e10 : g10.input = g8.input := h10.1.trans h9.1
  have s10 : shots g10 = shots g8 := h10.2.trans h9.2
  show g.input.fireTimer - g.deltaTime ≤ g10.input.fireTimer ∧
    (shots g10 = shots g ∨ shots g10 = shots g + 1) ∧
    (shots g10 = shots g + 1 → g.input.fireTimer ≤ g.deltaTime ∧ g10.input.fireTimer = 0.15)
  rw [e10, s10]
  have h8b : (shots g8 = shots g7 + 1 ∧ g7.input.fireTimer ≤ 0 ∧ g8.input.fireTimer = 0.15) ∨
      (shots g8 = shots g7 ∧ g8.input = g7.input) := h8
  rw [s7, e7] at h8b
  rcases h8b with ⟨hs, ht, hf⟩ | ⟨hs, hi⟩
  · refine ⟨?_, Or.inr hs, fun _ => ⟨h2.2.2 ht, hf⟩⟩
    rw [hf]
    have := h2.2.2 ht
    norm_num
    linarith
  · refine ⟨?_, Or.inl hs, ?_⟩
    · rw [hi]
      exact h2.2.1
    · intro hs2
      omega

theorem handleInput_cooldown (key : Key) (isPressed : Bool) (g : Game) :
    (handleInput key isPressed g).input.fireTimer = g.input.fireTimer ∧
    shots (handleInput key isPressed g) = shots g := by
  cases key <;> exact ⟨rfl, rfl⟩

theorem runEvents_cooldown (events : List FrameEvent) (g : Game)
    (hdt : ∀ e ∈ events, 0 ≤ e.duration) :
    g.input.fireTimer - elapsed events ≤ (runEvents events g).input.fireTimer := by
  induction events generalizing g with
  | nil =>
    simp [runEvents, elapsed]
  | cons e rest ih =>
    have hrest : ∀ x ∈ rest, 0 ≤ x.duration := fun x hx => hdt x (List.mem_cons_of_mem _ hx)
    have he : 0 ≤ e.duration := hdt e (List.mem_cons_self _ _)
    have h1 : g.input.fireTimer - e.duration ≤ (e.run g).input.fireTimer := by
      cases e with
      | input key isPressed =>
        show g.input.fireTimer - 0 ≤ (handleInput key isPressed g).input.fireTimer
        rw [(handleInput_cooldown key isPressed g).1]
        linarith
      | tick deltaTime =>
        exact (update_cooldown { g with deltaTime := deltaTime } he).1
    have h2 := ih (e.run g) hrest
    have h3 : runEvents (e :: rest) g = runEvents rest (e.run g) := rfl
    have h4 : elapsed (e :: rest) = e.duration + elapsed rest := by
      simp [elapsed]
    rw [h3, h4]
    linarith

/-- C25. `handleShooting` adds a bullet only when the fire key is held, the
timer is at most 0 and the player is alive; it then adds exactly one bullet and
sets the timer to 0.15, and otherwise changes nothing, so a frame spawns at most
one bullet. Hence, over frames with `deltaTime >= 0` and key events in any
order, the `deltaTime` accumulated from a frame that spawns a bullet to a later
frame that spawns one is at least 0.15. -/
theorem fire_rate_limited (g : Game) (first : ℚ) (between : List FrameEvent) (last : ℚ)
    (hfirst : 0 ≤ first) (hbetween : ∀ e ∈ between, 0 ≤ e.duration) (hlast : 0 ≤ last)
    (hshot1 : shots (frame first g) = shots g + 1)
    (hshot2 : shots (frame last (runEvents between (frame first g))) =
      shots (runEvents between (frame first g)) + 1) :
    (0.15 : ℚ) ≤ elapsed between + last ∧
    (∀ s : Game,
      (∀ p, s.player = some p → s.input.fire = true → s.input.fireTimer ≤ 0 → p.isAlive = true →
        (∃ b, (handleShooting s).bullets = s.bullets ++ [b]) ∧
        (handleShooting s).input.fireTimer = 0.15) ∧
      (¬ (s.input.fire = true ∧ s.input.fireTimer ≤ 0 ∧
          ∃ p, s.player = some p ∧ p.isAlive = true) → handleShooting s = s)) ∧
    (∀ s : Game, ∀ dt, 0 ≤ dt → shots (frame dt s) = shots s ∨ shots (frame dt s) = shots s + 1) := by
  refine ⟨?_, ?_, ?_⟩
  · have h1 := (update_cooldown { g with deltaTime := first } hfirst).2.2 hshot1
    have h2 := runEvents_cooldown between (frame first g) hbetween
    have h3 := (update_cooldown
      { runEvents between (frame first g) with deltaTime := last } hlast).2.2 hshot2
    have e1 : (frame first g).input.fireTimer = 0.15 := h1.2
    have e3 : (runEvents between (frame first g)).input.fireTimer ≤ last := h3.1
    rw [e1] at h2
    linarith
  · intro s
    refine ⟨?_, (handleShooting_spawn s).2⟩
    intro p hp hfire htimer halive
    obtain ⟨h1, h2, -, -⟩ := (handleShooting_spawn s).1 p hp hfire htimer halive
    exact ⟨h1, h2⟩
  · intro s dt hdt
    exact (update_cooldown { s with deltaTime := dt } hdt).2.1

set_option maxRecDepth 100000 in
theorem firingGame_shots :
    shots (frame 0.1 firingGame) = shots firingGame + 1 ∧
    shots (runEvents [.tick 0.1, .input .left true] (frame 0.1 firingGame)) =
      shots (frame 0.1 firingGame) ∧
    shots (frame 0.1 (runEvents [.tick 0.1, .input .left true] (frame 0.1 firingGame))) =
      shots (runEvents [.tick 0.1, .input .left true] (frame 0.1 firingGame)) + 1 := by
  refine ⟨?_, ?_, ?_⟩ <;> decide!

theorem fire_rate_limited_witness :
    shots (frame 0.1 firingGame) = shots firingGame + 1 ∧
    shots (frame 0.1 (runEvents [.tick 0.1, .input .left true] (frame 0.1 firingGame))) =
      shots (runEvents [.tick 0.1, .input .left true] (frame 0.1 firingGame)) + 1 ∧
    (0.15 : ℚ) ≤ elapsed [.tick 0.1, .input .left true] + 0.1 :=
  ⟨firingGame_shots.1, firingGame_shots.2.2,
    (fire_rate_limited firingGame 0.1 [.tick 0.1, .input .left true] 0.1 (by decide!)
      (by
        intro e he
        simp only [List.mem_cons, List.mem_singleton, List.mem_nil_iff, or_false] at he
        rcases he with rfl | rfl <;> decide!)
      (by decide!) firingGame_shots.1 firingGame_shots.2.2).1⟩

/-! ## The recorder mirrors the game's counters -/

theorem updateAccuracy_session (st : GameStats) :
    st.updateAccuracy.session.score = st.session.score ∧
    st.updateAccuracy.session.asteroidsDestroyed = st.session.asteroidsDestroyed ∧
    st.updateAccuracy.session.level = st.session.level := by
  unfold GameStats.updateAccuracy
  split_ifs <;> exact ⟨rfl, rfl, rfl⟩

theorem destroyAsteroid_mirrors (a : Asteroid) (g : Game) (h : mirrors g) :
    mirrors (destroyAsteroid a g) := by
  obtain ⟨h1, h2, h3, h4⟩ := destroyAsteroid_counters a g
  obtain ⟨m1, m2, m3⟩ := h
  refine ⟨?_, ?_, ?_⟩
  · rw [h1, h3, m1]
  · rw [h2, h4, m2]
  · have hl : (destroyAsteroid a g).level = g.level := (destroyAsteroid_frame a g).2.2.2.2.2.1
    have hs : (destroyAsteroid a g).stats.session.level = g.stats.session.level := by
      simp only [destroyAsteroid, GameStats.addScore, GameStats.asteroidDestroyed]
      rw [(updateAccuracy_session _).2.2]
      split_ifs <;> simp
    rw [hl, hs, m3]

theorem playerHit_mirrors (g : Game) (h : mirrors g) : mirrors (playerHit g) := by
  have hs := (playerHit_score g).2
  have hg : (playerHit g).score = g.score ∧
      (playerHit g).asteroidsDestroyed = g.asteroidsDestroyed ∧
      (playerHit g).level = g.level := by
    unfold playerHit
    cases g.player with
    | none => exact ⟨rfl, rfl, rfl⟩
    | some p =>
      simp only []
      split_ifs <;> exact ⟨rfl, rfl, rfl⟩
  unfold mirrors
  rw [hs, hg.1, hg.2.1, hg.2.2]
  exact h

theorem checkCollisions_mirrors (g : Game) (h : mirrors g) : mirrors (checkCollisions g) := by
  unfold checkCollisions
  cases g.player with
  | none => exact h
  | some p0 =>
    simp only []
    split_ifs
    · exact h
    · have h1 : mirrors (playerVsAsteroids g) := by
        unfold playerVsAsteroids
        apply asteroidsForEach_invariant mirrors _ _ h
        intro k a s hs
        cases hp : s.player with
        | none => simpa [hp] using hs
        | some p =>
          simp only [hp]
          split_ifs
          · exact playerHit_mirrors s hs
          · exact hs
      unfold bulletsVsAsteroids
      apply bulletsForEach_invariant mirrors _ _ h1
      intro i b s hs
      apply asteroidsForEach_invariant mirrors _ _ hs
      intro k a t ht
      unfold bulletVsAsteroid
      split_ifs
      · exact destroyAsteroid_mirrors a t ht
      · exact ht

theorem handleShooting_mirrors (g : Game) (h : mirrors g) : mirrors (handleShooting g) := by
  unfold handleShooting
  cases g.player with
  | none => exact h
  | some p =>
    simp only []
    split_ifs
    · unfold mirrors
      simp only [GameStats.shotFired]
      rw [(updateAccuracy_session _).1, (updateAccuracy_session _).2.1,
        (updateAccuracy_session _).2.2]
      exact h
    · exact h

theorem checkLevelComplete_mirrors (g : Game) (h : mirrors g) :
    mirrors (checkLevelComplete g) := by
  unfold checkLevelComplete
  split_ifs
  · obtain ⟨m1, m2, m3⟩ := h
    refine ⟨m1, m2, ?_⟩
    show g.level + 1 = g.stats.session.level + 1
    rw [m3]
  · exact h

theorem updateEffects_mirrors (g : Game) (h : mirrors g) : mirrors (updateEffects g) := by
  unfold updateEffects
  simp only []
  split_ifs <;> exact h

theorem updateInputTimers_mirrors (g : Game) (h : mirrors g) :
    mirrors (updateInputTimers g) := by
  unfold updateInputTimers
  split_ifs <;> exact h

theorem updatePlayer_mirrors (g : Game) (h : mirrors g) : mirrors (updatePlayer g) := by
  unfold updatePlayer
  cases g.player with
  | none => exact h
  | some p =>
    simp only []
    split_ifs
    · unfold applyRadialGravity updateCamera
      exact h
    · exact h

theorem updateAsteroids_mirrors (g : Game) (h : mirrors g) : mirrors (updateAsteroids g) := by
  unfold updateAsteroids
  exact asteroidsForEach_invariant mirrors _ _ h (fun k a s hs => hs)

theorem update_mirrors (g : Game) (h : mirrors g) : mirrors (update g) := by
  unfold update
  lift_lets
  intro g1 g2 g3 g4 g5 g6 g7 g8 g9 g10
  have h1 : mirrors g1 := h
  have h2 := updateInputTimers_mirrors g1 h1
  have h3 := updatePlayer_mirrors g2 h2
  have h4 := updateAsteroids_mirrors g3 h3
  have h5 : mirrors g5 := h4
  have h6 : mirrors g6 := h5
  have h7 := checkCollisions_mirrors g6 h6
  have h8 := handleShooting_mirrors g7 h7
  have h9 := checkLevelComplete_mirrors g8 h8
  have h10 := updateEffects_mirrors g9 h9
  exact h10

theorem gameLoop_mirrors (g : Game) (h : mirrors g) : mirrors (gameLoop g) := by
  unfold gameLoop
  simp only []
  split_ifs <;> first | exact h | exact update_mirrors _ h

theorem createRandomAsteroid_core (rounds : Nat) (g g1 : Game)
    (h : createRandomAsteroid rounds g = some g1) :
    g1.score = g.score ∧ g1.asteroidsDestroyed = g.asteroidsDestroyed ∧ g1.level = g.level ∧
    g1.stats = g.stats ∧ g1.lives = g.lives ∧ g1.isRunning = g.isRunning := by
  unfold createRandomAsteroid at h
  cases hr : rollPosition g.env g.player rounds g.calls with
  | none => rw [hr] at h; cases h
  | some r =>
    rw [hr] at h
    obtain ⟨x, y, c⟩ := r
    simp only [Option.some.injEq] at h
    subst h
    exact ⟨rfl, rfl, rfl, rfl, rfl, rfl⟩

theorem createRandomAsteroids_core (rounds n : Nat) (g g1 : Game)
    (h : createRandomAsteroids rounds n g = some g1) :
    g1.score = g.score ∧ g1.asteroidsDestroyed = g.asteroidsDestroyed ∧ g1.level = g.level ∧
    g1.stats = g.stats ∧ g1.lives = g.lives ∧ g1.isRunning = g.isRunning := by
  induction n generalizing g with
  | zero =>
    simp only [createRandomAsteroids, Option.some.injEq] at h
    subst h
    exact ⟨rfl, rfl, rfl, rfl, rfl, rfl⟩
  | succ n ih =>
    unfold createRandomAsteroids at h
    cases hc : createRandomAsteroid rounds g with
    | none => rw [hc] at h; cases h
    | some g2 =>
      rw [hc] at h
      obtain ⟨a1, a2, a3, a4, a5, a6⟩ := createRandomAsteroid_core rounds g g2 hc
      obtain ⟨b1, b2, b3, b4, b5, b6⟩ := ih g2 h
      exact ⟨b1.trans a1, b2.trans a2, b3.trans a3, b4.trans a4, b5.trans a5, b6.trans a6⟩

theorem setupLevel_core (rounds : Nat) (g g1 : Game) (hs : setupLevel rounds g = some g1) :
    g1.score = g.score ∧ g1.asteroidsDestroyed = g.asteroidsDestroyed ∧ g1.level = g.level ∧
    g1.stats = g.stats ∧ g1.lives = g.lives ∧ g1.isRunning = g.isRunning := by
  unfold setupLevel at hs
  have hc := createRandomAsteroids_core _ _ _ _ hs
  exact hc

theorem setupLevel_mirrors (rounds : Nat) (g g1 : Game) (hs : setupLevel rounds g = some g1)
    (h : mirrors g) : mirrors g1 := by
  obtain ⟨c1, c2, c3, c4, -, -⟩ := setupLevel_core rounds g g1 hs
  unfold mirrors
  rw [c1, c2, c3, c4]
  exact h

theorem respawnPlayer_mirrors (g : Game) (h : mirrors g) : mirrors (respawnPlayer g) := by
  unfold respawnPlayer
  simp only []
  split_ifs <;> exact h

theorem start_mirrors (rounds : Nat) (g g1 : Game) (hs : start rounds g = some g1)
    (h : g.isRunning = true → mirrors g) : mirrors g1 := by
  unfold start at hs
  cases hrun : g.isRunning with
  | true =>
    simp only [hrun, if_true, Option.some.injEq] at hs
    subst hs
    exact h hrun
  | false =>
    simp only [hrun, Bool.false_eq_true, if_false] at hs
    split at hs
    · cases hs
    · rename_i g2 hsetup
      simp only [Option.some.injEq] at hs
      subst hs
      exact gameLoop_mirrors g2 (setupLevel_mirrors rounds _ g2 hsetup ⟨rfl, rfl, rfl⟩)

theorem fire_mirrors (rounds : Nat) (action : Deferred) (g g1 : Game)
    (hs : fire rounds action g = some g1) (h : mirrors g) : mirrors g1 := by
  cases action with
  | respawnIfRunning =>
    simp only [fire, Option.some.injEq] at hs
    subst hs
    split_ifs
    · exact respawnPlayer_mirrors g h
    · exact h
  | respawnPlayer =>
    simp only [fire, Option.some.injEq] at hs
    subst hs
    exact respawnPlayer_mirrors g h
  | setupLevel => exact setupLevel_mirrors rounds g g1 hs h
  | start => exact start_mirrors rounds g g1 hs (fun _ => h)
  | gameLoop =>
    simp only [fire, Option.some.injEq] at hs
    subst hs
    exact gameLoop_mirrors g h

/-- C29. In every state of a session that `start()` has begun, reached through
animation frames, pending callbacks, key events and the menu calls, the game's
counters equal the recorder's session counters: `score`, `asteroidsDestroyed`
and `level`. -/
theorem reachable_counters_mirror (g : Game) (h : Reachable g) :
    g.score = g.stats.session.score ∧
    g.asteroidsDestroyed = g.stats.session.asteroidsDestroyed ∧
    g.level = g.stats.session.level := by
  show mirrors g
  induction h with
  | started rounds g0 g hrun hs =>
    exact start_mirrors rounds g0 g hs (fun h => by rw [hrun] at h; cases h)
  | fired rounds action g g1 _ hs ih => exact fire_mirrors rounds action g g1 hs ih
  | keyed key isPressed g _ ih => cases key <;> exact ih
  | resized width height g _ ih => exact ih
  | paused g _ ih =>
    unfold pause
    split_ifs <;> exact ih
  | resumed g _ ih =>
    unfold resume
    split_ifs <;> exact ih
  | stopped g _ ih => exact ih
  | restarted g _ ih => exact ih

set_option maxRecDepth 100000 in
theorem startedGame_isSome : startedGame.isSome = true := by decide!

theorem reachable_counters_mirror_witness :
    ∃ g, startedGame = some g ∧ Reachable (gameLoop g) ∧
      (gameLoop g).score = (gameLoop g).stats.session.score ∧
      (gameLoop g).asteroidsDestroyed = (gameLoop g).stats.session.asteroidsDestroyed ∧
      (gameLoop g).level = (gameLoop g).stats.session.level := by
  obtain ⟨g, hg⟩ := Option.isSome_iff_exists.mp startedGame_isSome
  have hr : Reachable (gameLoop g) :=
    Reachable.fired 1 .gameLoop g _ (Reachable.started 1 (stop demoGame) g rfl hg) rfl
  exact ⟨g, hg, hr, reachable_counters_mirror _ hr⟩

/-! ## The lives counter -/

theorem playerHit_frameOk (g : Game) (h : frameOk g) : frameOk (playerHit g) := by
  unfold playerHit
  cases hp : g.player with
  | none => exact h
  | some p =>
    simp only []
    cases halive : p.isAlive with
    | false =>
      simp only [Bool.not_false, if_true]
      exact h
    | true =>
      simp only [Bool.not_true, Bool.false_eq_true, if_false]
      obtain ⟨⟨h0, h3, hz⟩, hstop⟩ := h
      have hrun : g.isRunning = true := by
        cases hr : g.isRunning with
        | true => rfl
        | false =>
          have := hstop hr p hp
          rw [halive] at this
          cases this
      have hne : g.lives ≠ 0 := by
        intro h00
        have := hz h00
        rw [hrun] at this
        cases this
      have h1 : 1 ≤ g.lives := by omega
      split_ifs with hle
      · have hl0 : g.lives - 1 = 0 := by
          have : g.lives - 1 ≤ 0 := hle
          omega
        refine ⟨⟨?_, ?_, fun _ => rfl⟩, ?_⟩
        · show 0 ≤ g.lives - 1
          omega
        · show g.lives - 1 ≤ 3
          omega
        · intro _ q hq
          have : some p.destroy = some q := hq
          simp only [Option.some.injEq] at this
          rw [← this]
          rfl
      · have hgt : ¬ g.lives - 1 ≤ 0 := hle
        refine ⟨⟨?_, ?_, ?_⟩, ?_⟩
        · show 0 ≤ g.lives - 1
          omega
        · show g.lives - 1 ≤ 3
          omega
        · intro h00
          have : g.lives - 1 = 0 := h00
          omega
        · intro hr
          have : g.isRunning = false := hr
          rw [hrun] at this
          cases this

theorem frameOk_of_same (g r : Game) (h : frameOk g) (hl : r.lives = g.lives)
    (hr : r.isRunning = g.isRunning) (hp : r.player = g.player) : frameOk r := by
  unfold frameOk livesOk
  rw [hl, hr, hp]
  exact h

theorem checkCollisions_frameOk (g : Game) (h : frameOk g) : frameOk (checkCollisions g) := by
  unfold checkCollisions
  cases g.player with
  | none => exact h
  | some p0 =>
    simp only []
    split_ifs
    · exact h
    · have h1 : frameOk (playerVsAsteroids g) := by
        unfold playerVsAsteroids
        apply asteroidsForEach_invariant frameOk _ _ h
        intro k a s hs
        cases hp : s.player with
        | none => simpa [hp] using hs
        | some p =>
          simp only [hp]
          split_ifs
          · exact playerHit_frameOk s hs
          · exact hs
      obtain ⟨b1, b2, b3, -⟩ := bulletsVsAsteroids_frame (playerVsAsteroids g)
      exact frameOk_of_same _ _ h1 b2 b3 b1

theorem updatePlayer_frameOk (g : Game) (h : frameOk g) : frameOk (updatePlayer g) := by
  unfold updatePlayer
  cases hp : g.player with
  | none => exact h
  | some p =>
    simp only []
    split_ifs with halive
    · unfold applyRadialGravity updateCamera
      refine ⟨h.1, ?_⟩
      intro hr
      have hr2 : g.isRunning = false := hr
      have := h.2 hr2 p hp
      rw [halive] at this
      cases this
    · exact h

theorem updateAsteroids_same (g : Game) :
    (updateAsteroids g).lives = g.lives ∧ (updateAsteroids g).isRunning = g.isRunning ∧
    (updateAsteroids g).player = g.player := by
  unfold updateAsteroids
  exact asteroidsForEach_invariant
    (fun (r : Game) => r.lives = g.lives ∧ r.isRunning = g.isRunning ∧ r.player = g.player) _ _
    ⟨rfl, rfl, rfl⟩ (fun k a s hs => hs)

theorem handleShooting_same (g : Game) :
    (handleShooting g).lives = g.lives ∧ (handleShooting g).isRunning = g.isRunning ∧
    (handleShooting g).player = g.player := by
  by_cases hc : g.input.fire = true ∧ g.input.fireTimer ≤ 0 ∧
      ∃ p, g.player = some p ∧ p.isAlive = true
  · obtain ⟨hfire, htimer, p, hp, halive⟩ := hc
    unfold handleShooting
    rw [hp]
    simp only []
    rw [if_pos (by simp [hfire, htimer, halive])]
    exact ⟨rfl, rfl, rfl⟩
  · rw [(handleShooting_spawn g).2 hc]
    exact ⟨rfl, rfl, rfl⟩

theorem checkLevelComplete_same (g : Game) :
    (checkLevelComplete g).lives = g.lives ∧ (checkLevelComplete g).isRunning = g.isRunning ∧
    (checkLevelComplete g).player = g.player := by
  unfold checkLevelComplete
  split_ifs <;> exact ⟨rfl, rfl, rfl⟩

theorem updateEffects_same (g : Game) :
    (updateEffects g).lives = g.lives ∧ (updateEffects g).isRunning = g.isRunning ∧
    (updateEffects g).player = g.player := by
  unfold updateEffects
  simp only []
  split_ifs <;> exact ⟨rfl, rfl, rfl⟩

theorem updateInputTimers_same (g : Game) :
    (updateInputTimers g).lives = g.lives ∧ (updateInputTimers g).isRunning = g.isRunning ∧
    (updateInputTimers g).player = g.player := by
  unfold updateInputTimers
  split_ifs <;> exact ⟨rfl, rfl, rfl⟩

theorem update_frameOk (g : Game) (h : frameOk g) : frameOk (update g) := by
  unfold update
  lift_lets
  intro g1 g2 g3 g4 g5 g6 g7 g8 g9 g10
  have h1 : frameOk g1 := h
  have s2 := updateInputTimers_same g1
  have h2 : frameOk g2 := frameOk_of_same g1 g2 h1 s2.1 s2.2.1 s2.2.2
  have h3 : frameOk g3 := updatePlayer_frameOk g2 h2
  have s4 := updateAsteroids_same g3
  have h4 : frameOk g4 := frameOk_of_same g3 g4 h3 s4.1 s4.2.1 s4.2.2
  have h6 : frameOk g6 := h4
  have h7 : frameOk g7 := checkCollisions_frameOk g6 h6
  have s8 := handleShooting_same g7
  have h8 : frameOk g8 := frameOk_of_same g7 g8 h7 s8.1 s8.2.1 s8.2.2
  have s9 := checkLevelComplete_same g8
  have h9 : frameOk g9 := frameOk_of_same g8 g9 h8 s9.1 s9.2.1 s9.2.2
  have s10 := updateEffects_same g9
  have h10 : frameOk g10 := frameOk_of_same g9 g10 h9 s10.1 s10.2.1 s10.2.2
  exact h10

theorem gameLoop_livesOk (g : Game) (h : livesOk g) : livesOk (gameLoop g) := by
  have key : ∀ (r : Game) (t : List Timer), livesOk r → livesOk { r with timers := t } :=
    fun r t hr => hr
  unfold gameLoop
  by_cases hrun : g.isRunning = true
  · rw [if_neg (by simp [hrun])]
    simp only []
    apply key
    split_ifs
    · apply And.left
      apply update_frameOk
      refine ⟨h, ?_⟩
      intro hr
      have : g.isRunning = false := hr
      rw [hrun] at this
      cases this
    · exact h
  · rw [if_pos (by simp [hrun])]
    exact h

theorem setupLevel_livesOk (rounds : Nat) (g g1 : Game) (hs : setupLevel rounds g = some g1)
    (h : livesOk g) : livesOk g1 := by
  obtain ⟨-, -, -, -, c5, c6⟩ := setupLevel_core rounds g g1 hs
  unfold livesOk
  rw [c5, c6]
  exact h

theorem respawnPlayer_livesOk (g : Game) (h : livesOk g) : livesOk (respawnPlayer g) := by
  unfold respawnPlayer
  simp only []
  split_ifs <;> exact h

theorem start_livesOk (rounds : Nat) (g g1 : Game) (hs : start rounds g = some g1)
    (h : g.isRunning = true → livesOk g) : livesOk g1 := by
  unfold start at hs
  cases hrun : g.isRunning with
  | true =>
    simp only [hrun, if_true, Option.some.injEq] at hs
    subst hs
    exact h hrun
  | false =>
    simp only [hrun, Bool.false_eq_true, if_false] at hs
    split at hs
    · cases hs
    · rename_i g2 hsetup
      simp only [Option.some.injEq] at hs
      subst hs
      refine gameLoop_livesOk g2 (setupLevel_livesOk rounds _ g2 hsetup ⟨?_, ?_, ?_⟩)
      · show (0 : ℤ) ≤ 3
        decide
      · show (3 : ℤ) ≤ 3
        decide
      · intro h3
        have : (3 : ℤ) = 0 := h3
        omega

theorem fire_livesOk (rounds : Nat) (action : Deferred) (g g1 : Game)
    (hs : fire rounds action g = some g1) (h : livesOk g) : livesOk g1 := by
  cases action with
  | respawnIfRunning =>
    simp only [fire, Option.some.injEq] at hs
    subst hs
    split_ifs
    · exact respawnPlayer_livesOk g h
    · exact h
  | respawnPlayer =>
    simp only [fire, Option.some.injEq] at hs
    subst hs
    exact respawnPlayer_livesOk g h
  | setupLevel => exact setupLevel_livesOk rounds g g1 hs h
  | start => exact start_livesOk rounds g g1 hs (fun _ => h)
  | gameLoop =>
    simp only [fire, Option.some.injEq] at hs
    subst hs
    exact gameLoop_livesOk g h

/-- C30. In every state of a session that `start()` has begun, reached through
animation frames, the deferred respawn and level-setup callbacks, key events
and the menu calls, `0 <= lives <= 3`, and `lives == 0` implies that the session
has been stopped (`isRunning` is false). -/
theorem reachable_lives_in_range (g : Game) (h : Reachable g) :
    0 ≤ g.lives ∧ g.lives ≤ 3 ∧ (g.lives = 0 → g.isRunning = false) := by
  show livesOk g
  induction h with
  | started rounds g0 g hrun hs =>
    exact start_livesOk rounds g0 g hs (fun h => by rw [hrun] at h; cases h)
  | fired rounds action g g1 _ hs ih => exact fire_livesOk rounds action g g1 hs ih
  | keyed key isPressed g _ ih => cases key <;> exact ih
  | resized width height g _ ih => exact ih
  | paused g _ ih =>
    unfold pause
    split_ifs <;> exact ih
  | resumed g _ ih =>
    unfold resume
    split_ifs <;> exact ih
  | stopped g _ ih => exact ⟨ih.1, ih.2.1, fun _ => rfl⟩
  | restarted g _ ih => exact ⟨ih.1, ih.2.1, fun _ => rfl⟩

theorem reachable_lives_in_range_witness :
    ∃ g, startedGame = some g ∧ Reachable (handleInput .fire true (pause g)) ∧
      0 ≤ (handleInput .fire true (pause g)).lives ∧
      (handleInput .fire true (pause g)).lives ≤ 3 ∧
      ((handleInput .fire true (pause g)).lives = 0 →
        (handleInput .fire true (pause g)).isRunning = false) := by
  obtain ⟨g, hg⟩ := Option.isSome_iff_exists.mp startedGame_isSome
  have hr : Reachable (handleInput .fire true (pause g)) :=
    Reachable.keyed .fire true _
      (Reachable.paused g (Reachable.started 1 (stop demoGame) g rfl hg))
  exact ⟨g, hg, hr, reachable_lives_in_range _ hr⟩

end AsteroidsX
